import Mathlib

/-!
# FinancialAgent — formal model of the ingestion-and-deduplication core

This file is a shallow embedding, in Lean 4, of the core ingestion pipeline
of the FinancialAgent repository (`src/finagent/tools/normalization.py`,
`csv_ingest.py`, `excel_ingest.py`, `pdf_ingest.py`,
`src/finagent/agents/spending_tools.py`), together with theorems that settle
the frozen claims about its specification.

Modelling conventions:
* Python strings are modelled as `List Char`; the claims range over ASCII
  data, so Unicode NFKD normalization (identity on ASCII) is modelled as the
  identity, and Python `str.upper` / `str.lower` are modelled by the ASCII
  `Char.toUpper` / `Char.toLower`.
* Python `float` parsing of the cleaned amount string is modelled by exact
  rational arithmetic with round-half-to-even (`round` in Python); on
  amounts with at most two decimals — the contract of the EU bank formats
  handled here — the double-precision computation and the exact rational
  computation agree.
* `sqlite3` tables are modelled as lists of row records in insertion order;
  `SELECT ... LIMIT`-free lookups return the first match in rowid order.
* Exceptions that the source catches row-locally are modelled by `Option` /
  `Except` values; a `none` / `.error` outcome is the modelled exception.
* `hashlib.sha256(...).hexdigest()` is modelled by an executable SHA-256
  implementation over the UTF-8 encoding of the hashed string.
-/

namespace FinAgent

/-! ## Python-style character and string primitives -/

/-- The whitespace characters of Python's `str.strip` / regex `\s` that can
occur in the (ASCII plus NBSP) data handled by the pipeline. -/
def pySpace (c : Char) : Bool :=
  c = ' ' || c = '\t' || c = '\n' || c = '\r' || c = '\x0b' || c = '\x0c' ||
  c = ' '

/-- ASCII decimal digit, the fragment of regex `\d` exercised here. -/
def pyDigit (c : Char) : Bool := '0' ≤ c && c ≤ '9'

/-- Python `str.strip()` (both ends) over the modelled whitespace set. -/
def pystrip (s : List Char) : List Char :=
  ((s.dropWhile pySpace).reverse.dropWhile pySpace).reverse

theorem length_dropWhile_le_self (p : α → Bool) (l : List α) :
    (l.dropWhile p).length ≤ l.length := by
  induction l with
  | nil => simp
  | cons c t ih =>
    by_cases h : p c
    · simp only [List.dropWhile_cons, h, if_pos, List.length_cons]
      omega
    · simp [List.dropWhile_cons, h]

/-- Helper for `collapseWs`: every maximal whitespace run is replaced by a
single space. -/
def collapseWsAux : Bool → List Char → List Char
  | _, [] => []
  | inRun, c :: t =>
    if pySpace c then
      if inRun then collapseWsAux true t else ' ' :: collapseWsAux true t
    else c :: collapseWsAux false t

/-- `re.sub(r"\s+", " ", s)` as a single pass (the flag remembers whether
the scan is inside a whitespace run), structurally recursive so that it is
kernel-reducible. -/
def collapseWs (s : List Char) : List Char := collapseWsAux false s

/-- ASCII lower-casing, modelling Python `str.lower()` on the data in scope. -/
def pylower (s : List Char) : List Char := s.map Char.toLower

/-- ASCII upper-casing, modelling Python `str.upper()` on the data in scope. -/
def pyupper (s : List Char) : List Char := s.map Char.toUpper

/-! ## `normalization.parse_eu_amount_to_cents` -/

/-- Round-half-to-even of the exact rational `a / d` (for `d > 0`), the
behaviour of Python's builtin `round` (modelled exactly over integers; see
the module docstring). -/
def pyRoundQ (a : ℤ) (d : ℤ) : ℤ :=
  let f : ℤ := a.fdiv d
  let r : ℤ := a.fmod d
  if 2 * r < d then f
  else if d < 2 * r then f + 1
  else if f % 2 = 0 then f else f + 1

/-- Decimal digit run to a natural number. -/
def digitsToNat (ds : List Char) : ℕ :=
  ds.foldl (fun a c => a * 10 + (c.toNat - 48)) 0

/-- Parse the cleaned amount string (sign, digits, at most one dot) into an
exact value `num / 10 ^ pow`, modelling Python `float(s)` on the decimal
fragment it receives from `parse_eu_amount_to_cents`. Returns `none` where
`float` raises `ValueError`. -/
def floatOfClean (s : List Char) : Option (ℤ × ℕ) :=
  let (sign, body) :=
    match s with
    | '-' :: t => ((-1 : ℤ), t)
    | '+' :: t => ((1 : ℤ), t)
    | t => ((1 : ℤ), t)
  let intPart := body.takeWhile pyDigit
  let rest := body.dropWhile pyDigit
  match rest with
  | [] =>
    if intPart = [] then none
    else some (sign * (digitsToNat intPart : ℤ), 0)
  | '.' :: fracs =>
    if fracs.all pyDigit ∧ (intPart ≠ [] ∨ fracs ≠ []) then
      some (sign * (digitsToNat (intPart ++ fracs) : ℤ), fracs.length)
    else none
  | _ => none

/-- `normalization.parse_eu_amount_to_cents`: strip, drop `.` thousands
separators, turn NBSP into spaces and drop spaces, decimal comma to dot,
parse, round `val * 100` to cents, then force the sign from the direction
token (`"af"` case-insensitively ⇒ negative). `none` models the
`ValueError` the caller catches row-locally. The cleaning chain
(strip, drop dots, NBSP to space, drop spaces, comma to dot) is the
sequence of `replace` calls at the top of the source function. -/
def cleanAmount (amount_str : List Char) : List Char :=
  let s₀ := pystrip amount_str
  let s₁ := s₀.filter (· ≠ '.')
  let s₂ := s₁.map (fun c => if c = ' ' then ' ' else c)
  let s₃ := s₂.filter (· ≠ ' ')
  s₃.map (fun c => if c = ',' then '.' else c)

def parse_eu_amount_to_cents (amount_str : List Char) (debit_credit : List Char) :
    Option ℤ :=
  match floatOfClean (cleanAmount amount_str) with
  | none => none
  | some (num, pow) =>
    let cents := pyRoundQ (num * 100) ((10 : ℤ) ^ pow)
    if pylower (pystrip debit_credit) = "af".data then
      some (-(cents.natAbs : ℤ))
    else
      some ((cents.natAbs : ℤ))

/-! ## SHA-256 (`hashlib.sha256(...).hexdigest()`)

An executable SHA-256 over byte lists, used to model both the content hash
of documents and the transaction fingerprint. -/

/-- Truncate to a 32-bit word. -/
def w32 (n : ℕ) : ℕ := n % 4294967296

/-- 32-bit right rotation. -/
def rotr (k x : ℕ) : ℕ := w32 ((x >>> k) ||| (x <<< (32 - k)))

/-- The SHA-256 round constants (FIPS 180-4, written in decimal). -/
def sha256K : List ℕ :=
  [1116352408, 1899447441, 3049323471, 3921009573, 961987163, 1508970993,
   2453635748, 2870763221, 3624381080, 310598401, 607225278, 1426881987,
   1925078388, 2162078206, 2614888103, 3248222580, 3835390401, 4022224774,
   264347078, 604807628, 770255983, 1249150122, 1555081692, 1996064986,
   2554220882, 2821834349, 2952996808, 3210313671, 3336571891, 3584528711,
   113926993, 338241895, 666307205, 773529912, 1294757372, 1396182291,
   1695183700, 1986661051, 2177026350, 2456956037, 2730485921, 2820302411,
   3259730800, 3345764771, 3516065817, 3600352804, 4094571909, 275423344,
   430227734, 506948616, 659060556, 883997877, 958139571, 1322822218,
   1537002063, 1747873779, 1955562222, 2024104815, 2227730452, 2361852424,
   2428436474, 2756734187, 3204031479, 3329325298]

/-- The SHA-256 initial hash value (FIPS 180-4, written in decimal). -/
def sha256H0 : List ℕ :=
  [1779033703, 3144134277, 1013904242, 2773480762,
   1359893119, 2600822924, 528734635, 1541459225]

/-- Big-endian bytes of a number, fixed width. -/
def beBytes : ℕ → ℕ → List ℕ
  | 0, _ => []
  | k + 1, n => (n >>> (8 * k)) % 256 :: beBytes k n

/-- SHA-256 padding: `0x80`, zeros to 56 mod 64, 8-byte big-endian bit length. -/
def sha256Pad (msg : List ℕ) : List ℕ :=
  let l := msg.length
  let k := (119 - l % 64) % 64
  msg ++ 0x80 :: List.replicate k 0 ++ beBytes 8 (8 * l)

/-- Group the padded byte stream into big-endian 32-bit words. -/
def bytesToWords : List ℕ → List ℕ
  | b0 :: b1 :: b2 :: b3 :: rest =>
    (((b0 * 256 + b1) * 256 + b2) * 256 + b3) :: bytesToWords rest
  | _ => []

/-- Extend 16 message words to the 64-entry schedule. The accumulator is
kept in reverse order (most recent first). -/
def sha256Extend : ℕ → List ℕ → List ℕ
  | 0, acc => acc
  | fuel + 1, acc =>
    let at_ : ℕ → ℕ := fun i => (acc.get? i).getD 0
    let s0 := (rotr 7 (at_ 14)).xor ((rotr 18 (at_ 14)).xor ((at_ 14) >>> 3))
    let s1 := (rotr 17 (at_ 1)).xor ((rotr 19 (at_ 1)).xor ((at_ 1) >>> 10))
    sha256Extend fuel (w32 (at_ 15 + s0 + at_ 6 + s1) :: acc)

/-- One SHA-256 compression round. -/
def sha256Round (st : List ℕ) (kw : ℕ × ℕ) : List ℕ :=
  match st with
  | [a, b, c, d, e, f, g, h] =>
    let s1 := (rotr 6 e).xor ((rotr 11 e).xor (rotr 25 e))
    let ch := (e.land f).xor ((e.xor 0xffffffff).land g)
    let t1 := w32 (h + s1 + ch + kw.1 + kw.2)
    let s0 := (rotr 2 a).xor ((rotr 13 a).xor (rotr 22 a))
    let mj := (a.land b).xor ((a.land c).xor (b.land c))
    let t2 := w32 (s0 + mj)
    [w32 (t1 + t2), a, b, c, w32 (d + t1), e, f, g]
  | st => st

/-- Compress one 64-byte chunk into the running hash state. -/
def sha256Chunk (h : List ℕ) (chunk : List ℕ) : List ℕ :=
  let ws := (sha256Extend 48 (bytesToWords chunk).reverse).reverse
  let out := (sha256K.zip ws).foldl sha256Round h
  (h.zip out).map (fun p => w32 (p.1 + p.2))

/-- Fold the compression function over the (64-byte-aligned, since padded)
byte stream, buffering one chunk at a time; structurally recursive on the
remaining bytes so that it is kernel-reducible. -/
def sha256Run (h : List ℕ) (buf : List ℕ) : List ℕ → List ℕ
  | [] => h
  | b :: rest =>
    if (buf ++ [b]).length = 64 then sha256Run (sha256Chunk h (buf ++ [b])) [] rest
    else sha256Run h (buf ++ [b]) rest

/-- Split into 64-byte chunks and fold the compression function. -/
def sha256Chunks (h : List ℕ) (bytes : List ℕ) : List ℕ :=
  sha256Run h [] bytes

/-- Lower-case hex digit. -/
def hexDigit (n : ℕ) : Char :=
  if n < 10 then Char.ofNat (48 + n) else Char.ofNat (87 + n)

/-- Fixed-width (8 hex digits) rendering of a 32-bit word. -/
def wordToHex (x : ℕ) : List Char :=
  [28, 24, 20, 16, 12, 8, 4, 0].map (fun k => hexDigit ((x >>> k) % 16))

/-- SHA-256 of a byte list as a lower-case hex string, modelling
`hashlib.sha256(bytes).hexdigest()`. -/
def sha256hex (bytes : List ℕ) : List Char :=
  (sha256Chunks sha256H0 (sha256Pad bytes)).foldr (fun x acc => wordToHex x ++ acc) []

/-- UTF-8 encoding of one character. -/
def utf8Char (c : Char) : List ℕ :=
  let n := c.toNat
  if n < 0x80 then [n]
  else if n < 0x800 then
    [0xc0 ||| (n >>> 6), 0x80 ||| (n &&& 0x3f)]
  else if n < 0x10000 then
    [0xe0 ||| (n >>> 12), 0x80 ||| ((n >>> 6) &&& 0x3f), 0x80 ||| (n &&& 0x3f)]
  else
    [0xf0 ||| (n >>> 18), 0x80 ||| ((n >>> 12) &&& 0x3f),
     0x80 ||| ((n >>> 6) &&& 0x3f), 0x80 ||| (n &&& 0x3f)]

/-- UTF-8 encoding of a string, modelling Python `str.encode("utf-8")`. -/
def utf8Encode (s : List Char) : List ℕ := s.flatMap utf8Char

/-- SHA-256 hex digest of a string's UTF-8 bytes. -/
def sha256hexOfString (s : List Char) : List Char := sha256hex (utf8Encode s)

/-! ## Deterministic matchers for the regular expressions of the source

Every regex in `normalization.py` / `pdf_ingest.py` is built from literals
and the quantifiers `\\s*`, `\\d+`, `\\d{k}`, `\\S+` over disjoint character
classes, so greedy matching without backtracking reproduces `re` exactly
(the bounded alternation of the PDF amount pattern is handled separately
below). A matcher consumes a match anchored at the head of the list and
returns the number of characters consumed. -/

/-- Case-sensitive literal. -/
def litCS : List Char → List Char → Option ℕ
  | [], _ => some 0
  | l :: lt, c :: ct => if c = l then (litCS lt ct).map (· + 1) else none
  | _ :: _, [] => none

/-- Case-insensitive literal (`re.IGNORECASE`); the literal is given in
lower case. -/
def litCI : List Char → List Char → Option ℕ
  | [], _ => some 0
  | l :: lt, c :: ct => if c.toLower = l then (litCI lt ct).map (· + 1) else none
  | _ :: _, [] => none

/-- Sequencing of anchored matchers. -/
def mseq (f g : List Char → Option ℕ) (s : List Char) : Option ℕ :=
  match f s with
  | none => none
  | some n => (g (s.drop n)).map (n + ·)

/-- `\\s*` (greedy, never fails). -/
def wsStar (s : List Char) : Option ℕ := some (s.takeWhile pySpace).length

/-- `\\d{k}` (exactly `k` digits). -/
def digitsExact (k : ℕ) (s : List Char) : Option ℕ :=
  if (s.take k).length = k ∧ (s.take k).all pyDigit then some k else none

/-- `\\d+` (greedy). -/
def digitsPlus (s : List Char) : Option ℕ :=
  let t := s.takeWhile pyDigit
  if t = [] then none else some t.length

/-- `\\S+` (greedy). -/
def nonWsPlus (s : List Char) : Option ℕ :=
  let t := s.takeWhile (fun c => !pySpace c)
  if t = [] then none else some t.length

/-- `re.sub(pattern, "", s)` for an anchored matcher: scan left to right,
delete each (necessarily non-empty) match and continue after it. -/
def subAllF (p : List Char → Option ℕ) : ℕ → List Char → List Char
  | _, [] => []
  | 0, s => s
  | fuel + 1, c :: t =>
    match p (c :: t) with
    | some (n + 1) => subAllF p fuel ((c :: t).drop (n + 1))
    | _ => c :: subAllF p fuel t

/-- `re.sub(pattern, "", s)`: the fuel (initially the string length, an
upper bound since every step consumes at least one character) keeps the
recursion structural and kernel-reducible. -/
def subAll (p : List Char → Option ℕ) (s : List Char) : List Char :=
  subAllF p s.length s

/-! ## `normalization.normalize_text` and `normalize_description` -/

/-- `normalization.normalize_text`: strip, NFKD (identity on the ASCII data
in scope, see the module docstring), collapse whitespace runs. -/
def normalize_text (value : List Char) : List Char :=
  collapseWs (pystrip value)

/-- `r"Datum/Tijd:\\s*\\d{2}-\\d{2}-\\d{4}\\s*\\d{2}:\\d{2}:\\d{2}"`. -/
def patDatumTijd : List Char → Option ℕ :=
  mseq (litCI "datum/tijd:".data) (mseq wsStar (mseq (digitsExact 2)
    (mseq (litCS "-".data) (mseq (digitsExact 2) (mseq (litCS "-".data)
    (mseq (digitsExact 4) (mseq wsStar (mseq (digitsExact 2)
    (mseq (litCS ":".data) (mseq (digitsExact 2)
    (mseq (litCS ":".data) (digitsExact 2))))))))))))

/-- `r"Pasvolgnr:\\s*\\d+"`. -/
def patPasvolgnr : List Char → Option ℕ :=
  mseq (litCI "pasvolgnr:".data) (mseq wsStar digitsPlus)

/-- `r"Term:\\s*\\S+"`. -/
def patTerm : List Char → Option ℕ :=
  mseq (litCI "term:".data) (mseq wsStar nonWsPlus)

/-- `r"Apple Pay"`. -/
def patApplePay : List Char → Option ℕ := litCI "apple pay".data

/-- `r"Transactie:\\s*\\S+"`. -/
def patTransactie : List Char → Option ℕ :=
  mseq (litCI "transactie:".data) (mseq wsStar nonWsPlus)

/-- The volatile-token patterns of `normalize_description`, in source order. -/
def volatilePatterns : List (List Char → Option ℕ) :=
  [patDatumTijd, patPasvolgnr, patTerm, patApplePay, patTransactie]

/-- `normalization.normalize_description`: normalize, strip each volatile
pattern (sequentially, case-insensitively), re-collapse whitespace, strip. -/
def normalize_description (desc : List Char) : List Char :=
  let v := normalize_text desc
  let v := volatilePatterns.foldl (fun acc p => subAll p acc) v
  pystrip (collapseWs v)

/-! ## Dates: `try_extract_value_date` and the ING booking-date rewrite -/

/-- Gregorian leap year, as `datetime.date` uses. -/
def isLeap (y : ℕ) : Bool := (y % 4 = 0 && y % 100 ≠ 0) || y % 400 = 0

/-- Days in a month, as `datetime.date` validates. -/
def daysInMonth (y m : ℕ) : ℕ :=
  if m = 2 then (if isLeap y then 29 else 28)
  else if m = 4 ∨ m = 6 ∨ m = 9 ∨ m = 11 then 30
  else 31

/-- The day/month/year triples accepted by `datetime.strptime(·, "%d-%m-%Y")`. -/
def validDMY (d m y : ℕ) : Bool :=
  1 ≤ y && 1 ≤ m && m ≤ 12 && 1 ≤ d && d ≤ daysInMonth y m

/-- Fixed-width zero-padded decimal rendering (`hexDigit` on values < 10 is
the decimal digit character). -/
def pad2 (n : ℕ) : List Char := [hexDigit (n / 10 % 10), hexDigit (n % 10)]

/-- Four-digit zero-padded year. -/
def pad4 (n : ℕ) : List Char :=
  [hexDigit (n / 1000 % 10), hexDigit (n / 100 % 10),
   hexDigit (n / 10 % 10), hexDigit (n % 10)]

/-- `datetime.date(y, m, d).isoformat()`. -/
def isoOfYMD (y m d : ℕ) : List Char :=
  pad4 y ++ '-' :: pad2 m ++ '-' :: pad2 d

/-- Anchored match of `_VALUTADATUM_RE` (case-sensitive), returning the
captured `\\d{2}-\\d{2}-\\d{4}` group. -/
def vdCapture (s : List Char) : Option (List Char) :=
  match mseq (litCS "Valutadatum:".data) wsStar s with
  | none => none
  | some n =>
    let rest := s.drop n
    match mseq (digitsExact 2) (mseq (litCS "-".data) (mseq (digitsExact 2)
      (mseq (litCS "-".data) (digitsExact 4)))) rest with
    | some _ => some (rest.take 10)
    | none => none

/-- `re.search` for `_VALUTADATUM_RE`: leftmost match wins. -/
def vdSearch : List Char → Option (List Char)
  | [] => none
  | c :: t =>
    match vdCapture (c :: t) with
    | some cap => some cap
    | none => vdSearch t

/-- `normalization.try_extract_value_date`: search for the Valutadatum
marker; on a match, `strptime` validation (a `.error` models the
`ValueError` that escapes to the row-level handler). -/
def try_extract_value_date (text : List Char) : Except Unit (Option (List Char)) :=
  match vdSearch text with
  | none => .ok none
  | some cap =>
    let d := digitsToNat (cap.take 2)
    let m := digitsToNat ((cap.drop 3).take 2)
    let y := digitsToNat (cap.drop 6)
    if validDMY d m y then .ok (some (isoOfYMD y m d)) else .error ()

/-- The ING `YYYYMMDD` → ISO rewrite applied to the booking date by
`csv_ingest.ingest_csv_ing` (and the identical code in `excel_ingest`):
slice-and-join when the stripped field is eight digits, else keep as-is. -/
def normBookingDate (raw : List Char) : List Char :=
  let b := pystrip raw
  if b.length = 8 ∧ b.all pyDigit then
    b.take 4 ++ '-' :: ((b.drop 4).take 2 ++ '-' :: (b.drop 6).take 2)
  else b

/-! ## `normalization.compute_txn_hash` -/

/-- `normalization.TxnHashInput`. -/
structure TxnHashInput where
  account_id : ℕ
  booking_date : List Char
  value_date : Option (List Char)
  amount_cents : ℤ
  currency : List Char
  debit_credit : List Char
  counterparty_iban_or_name : List Char
  normalized_description : List Char
deriving DecidableEq

/-- `normalization.compute_txn_hash`: SHA-256 hex digest of the UTF-8 bytes
of the pipe-joined parts, in source order and casing. -/
def compute_txn_hash (inp : TxnHashInput) : List Char :=
  let parts : List (List Char) := [
    (toString inp.account_id).data,
    inp.booking_date,
    inp.value_date.getD [],
    (toString inp.amount_cents).data,
    pyupper inp.currency,
    pyupper inp.debit_credit,
    pyupper (normalize_text inp.counterparty_iban_or_name),
    pyupper inp.normalized_description]
  sha256hexOfString (List.intercalate ['|'] parts)

/-! ## The relational store

`sqlite3` tables as lists of rows in insertion order. The UNIQUE
constraints come from the spec (§6 persisted schema): `schema.sql` is
referenced by `db/init_db.py` but is not under `src/`, so the constraint
set is modelled from the spec's words. -/

/-- `csv_ingest.IngestStats` (identical dataclasses in the three parsers). -/
structure IngestStats where
  docs_new : ℕ := 0
  tx_seen : ℕ := 0
  tx_new : ℕ := 0
deriving DecidableEq

/-- A row of `accounts`. -/
structure AccountRow where
  id : ℕ
  institution : List Char
  iban : Option (List Char)
  account_no : Option (List Char)
deriving DecidableEq

/-- A row of `documents`. -/
structure DocRow where
  id : ℕ
  path : List Char
  sha256 : List Char
  source_type : List Char
  bank_hint : Option (List Char)
deriving DecidableEq

/-- A row of `transactions`. -/
structure TxnRow where
  id : ℕ
  account_id : ℕ
  document_id : ℕ
  txn_hash : List Char
  booking_date : List Char
  value_date : Option (List Char)
  amount_cents : ℤ
  currency : List Char
  debit_credit : List Char
  counterparty_name : Option (List Char)
  counterparty_iban : Option (List Char)
  description : List Char
deriving DecidableEq

/-- A row of `parse_events`. -/
structure EventRow where
  document_id : ℕ
  stage : List Char
  ok : Bool
  message : List Char
deriving DecidableEq

/-- The domain database. -/
structure DB where
  documents : List DocRow
  accounts : List AccountRow
  transactions : List TxnRow
  parse_events : List EventRow
deriving DecidableEq

/-- A freshly initialised database. -/
def emptyDB : DB := ⟨[], [], [], []⟩

/-- `cur.lastrowid` of a fresh insert: sqlite assigns `max rowid + 1`. -/
def nextAccId (db : DB) : ℕ := db.accounts.foldr (fun r m => max r.id m) 0 + 1

/-- `cur.lastrowid` for `documents`. -/
def nextDocId (db : DB) : ℕ := db.documents.foldr (fun r m => max r.id m) 0 + 1

/-- Fresh rowid for `transactions`. -/
def nextTxnId (db : DB) : ℕ := db.transactions.foldr (fun r m => max r.id m) 0 + 1

/-- `INSERT INTO parse_events(...)`. -/
def appendEvent (db : DB) (docId : ℕ) (stage : List Char) (ok : Bool)
    (msg : List Char) : DB :=
  { db with parse_events := db.parse_events ++ [⟨docId, stage, ok, msg⟩] }

/-- `SELECT id FROM accounts WHERE institution=? AND iban IS ? AND
account_no IS ?` — first match in rowid order; `IS` is the null-aware
equality, which `Option` equality models. -/
def findAccount (db : DB) (iban acctNo : Option (List Char)) : Option ℕ :=
  (db.accounts.find? (fun r =>
    decide (r.institution = "ING".data ∧ r.iban = iban ∧ r.account_no = acctNo))).map
    (fun r => r.id)

/-- `csv_ingest._ensure_account` (institution fixed to `"ING"`). -/
def ensure_account (db : DB) (iban acctNo : Option (List Char)) : ℕ × DB :=
  match findAccount db iban acctNo with
  | some i => (i, db)
  | none =>
    let i := nextAccId db
    (i, { db with accounts := db.accounts ++ [⟨i, "ING".data, iban, acctNo⟩] })

/-- The fingerprints currently stored in `transactions`. -/
def txnHashes (db : DB) : List (List Char) := db.transactions.map (fun t => t.txn_hash)

/-- Modelled from the spec: `schema.sql` (read by `db/init_db.py` but not
under `src/`) declares `transactions.txn_hash` UNIQUE (§6:
`fingerprint_hash UNIQUE`), so `INSERT OR IGNORE` inserts exactly when no
row with the same fingerprint exists and `SELECT changes()` then reports
`1`; on conflict nothing is written and `changes()` reports `0`. The `id`
field of the argument is ignored and assigned by the store. -/
def insertTxnIfAbsent (db : DB) (t : TxnRow) : Bool × DB :=
  if t.txn_hash ∈ txnHashes db then (false, db)
  else
    (true, { db with transactions :=
      db.transactions ++ [{ t with id := nextTxnId db }] })

/-- `SELECT id FROM documents WHERE sha256=?` — first match in rowid order. -/
def findDocId (db : DB) (sha : List Char) : Option ℕ :=
  (db.documents.find? (fun r => decide (r.sha256 = sha))).map (fun r => r.id)

/-! ## `csv_ingest.ingest_csv_ing` -/

/-- One `csv.DictReader` row of the fixed ING export dialect: the value of
each expected header (absent keys read as `""`, which a field holding `[]`
models). -/
structure RawRowCSV where
  datum : List Char
  naam_omschrijving : List Char
  rekening : List Char
  tegenrekening : List Char
  code : List Char
  af_bij : List Char
  bedrag : List Char
  mutatiesoort : List Char
  mededelingen : List Char
deriving DecidableEq

/-- A CSV file on disk: its raw bytes together with the row sequence that
`csv.DictReader` (a deterministic function of the bytes, not re-modelled
here) produces from them. -/
structure CsvFile where
  path : List Char
  content : List ℕ
  rows : List RawRowCSV
deriving DecidableEq

/-- Python truthiness of a string: `s or t` falls through on `""`. -/
def emptyToNone (s : List Char) : Option (List Char) :=
  if s = [] then none else some s

/-- `("DEBIT" if debit_credit.lower() == "af" else "CREDIT")`. -/
def directionOf (debit_credit : List Char) : List Char :=
  if pylower debit_credit = "af".data then "DEBIT".data else "CREDIT".data

/-- The row fields computed before any database access in the `try:` body
of `ingest_csv_ing`'s row loop. `none` models an exception (bad amount, or
a `Valutadatum` marker with an invalid date), which in the source can only
arise before the first database write of the iteration. -/
structure ParsedCsvRow where
  booking_iso : List Char
  description : List Char
  value_date : Option (List Char)
  debit_credit : List Char
  amount_cents : ℤ
  counterparty_iban : Option (List Char)
  counterparty_name : Option (List Char)
  account_str : List Char
deriving DecidableEq

/-- `row.get("Mededelingen", "").strip() or row.get("Naam / Omschrijving", "").strip()`. -/
def csvDescription (row : RawRowCSV) : List Char :=
  match emptyToNone (pystrip row.mededelingen) with
  | some d => d
  | none => pystrip row.naam_omschrijving

/-- The pure prefix of `ingest_csv_ing`'s row handling. -/
def parseCsvRow (row : RawRowCSV) : Option ParsedCsvRow :=
  let booking_iso := normBookingDate row.datum
  let description := csvDescription row
  match try_extract_value_date description with
  | .error _ => none
  | .ok vd =>
    let debit_credit := pystrip row.af_bij
    match parse_eu_amount_to_cents row.bedrag debit_credit with
    | none => none
    | some cents =>
      some { booking_iso := booking_iso, description := description,
             value_date := vd, debit_credit := debit_credit,
             amount_cents := cents,
             counterparty_iban := emptyToNone (pystrip row.tegenrekening),
             counterparty_name := emptyToNone (pystrip row.naam_omschrijving),
             account_str := pystrip row.rekening }

/-- The fingerprint computed for a parsed CSV row once its account id is
resolved (`compute_txn_hash(TxnHashInput(...))` in the row loop). -/
def csvHash (account_id : ℕ) (p : ParsedCsvRow) : List Char :=
  compute_txn_hash
    { account_id := account_id, booking_date := p.booking_iso,
      value_date := p.value_date, amount_cents := p.amount_cents,
      currency := "EUR".data, debit_credit := directionOf p.debit_credit,
      counterparty_iban_or_name :=
        p.counterparty_iban.getD (p.counterparty_name.getD []),
      normalized_description := normalize_description p.description }

/-- The `transactions` row the loop hands to `INSERT OR IGNORE`. -/
def csvTxnRow (docId account_id : ℕ) (p : ParsedCsvRow) : TxnRow :=
  { id := 0, account_id := account_id, document_id := docId,
    txn_hash := csvHash account_id p, booking_date := p.booking_iso,
    value_date := p.value_date, amount_cents := p.amount_cents,
    currency := "EUR".data, debit_credit := directionOf p.debit_credit,
    counterparty_name := p.counterparty_name,
    counterparty_iban := p.counterparty_iban,
    description := p.description }

/-- One iteration of `ingest_csv_ing`'s row loop. -/
def csvRowStep (docId : ℕ) (st : IngestStats × DB) (row : RawRowCSV) :
    IngestStats × DB :=
  let stats := { st.1 with tx_seen := st.1.tx_seen + 1 }
  match parseCsvRow row with
  | none => (stats, appendEvent st.2 docId "parse".data false "row error".data)
  | some p =>
    let ea := ensure_account st.2 (some p.account_str) none
    let ins := insertTxnIfAbsent ea.2 (csvTxnRow docId ea.1 p)
    (if ins.1 then { stats with tx_new := stats.tx_new + 1 } else stats, ins.2)

/-- The row loop as a fold. -/
def foldCsv (docId : ℕ) (rows : List RawRowCSV) (st : IngestStats × DB) :
    IngestStats × DB :=
  rows.foldl (csvRowStep docId) st

/-- The document-registration prologue of `ingest_csv_ing`: content hash,
lookup, insert-if-new, and the "ingest"-stage parse event. Returns the
resolved document id, the `docs_new` increment, and the updated store. -/
def registerCsvDoc (db : DB) (f : CsvFile) : ℕ × ℕ × DB :=
  match findDocId db (sha256hex f.content) with
  | some i =>
    (i, 0, appendEvent db i "ingest".data true
      "Already imported; reprocessing parse only".data)
  | none =>
    let i := nextDocId db
    let db' := { db with documents :=
      db.documents ++ [⟨i, f.path, sha256hex f.content, "csv".data, some "ING".data⟩] }
    (i, 1, appendEvent db' i "ingest".data true "New document imported".data)

/-- `csv_ingest.ingest_csv_ing`: register the document, run the row loop,
append the summary parse event, commit. -/
def ingest_csv_ing (db : DB) (f : CsvFile) : IngestStats × DB :=
  let reg := registerCsvDoc db f
  let docId := reg.1
  let res := foldCsv docId f.rows
    ({ docs_new := reg.2.1, tx_seen := 0, tx_new := 0 }, reg.2.2)
  (res.1, appendEvent res.2 docId "parse".data true "parsed rows".data)

/-! ## Claims C2 and C3 -/

/-- The fingerprint as §4.3 of the spec words it: a cryptographic (SHA-256)
digest over the ordered, pipe-joined tuple (account id, booking date,
value date or empty, amount in minor units, currency code, direction,
normalized counterparty reference, normalized description), with the
currency, direction, counterparty and description components upper-cased
before joining. -/
def fingerprintSpec (inp : TxnHashInput) : List Char :=
  sha256hexOfString (List.intercalate ['|']
    [(toString inp.account_id).data,
     inp.booking_date,
     inp.value_date.getD [],
     (toString inp.amount_cents).data,
     pyupper inp.currency,
     pyupper inp.debit_credit,
     pyupper (normalize_text inp.counterparty_iban_or_name),
     pyupper inp.normalized_description])

/-- C2: for every transaction-hash input, the fingerprint computed by
`compute_txn_hash` is exactly the cryptographic digest of the pipe-joined
tuple in the spec's order — account id, booking date, value date (empty
when absent), amount in minor units, currency, direction, normalized
counterparty reference, normalized description — with the currency,
direction, counterparty and description components upper-cased. -/
theorem claim_C2 (inp : TxnHashInput) : compute_txn_hash inp = fingerprintSpec inp := rfl

/-- Every successful parse yields `-(magnitude)` under the `"af"` token and
`+(magnitude)` otherwise. -/
theorem parse_eu_shape (s d : List Char) :
    parse_eu_amount_to_cents s d = none ∨
    ∃ n : ℕ, parse_eu_amount_to_cents s d =
      some (if pylower (pystrip d) = "af".data then -(n : ℤ) else (n : ℤ)) := by
  unfold parse_eu_amount_to_cents
  cases hf : floatOfClean (cleanAmount s) with
  | none => exact Or.inl rfl
  | some np =>
    right
    refine ⟨(pyRoundQ (np.1 * 100) ((10 : ℤ) ^ np.2)).natAbs, ?_⟩
    rcases np with ⟨num, pow⟩
    by_cases hd : pylower (pystrip d) = "af".data
    · simp only [hd, if_pos]
    · simp only [hd, if_neg, not_false_iff]

/-- C3: amount parsing — `"1.234,56"` with the CREDIT token yields
`+123456` minor units and `"50,00"` with the DEBIT token yields `-5000`;
a minus sign in the raw string is ignored (`"-50,00"` still follows the
token); for every parsed amount the sign is non-positive exactly under the
`"af"` (DEBIT) token and non-negative otherwise; and the magnitude is
independent of the direction token. -/
theorem claim_C3 :
    parse_eu_amount_to_cents "1.234,56".data "Bij".data = some 123456 ∧
    parse_eu_amount_to_cents "50,00".data "Af".data = some (-5000) ∧
    parse_eu_amount_to_cents "-50,00".data "Bij".data = some 5000 ∧
    parse_eu_amount_to_cents "-50,00".data "Af".data = some (-5000) ∧
    (∀ s d c, parse_eu_amount_to_cents s d = some c →
      (pylower (pystrip d) = "af".data → c ≤ 0) ∧
      (pylower (pystrip d) ≠ "af".data → 0 ≤ c)) ∧
    (∀ s, (parse_eu_amount_to_cents s "Af".data).map Int.natAbs
        = (parse_eu_amount_to_cents s "Bij".data).map Int.natAbs) := by
  refine ⟨by decide, by decide, by decide, by decide, ?_, ?_⟩
  · intro s d c h
    rcases parse_eu_shape s d with hn | ⟨n, hs⟩
    · rw [hn] at h
      exact absurd h (by simp)
    · rw [hs] at h
      constructor <;> intro hd
      · rw [if_pos hd] at h
        simp only [Option.some.injEq] at h
        omega
      · rw [if_neg hd] at h
        simp only [Option.some.injEq] at h
        omega
  · intro s
    unfold parse_eu_amount_to_cents
    cases hf : floatOfClean (cleanAmount s) with
    | none => rfl
    | some np =>
      rcases np with ⟨num, pow⟩
      dsimp only
      rw [if_pos (by decide : pylower (pystrip "Af".data) = "af".data),
        if_neg (by decide : ¬ pylower (pystrip "Bij".data) = "af".data)]
      simp [Int.natAbs_neg]

/-- Witness for C3 at a concrete input: the quantified sign conjunct
applied to the parse of `"12,34"` with a padded lower-case `"af  "` token. -/
theorem claim_C3_witness :
    parse_eu_amount_to_cents "12,34".data "af  ".data = some (-1234) ∧
    (-1234 : ℤ) ≤ 0 := by
  have h : parse_eu_amount_to_cents "12,34".data "af  ".data = some (-1234) := by decide
  exact ⟨h, (claim_C3.2.2.2.2.1 "12,34".data "af  ".data (-1234) h).1 (by decide)⟩

/-! ## Store lemmas for the idempotency proofs -/

theorem appendEvent_accounts (db : DB) (d : ℕ) (st : List Char) (ok : Bool)
    (m : List Char) : (appendEvent db d st ok m).accounts = db.accounts := rfl

theorem appendEvent_transactions (db : DB) (d : ℕ) (st : List Char) (ok : Bool)
    (m : List Char) : (appendEvent db d st ok m).transactions = db.transactions := rfl

theorem appendEvent_documents (db : DB) (d : ℕ) (st : List Char) (ok : Bool)
    (m : List Char) : (appendEvent db d st ok m).documents = db.documents := rfl

theorem ensure_account_of_found {db : DB} {k kn : Option (List Char)} {i : ℕ}
    (h : findAccount db k kn = some i) : ensure_account db k kn = (i, db) := by
  unfold ensure_account
  rw [h]

theorem ensure_account_found (db : DB) (k kn : Option (List Char)) :
    findAccount (ensure_account db k kn).2 k kn = some (ensure_account db k kn).1 := by
  unfold ensure_account
  cases h : findAccount db k kn with
  | some i => simpa using h
  | none =>
    have h' : db.accounts.find? (fun r =>
        decide (r.institution = "ING".data ∧ r.iban = k ∧ r.account_no = kn)) = none := by
      unfold findAccount at h
      exact Option.map_eq_none'.mp h
    unfold findAccount
    dsimp
    rw [List.find?_append, h']
    simp [List.find?_cons]

theorem ensure_account_documents (db : DB) (k kn : Option (List Char)) :
    (ensure_account db k kn).2.documents = db.documents := by
  unfold ensure_account
  cases h : findAccount db k kn <;> rfl

theorem ensure_account_transactions (db : DB) (k kn : Option (List Char)) :
    (ensure_account db k kn).2.transactions = db.transactions := by
  unfold ensure_account
  cases h : findAccount db k kn <;> rfl

theorem ensure_account_parse_events (db : DB) (k kn : Option (List Char)) :
    (ensure_account db k kn).2.parse_events = db.parse_events := by
  unfold ensure_account
  cases h : findAccount db k kn <;> rfl

theorem ensure_account_accounts (db : DB) (k kn : Option (List Char)) :
    ∃ e, (ensure_account db k kn).2.accounts = db.accounts ++ e := by
  unfold ensure_account
  cases h : findAccount db k kn with
  | some i => exact ⟨[], by simp⟩
  | none => exact ⟨_, rfl⟩

theorem insertTxn_of_mem {db : DB} {t : TxnRow} (h : t.txn_hash ∈ txnHashes db) :
    insertTxnIfAbsent db t = (false, db) := by
  unfold insertTxnIfAbsent
  rw [if_pos h]

theorem insertTxn_mem (db : DB) (t : TxnRow) :
    t.txn_hash ∈ txnHashes (insertTxnIfAbsent db t).2 := by
  unfold insertTxnIfAbsent
  by_cases h : t.txn_hash ∈ txnHashes db
  · rw [if_pos h]
    exact h
  · rw [if_neg h]
    unfold txnHashes
    simp

theorem insertTxn_accounts (db : DB) (t : TxnRow) :
    (insertTxnIfAbsent db t).2.accounts = db.accounts := by
  unfold insertTxnIfAbsent
  split <;> rfl

theorem insertTxn_documents (db : DB) (t : TxnRow) :
    (insertTxnIfAbsent db t).2.documents = db.documents := by
  unfold insertTxnIfAbsent
  split <;> rfl

theorem insertTxn_transactions (db : DB) (t : TxnRow) :
    ∃ e, (insertTxnIfAbsent db t).2.transactions = db.transactions ++ e := by
  unfold insertTxnIfAbsent
  split
  · exact ⟨[], by simp⟩
  · exact ⟨_, rfl⟩

theorem txnHashes_mono {db db' : DB} {e : List TxnRow}
    (h : db'.transactions = db.transactions ++ e) {x : List Char}
    (hx : x ∈ txnHashes db) : x ∈ txnHashes db' := by
  unfold txnHashes at *
  rw [h, List.map_append]
  exact List.mem_append_left _ hx

theorem findAccount_mono {db db' : DB} {e : List AccountRow}
    (h : db'.accounts = db.accounts ++ e) {k kn : Option (List Char)} {i : ℕ}
    (hf : findAccount db k kn = some i) : findAccount db' k kn = some i := by
  unfold findAccount at *
  obtain ⟨r, hr, hid⟩ := Option.map_eq_some'.mp hf
  rw [h, List.find?_append, hr]
  simpa using hid

/-! ### Per-step and fold invariants of the CSV row loop -/

theorem csvRowStep_documents (docId : ℕ) (st : IngestStats × DB) (r : RawRowCSV) :
    (csvRowStep docId st r).2.documents = st.2.documents := by
  unfold csvRowStep
  cases hp : parseCsvRow r with
  | none => rfl
  | some p =>
    dsimp only
    rw [insertTxn_documents, ensure_account_documents]

theorem csvRowStep_accounts (docId : ℕ) (st : IngestStats × DB) (r : RawRowCSV) :
    ∃ e, (csvRowStep docId st r).2.accounts = st.2.accounts ++ e := by
  unfold csvRowStep
  cases hp : parseCsvRow r with
  | none => exact ⟨[], by simp [appendEvent_accounts]⟩
  | some p =>
    dsimp only
    rw [insertTxn_accounts]
    exact ensure_account_accounts st.2 (some p.account_str) none

theorem csvRowStep_transactions (docId : ℕ) (st : IngestStats × DB) (r : RawRowCSV) :
    ∃ e, (csvRowStep docId st r).2.transactions = st.2.transactions ++ e := by
  unfold csvRowStep
  cases hp : parseCsvRow r with
  | none => exact ⟨[], by simp [appendEvent_transactions]⟩
  | some p =>
    dsimp only
    obtain ⟨e, he⟩ := insertTxn_transactions
      (ensure_account st.2 (some p.account_str) none).2 (csvTxnRow docId
        (ensure_account st.2 (some p.account_str) none).1 p)
    rw [he, ensure_account_transactions]
    exact ⟨e, rfl⟩

theorem csvRowStep_docs_new (docId : ℕ) (st : IngestStats × DB) (r : RawRowCSV) :
    (csvRowStep docId st r).1.docs_new = st.1.docs_new := by
  unfold csvRowStep
  cases hp : parseCsvRow r with
  | none => rfl
  | some p =>
    dsimp only
    split <;> rfl

theorem foldCsv_cons (docId : ℕ) (r : RawRowCSV) (rest : List RawRowCSV)
    (st : IngestStats × DB) :
    foldCsv docId (r :: rest) st = foldCsv docId rest (csvRowStep docId st r) := rfl

theorem foldCsv_documents (docId : ℕ) (rows : List RawRowCSV) :
    ∀ st, (foldCsv docId rows st).2.documents = st.2.documents := by
  induction rows with
  | nil => intro st; rfl
  | cons r rest ih =>
    intro st
    rw [foldCsv_cons, ih, csvRowStep_documents]

theorem foldCsv_accounts (docId : ℕ) (rows : List RawRowCSV) :
    ∀ st, ∃ e, (foldCsv docId rows st).2.accounts = st.2.accounts ++ e := by
  induction rows with
  | nil => intro st; exact ⟨[], by simp [foldCsv]⟩
  | cons r rest ih =>
    intro st
    obtain ⟨e₁, h₁⟩ := csvRowStep_accounts docId st r
    obtain ⟨e₂, h₂⟩ := ih (csvRowStep docId st r)
    exact ⟨e₁ ++ e₂, by rw [foldCsv_cons, h₂, h₁, List.append_assoc]⟩

theorem foldCsv_transactions (docId : ℕ) (rows : List RawRowCSV) :
    ∀ st, ∃ e, (foldCsv docId rows st).2.transactions = st.2.transactions ++ e := by
  induction rows with
  | nil => intro st; exact ⟨[], by simp [foldCsv]⟩
  | cons r rest ih =>
    intro st
    obtain ⟨e₁, h₁⟩ := csvRowStep_transactions docId st r
    obtain ⟨e₂, h₂⟩ := ih (csvRowStep docId st r)
    exact ⟨e₁ ++ e₂, by rw [foldCsv_cons, h₂, h₁, List.append_assoc]⟩

theorem foldCsv_docs_new (docId : ℕ) (rows : List RawRowCSV) :
    ∀ st, (foldCsv docId rows st).1.docs_new = st.1.docs_new := by
  induction rows with
  | nil => intro st; rfl
  | cons r rest ih =>
    intro st
    rw [foldCsv_cons, ih, csvRowStep_docs_new]

/-- Re-running the row loop over the same rows against any store whose
accounts and transactions already contain the first run's results is a
no-op on accounts, transactions and documents, counts every row as seen,
and creates zero new transactions. -/
theorem foldCsv_idem (docId docId' : ℕ) :
    ∀ (rows : List RawRowCSV) (st stX : IngestStats × DB),
    stX.2.accounts = (foldCsv docId rows st).2.accounts →
    stX.2.transactions = (foldCsv docId rows st).2.transactions →
    (foldCsv docId' rows stX).1.docs_new = stX.1.docs_new ∧
    (foldCsv docId' rows stX).1.tx_new = stX.1.tx_new ∧
    (foldCsv docId' rows stX).1.tx_seen = stX.1.tx_seen + rows.length ∧
    (foldCsv docId' rows stX).2.accounts = stX.2.accounts ∧
    (foldCsv docId' rows stX).2.transactions = stX.2.transactions ∧
    (foldCsv docId' rows stX).2.documents = stX.2.documents := by
  intro rows
  induction rows with
  | nil =>
    intro st stX ha ht
    exact ⟨rfl, rfl, by simp [foldCsv], rfl, rfl, rfl⟩
  | cons r rest ih =>
    intro st stX ha ht
    rcases st with ⟨s₀, db⟩
    rcases stX with ⟨sX, dbX⟩
    rw [foldCsv_cons] at ha ht
    cases hp : parseCsvRow r with
    | none =>
      have hstep2 : csvRowStep docId' (sX, dbX) r =
          ({ sX with tx_seen := sX.tx_seen + 1 },
           appendEvent dbX docId' "parse".data false "row error".data) := by
        unfold csvRowStep
        rw [hp]
      have ha' : (appendEvent dbX docId' "parse".data false "row error".data).accounts
          = (foldCsv docId rest (csvRowStep docId (s₀, db) r)).2.accounts := by
        rw [appendEvent_accounts]
        exact ha
      have ht' : (appendEvent dbX docId' "parse".data false "row error".data).transactions
          = (foldCsv docId rest (csvRowStep docId (s₀, db) r)).2.transactions := by
        rw [appendEvent_transactions]
        exact ht
      obtain ⟨h1, h2, h3, h4, h5, h6⟩ := ih (csvRowStep docId (s₀, db) r)
        ({ sX with tx_seen := sX.tx_seen + 1 },
         appendEvent dbX docId' "parse".data false "row error".data) ha' ht'
      rw [foldCsv_cons, hstep2]
      have h3' : (foldCsv docId' rest
          ({ docs_new := sX.docs_new, tx_seen := sX.tx_seen + 1, tx_new := sX.tx_new },
            appendEvent dbX docId' "parse".data false "row error".data)).1.tx_seen
          = sX.tx_seen + 1 + rest.length := h3
      refine ⟨h1, h2, ?_, ?_, ?_, ?_⟩
      · have hpair : ((sX, dbX).1).tx_seen = sX.tx_seen := rfl
        rw [h3', List.length_cons, hpair]
        omega
      · rw [h4]
        rfl
      · rw [h5]
        rfl
      · rw [h6]
        rfl
    | some p =>
      have hstep1acc : (csvRowStep docId (s₀, db) r).2.accounts =
          (ensure_account db (some p.account_str) none).2.accounts := by
        unfold csvRowStep
        rw [hp]
        dsimp only
        rw [insertTxn_accounts]
      have hstep1tx : (csvRowStep docId (s₀, db) r).2.transactions =
          (insertTxnIfAbsent (ensure_account db (some p.account_str) none).2
            (csvTxnRow docId (ensure_account db (some p.account_str) none).1 p)).2.transactions := by
        unfold csvRowStep
        rw [hp]
      obtain ⟨e₂, he₂⟩ := foldCsv_accounts docId rest (csvRowStep docId (s₀, db) r)
      obtain ⟨e₃, he₃⟩ := foldCsv_transactions docId rest (csvRowStep docId (s₀, db) r)
      have hacc : dbX.accounts =
          (ensure_account db (some p.account_str) none).2.accounts ++ e₂ := by
        dsimp only at ha
        rw [ha, he₂, hstep1acc]
      have hfx : findAccount dbX (some p.account_str) none =
          some (ensure_account db (some p.account_str) none).1 :=
        findAccount_mono hacc (ensure_account_found db (some p.account_str) none)
      have hens2 : ensure_account dbX (some p.account_str) none =
          ((ensure_account db (some p.account_str) none).1, dbX) :=
        ensure_account_of_found hfx
      have htx : dbX.transactions =
          (insertTxnIfAbsent (ensure_account db (some p.account_str) none).2
            (csvTxnRow docId (ensure_account db (some p.account_str) none).1 p)).2.transactions
            ++ e₃ := by
        dsimp only at ht
        rw [ht, he₃, hstep1tx]
      have hmem : (csvTxnRow docId' (ensure_account db (some p.account_str) none).1 p).txn_hash
          ∈ txnHashes dbX := by
        have hsame : (csvTxnRow docId' (ensure_account db (some p.account_str) none).1 p).txn_hash
            = (csvTxnRow docId (ensure_account db (some p.account_str) none).1 p).txn_hash := rfl
        rw [hsame]
        exact txnHashes_mono htx (insertTxn_mem _ _)
      have hins2 : insertTxnIfAbsent dbX
          (csvTxnRow docId' (ensure_account db (some p.account_str) none).1 p) = (false, dbX) :=
        insertTxn_of_mem hmem
      have hstep2 : csvRowStep docId' (sX, dbX) r =
          ({ sX with tx_seen := sX.tx_seen + 1 }, dbX) := by
        unfold csvRowStep
        rw [hp]
        dsimp only
        rw [hens2]
        dsimp only
        rw [hins2]
        simp
      have ha' : dbX.accounts = (foldCsv docId rest (csvRowStep docId (s₀, db) r)).2.accounts := ha
      have ht' : dbX.transactions = (foldCsv docId rest (csvRowStep docId (s₀, db) r)).2.transactions := ht
      obtain ⟨h1, h2, h3, h4, h5, h6⟩ := ih (csvRowStep docId (s₀, db) r)
        ({ sX with tx_seen := sX.tx_seen + 1 }, dbX) ha' ht'
      rw [foldCsv_cons, hstep2]
      exact ⟨h1, h2, by simp only [List.length_cons] at *; omega, h4, h5, h6⟩

/-! ### Document registration lemmas and claim C1 -/

/-- The document id a run resolves for a file: the stored id when the
content hash is already known, else the id the fresh insert receives. -/
def docIdUsed (db : DB) (f : CsvFile) : ℕ :=
  (findDocId db (sha256hex f.content)).getD (nextDocId db)

theorem registerCsvDoc_docId (db : DB) (f : CsvFile) :
    (registerCsvDoc db f).1 = docIdUsed db f := by
  unfold registerCsvDoc docIdUsed
  cases h : findDocId db (sha256hex f.content) <;> simp [h]

theorem registerCsvDoc_accounts (db : DB) (f : CsvFile) :
    (registerCsvDoc db f).2.2.accounts = db.accounts := by
  unfold registerCsvDoc
  cases h : findDocId db (sha256hex f.content) <;> rfl

theorem registerCsvDoc_transactions (db : DB) (f : CsvFile) :
    (registerCsvDoc db f).2.2.transactions = db.transactions := by
  unfold registerCsvDoc
  cases h : findDocId db (sha256hex f.content) <;> rfl

theorem registerCsvDoc_findAfter (db : DB) (f : CsvFile) :
    findDocId (registerCsvDoc db f).2.2 (sha256hex f.content)
      = some (registerCsvDoc db f).1 := by
  unfold registerCsvDoc
  cases h : findDocId db (sha256hex f.content) with
  | some i => simpa using h
  | none =>
    have h' : db.documents.find? (fun r => decide (r.sha256 = sha256hex f.content))
        = none := by
      unfold findDocId at h
      exact Option.map_eq_none'.mp h
    unfold findDocId
    dsimp only
    rw [appendEvent_documents, List.find?_append, h']
    simp [List.find?_cons]

theorem registerCsvDoc_of_found {db : DB} {f : CsvFile} {i : ℕ}
    (h : findDocId db (sha256hex f.content) = some i) :
    registerCsvDoc db f = (i, 0, appendEvent db i "ingest".data true
      "Already imported; reprocessing parse only".data) := by
  unfold registerCsvDoc
  rw [h]

theorem findDocId_congr {db db' : DB} (h : db'.documents = db.documents)
    (s : List Char) : findDocId db' s = findDocId db s := by
  unfold findDocId
  rw [h]

/-- `ingest_csv_ing` with its `let`s spelled out. -/
theorem ingest_csv_ing_eq (db : DB) (f : CsvFile) :
    ingest_csv_ing db f =
      ((foldCsv (registerCsvDoc db f).1 f.rows
        ({ docs_new := (registerCsvDoc db f).2.1, tx_seen := 0, tx_new := 0 },
          (registerCsvDoc db f).2.2)).1,
       appendEvent (foldCsv (registerCsvDoc db f).1 f.rows
        ({ docs_new := (registerCsvDoc db f).2.1, tx_seen := 0, tx_new := 0 },
          (registerCsvDoc db f).2.2)).2
        (registerCsvDoc db f).1 "parse".data true "parsed rows".data) := rfl

theorem ingest_documents (db : DB) (f : CsvFile) :
    (ingest_csv_ing db f).2.documents = (registerCsvDoc db f).2.2.documents := by
  rw [ingest_csv_ing_eq]
  dsimp only
  rw [appendEvent_documents, foldCsv_documents]

theorem ingest_accounts (db : DB) (f : CsvFile) :
    (ingest_csv_ing db f).2.accounts =
      (foldCsv (registerCsvDoc db f).1 f.rows
        ({ docs_new := (registerCsvDoc db f).2.1, tx_seen := 0, tx_new := 0 },
          (registerCsvDoc db f).2.2)).2.accounts := by
  rw [ingest_csv_ing_eq]
  rfl

theorem ingest_transactions (db : DB) (f : CsvFile) :
    (ingest_csv_ing db f).2.transactions =
      (foldCsv (registerCsvDoc db f).1 f.rows
        ({ docs_new := (registerCsvDoc db f).2.1, tx_seen := 0, tx_new := 0 },
          (registerCsvDoc db f).2.2)).2.transactions := by
  rw [ingest_csv_ing_eq]
  rfl

/-- C1: ingestion is idempotent at both levels. Re-ingesting a file with
byte-identical content (hence the identical `csv.DictReader` row sequence,
recorded by `hr`) resolves to the same document id, creates no second
document row (`docs_new = 0`, `documents` unchanged), creates zero new
transactions (`tx_new = 0`, `transactions` unchanged — in particular no
field of an existing row is updated), and the conflicting insert of an
already-present fingerprint is absorbed with a not-new report. -/
theorem claim_C1 (db : DB) (f g : CsvFile)
    (hc : g.content = f.content) (hr : g.rows = f.rows) :
    docIdUsed (ingest_csv_ing db f).2 g = docIdUsed db f ∧
    (ingest_csv_ing (ingest_csv_ing db f).2 g).1.docs_new = 0 ∧
    (ingest_csv_ing (ingest_csv_ing db f).2 g).2.documents
      = (ingest_csv_ing db f).2.documents ∧
    (ingest_csv_ing (ingest_csv_ing db f).2 g).1.tx_new = 0 ∧
    (ingest_csv_ing (ingest_csv_ing db f).2 g).2.transactions
      = (ingest_csv_ing db f).2.transactions ∧
    (∀ (db' : DB) (t : TxnRow), t.txn_hash ∈ txnHashes db' →
      insertTxnIfAbsent db' t = (false, db')) := by
  have hfind : findDocId (ingest_csv_ing db f).2 (sha256hex g.content)
      = some (registerCsvDoc db f).1 := by
    rw [hc, findDocId_congr (ingest_documents db f)]
    exact registerCsvDoc_findAfter db f
  have hreg2 : registerCsvDoc (ingest_csv_ing db f).2 g
      = ((registerCsvDoc db f).1, 0,
         appendEvent (ingest_csv_ing db f).2 (registerCsvDoc db f).1
           "ingest".data true "Already imported; reprocessing parse only".data) :=
    registerCsvDoc_of_found hfind
  -- run 2 start state
  have hXacc : (appendEvent (ingest_csv_ing db f).2 (registerCsvDoc db f).1
      "ingest".data true "Already imported; reprocessing parse only".data).accounts
      = (foldCsv (registerCsvDoc db f).1 f.rows
        ({ docs_new := (registerCsvDoc db f).2.1, tx_seen := 0, tx_new := 0 },
          (registerCsvDoc db f).2.2)).2.accounts := by
    rw [appendEvent_accounts]
    exact ingest_accounts db f
  have hXtx : (appendEvent (ingest_csv_ing db f).2 (registerCsvDoc db f).1
      "ingest".data true "Already imported; reprocessing parse only".data).transactions
      = (foldCsv (registerCsvDoc db f).1 f.rows
        ({ docs_new := (registerCsvDoc db f).2.1, tx_seen := 0, tx_new := 0 },
          (registerCsvDoc db f).2.2)).2.transactions := by
    rw [appendEvent_transactions]
    exact ingest_transactions db f
  obtain ⟨h1, h2, h3, h4, h5, h6⟩ := foldCsv_idem (registerCsvDoc db f).1
    (registerCsvDoc db f).1 f.rows
    ({ docs_new := (registerCsvDoc db f).2.1, tx_seen := 0, tx_new := 0 },
      (registerCsvDoc db f).2.2)
    ({ docs_new := 0, tx_seen := 0, tx_new := 0 },
      appendEvent (ingest_csv_ing db f).2 (registerCsvDoc db f).1
        "ingest".data true "Already imported; reprocessing parse only".data)
    hXacc hXtx
  refine ⟨?_, ?_, ?_, ?_, ?_, fun db' t h => insertTxn_of_mem h⟩
  · calc docIdUsed (ingest_csv_ing db f).2 g = (registerCsvDoc db f).1 := by
          unfold docIdUsed
          rw [hfind]
          rfl
      _ = docIdUsed db f := registerCsvDoc_docId db f
  · rw [ingest_csv_ing_eq (ingest_csv_ing db f).2 g, hreg2]
    dsimp only
    rw [hr]
    exact h1
  · rw [ingest_csv_ing_eq (ingest_csv_ing db f).2 g, hreg2]
    dsimp only
    rw [appendEvent_documents, foldCsv_documents]
    exact appendEvent_documents _ _ _ _ _
  · rw [ingest_csv_ing_eq (ingest_csv_ing db f).2 g, hreg2]
    dsimp only
    rw [hr]
    exact h2
  · rw [ingest_csv_ing_eq (ingest_csv_ing db f).2 g, hreg2]
    dsimp only
    rw [appendEvent_transactions, hr, h5]
    rfl

/-- A concrete single-row ING export used by several witnesses. -/
def witnessRow : RawRowCSV :=
  { datum := "20230115".data,
    naam_omschrijving := "Albert Heijn".data,
    rekening := "NL01INGB0000000001".data,
    tegenrekening := "NL00BANK0123456789".data,
    code := "BA".data,
    af_bij := "Af".data,
    bedrag := "50,00".data,
    mutatiesoort := "Betaalautomaat".data,
    mededelingen := "Pasvolgnr: 123 Valutadatum: 15-01-2023".data }

/-- A concrete one-row CSV file. -/
def witnessFile : CsvFile :=
  { path := "export.csv".data, content := [65, 66, 67], rows := [witnessRow] }

/-- Witness for C1: re-ingesting the concrete one-row file creates no new
document and no new transaction. -/
theorem claim_C1_witness :
    (ingest_csv_ing (ingest_csv_ing emptyDB witnessFile).2 witnessFile).1.docs_new = 0 ∧
    (ingest_csv_ing (ingest_csv_ing emptyDB witnessFile).2 witnessFile).1.tx_new = 0 := by
  obtain ⟨h1, h2, h3, h4, h5, h6⟩ := claim_C1 emptyDB witnessFile witnessFile rfl rfl
  exact ⟨h2, h4⟩

/-! ### `strip` idempotence (Python `str.strip` applied twice) -/

theorem dropWhile_head_not {p : α → Bool} {l : List α} {c : α} {t : List α}
    (h : l.dropWhile p = c :: t) : p c = false := by
  induction l with
  | nil => simp at h
  | cons a l ih =>
    by_cases ha : p a
    · rw [List.dropWhile_cons, if_pos ha] at h
      exact ih h
    · rw [List.dropWhile_cons, if_neg ha] at h
      cases h
      simpa using ha

theorem dropWhile_dropWhile (p : α → Bool) (l : List α) :
    (l.dropWhile p).dropWhile p = l.dropWhile p := by
  cases h : l.dropWhile p with
  | nil => rfl
  | cons c t =>
    rw [List.dropWhile_cons, if_neg]
    simp [dropWhile_head_not h]

theorem dropWhile_suffix (p : α → Bool) (l : List α) :
    ∃ u, l = u ++ l.dropWhile p := by
  induction l with
  | nil => exact ⟨[], rfl⟩
  | cons a l ih =>
    by_cases ha : p a
    · obtain ⟨u, hu⟩ := ih
      exact ⟨a :: u, by rw [List.dropWhile_cons, if_pos ha]; simpa using hu⟩
    · exact ⟨[], by rw [List.dropWhile_cons, if_neg ha]; simp⟩

theorem dropWhile_append_singleton {p : α → Bool} {c : α} (hc : p c = false)
    (xs : List α) : (xs ++ [c]).dropWhile p = xs.dropWhile p ++ [c] := by
  induction xs with
  | nil => simp [List.dropWhile_cons, hc]
  | cons a l ih =>
    by_cases ha : p a
    · simpa [List.dropWhile_cons, ha] using ih
    · simp [List.dropWhile_cons, ha]

/-- Python `strip` is idempotent. -/
theorem pystrip_idem (s : List Char) : pystrip (pystrip s) = pystrip s := by
  unfold pystrip
  have hww : (s.dropWhile pySpace).dropWhile pySpace = s.dropWhile pySpace :=
    dropWhile_dropWhile _ _
  cases hcw : s.dropWhile pySpace with
  | nil => simp
  | cons c t =>
    have hc : pySpace c = false := by
      rw [hcw, List.dropWhile_cons] at hww
      by_cases h : pySpace c
      · rw [if_pos h] at hww
        have := length_dropWhile_le_self pySpace t
        rw [hww] at this
        simp at this
      · simpa using h
    -- the right-stripped value starts with `c`, which is not whitespace
    have hT : ((c :: t).reverse.dropWhile pySpace).reverse
        = c :: (t.reverse.dropWhile pySpace).reverse := by
      rw [List.reverse_cons, dropWhile_append_singleton hc, List.reverse_append]
      rfl
    rw [hT]
    rw [List.dropWhile_cons, if_neg (by simp [hc])]
    -- remaining: right-stripping twice is right-stripping once
    rw [List.reverse_cons, List.reverse_reverse, dropWhile_append_singleton hc,
      dropWhile_dropWhile, List.reverse_append]
    rfl

/-! ## `excel_ingest.ingest_xls`

The optional decoding libraries (`xlrd`, `openpyxl`, `pdfplumber`) are
runtime capabilities external to `src/`; their availability is a flag set,
and the `xlrd.xldate_as_tuple` conversion (an external library function)
is a parameter (`none` models the exception its failure raises, which the
source catches by falling back to the raw cell text). -/

/-- Which optional decoding libraries import successfully at run time. -/
structure Caps where
  xlrd : Bool
  openpyxl : Bool
  pdfplumber : Bool
deriving DecidableEq

/-- A spreadsheet cell as the loaders hand it to the row loop: `None`, a
string, or a numeric cell (its value, plus its Python `str()` rendering,
carried as data since `float` repr is not re-modelled). -/
inductive Cell where
  | blank
  | str (v : List Char)
  | num (v : ℤ) (rendered : List Char)
deriving DecidableEq

/-- `str(v).strip() if v is not None else ""` of the `cell` helper. -/
def cellRender : Cell → List Char
  | .blank => []
  | .str v => pystrip v
  | .num _ r => pystrip r

/-- The `cell(i)` helper: empty string when the column is unresolved or
out of range. -/
def cellAt (r : List Cell) (i : Option ℕ) : List Char :=
  match i with
  | none => []
  | some j =>
    match r.get? j with
    | none => []
    | some c => cellRender c

/-- A spreadsheet file: raw bytes plus the header row and data rows the
(external) workbook loader produces from them. -/
structure XlsFile where
  path : List Char
  content : List ℕ
  headers : List (List Char)
  rows : List (List Cell)
deriving DecidableEq

/-- `Path(p).suffix.lower().lstrip(".")`: lower-cased text after the last
dot, empty when there is none. -/
def pathSuffix (p : List Char) : List Char :=
  if p.contains '.' then pylower (p.reverse.takeWhile (· ≠ '.')).reverse else []

/-- `xls_path.suffix.lower() == ".xlsx"`. -/
def isXlsx (p : List Char) : Bool := pathSuffix p = "xlsx".data

/-- Resolved column indices of the synonym table. -/
structure XlsIdx where
  datum : Option ℕ
  name : Option ℕ
  rek : Option ℕ
  tegen : Option ℕ
  afbij : Option ℕ
  bedrag : Option ℕ
  mutsoort : Option ℕ
  meded : Option ℕ
deriving DecidableEq

/-- `idx(name_variants)`: first variant present in the normalized headers,
at its first position. -/
def idxLookup (nh : List (List Char)) : List (List Char) → Option ℕ
  | [] => none
  | v :: vs =>
    match nh.findIdx? (· = v) with
    | some i => some i
    | none => idxLookup nh vs

/-- Header resolution (`strip`/`casefold`, modelled by the ASCII lower
case, then the synonym table in source order). -/
def resolveIdx (headers : List (List Char)) : XlsIdx :=
  let nh := headers.map (fun h => pylower (pystrip h))
  { datum := idxLookup nh ["datum".data, "date".data],
    name := idxLookup nh ["naam / omschrijving".data, "naam/omschrijving".data,
      "omschrijving".data, "description".data],
    rek := idxLookup nh ["rekening".data, "iban".data, "account".data],
    tegen := idxLookup nh ["tegenrekening".data, "counterparty".data,
      "iban tegenrekening".data],
    afbij := idxLookup nh ["af bij".data, "af/bij".data, "sign".data],
    bedrag := idxLookup nh ["bedrag (eur)".data, "bedrag".data, "amount".data,
      "amount (eur)".data],
    mutsoort := idxLookup nh ["mutatiesoort".data, "type".data],
    meded := idxLookup nh ["mededelingen".data, "details".data, "memo".data] }

/-- The booking-date resolution of the Excel row loop: eight-digit slice,
else the Excel-serial attempt (guarded by `import xlrd` succeeding and the
raw cell at `idx_datum or 0` being numeric; any failure, including
`xldate_as_tuple` raising, falls back to the raw cell text). -/
def xlsBookingIso (caps : Caps) (xldateFn : ℤ → Option (ℕ × ℕ × ℕ))
    (idxDatum : Option ℕ) (r : List Cell) : List Char :=
  let raw_date := cellAt r idxDatum
  if raw_date ≠ [] ∧ raw_date.all pyDigit ∧ raw_date.length = 8 then
    raw_date.take 4 ++ '-' :: ((raw_date.drop 4).take 2 ++ '-' :: (raw_date.drop 6).take 2)
  else if caps.xlrd then
    match r.get? (idxDatum.getD 0) with
    | some (.num v _) =>
      match xldateFn v with
      | some (y, m, d) => pad4 y ++ '-' :: pad2 m ++ '-' :: pad2 d
      | none => raw_date
    | _ => raw_date
  else raw_date

/-- `cell(idx_meded) or cell(idx_name)`. -/
def xlsDescription (ix : XlsIdx) (r : List Cell) : List Char :=
  match emptyToNone (cellAt r ix.meded) with
  | some d => d
  | none => cellAt r ix.name

/-- `cell(idx_afbij) or "Af"` — the documented default-to-debit choice. -/
def xlsDebitCredit (ix : XlsIdx) (r : List Cell) : List Char :=
  match emptyToNone (cellAt r ix.afbij) with
  | some d => d
  | none => "Af".data

/-- `cell(idx_bedrag) or "0"`. -/
def xlsBedrag (ix : XlsIdx) (r : List Cell) : List Char :=
  match emptyToNone (cellAt r ix.bedrag) with
  | some b => b
  | none => "0".data

/-- The pure prefix of the Excel row loop's `try:` body. -/
def parseXlsRow (caps : Caps) (xldateFn : ℤ → Option (ℕ × ℕ × ℕ))
    (ix : XlsIdx) (r : List Cell) : Option ParsedCsvRow :=
  let booking_iso := xlsBookingIso caps xldateFn ix.datum r
  let description := xlsDescription ix r
  match try_extract_value_date description with
  | .error _ => none
  | .ok vd =>
    let debit_credit := xlsDebitCredit ix r
    match parse_eu_amount_to_cents (xlsBedrag ix r) debit_credit with
    | none => none
    | some cents =>
      some { booking_iso := booking_iso, description := description,
             value_date := vd, debit_credit := debit_credit,
             amount_cents := cents,
             counterparty_iban := emptyToNone (cellAt r ix.tegen),
             counterparty_name := emptyToNone (cellAt r ix.name),
             account_str := cellAt r ix.rek }

/-- One iteration of the Excel row loop (account key is `account_str or
None`, unlike the CSV path which passes the string as-is). -/
def xlsRowStep (caps : Caps) (xldateFn : ℤ → Option (ℕ × ℕ × ℕ))
    (ix : XlsIdx) (docId : ℕ) (st : IngestStats × DB) (r : List Cell) :
    IngestStats × DB :=
  let stats := { st.1 with tx_seen := st.1.tx_seen + 1 }
  match parseXlsRow caps xldateFn ix r with
  | none => (stats, appendEvent st.2 docId "parse".data false "xls row error".data)
  | some p =>
    let ea := ensure_account st.2 (emptyToNone p.account_str) none
    let ins := insertTxnIfAbsent ea.2 (csvTxnRow docId ea.1 p)
    (if ins.1 then { stats with tx_new := stats.tx_new + 1 } else stats, ins.2)

/-- Document registration of the Excel path. Unlike the CSV path it emits
no parse event at all. -/
def registerXlsDoc (db : DB) (f : XlsFile) : ℕ × ℕ × DB :=
  match findDocId db (sha256hex f.content) with
  | some i => (i, 0, db)
  | none =>
    let i := nextDocId db
    (i, 1, { db with documents := db.documents ++
      [⟨i, f.path, sha256hex f.content, pathSuffix f.path, some "ING".data⟩] })

/-- `excel_ingest.ingest_xls`: register, pick the loader by extension, on a
missing library emit one failed parse event and stop; else resolve headers
and run the row loop. -/
def ingest_xls (caps : Caps) (xldateFn : ℤ → Option (ℕ × ℕ × ℕ))
    (db : DB) (f : XlsFile) : IngestStats × DB :=
  let reg := registerXlsDoc db f
  let stats0 : IngestStats := { docs_new := reg.2.1, tx_seen := 0, tx_new := 0 }
  if (if isXlsx f.path then caps.openpyxl else caps.xlrd) then
    let ix := resolveIdx f.headers
    let res := f.rows.foldl (xlsRowStep caps xldateFn ix reg.1) (stats0, reg.2.2)
    (res.1, appendEvent res.2 reg.1 "parse".data true "excel rows".data)
  else
    (stats0, appendEvent reg.2.2 reg.1 "parse".data false "Excel parser missing".data)

/-! ## `pdf_ingest.ingest_pdf_generic` -/

/-- A PDF file: raw bytes plus the text that `pdfplumber` (external)
extracts from them — table cells joined with spaces or page text, joined
with newlines, as the source builds `full_text`. -/
structure PdfFile where
  path : List Char
  content : List ℕ
  text : List Char
deriving DecidableEq

/-- `str.splitlines` on the newline characters in scope. -/
def splitLines : List Char → List (List Char)
  | [] => [[]]
  | c :: t =>
    if c = '\n' then [] :: splitLines t
    else
      match splitLines t with
      | [] => [[c]]
      | l :: ls => (c :: l) :: ls

/-- `pdf_ingest._extract_lines`. -/
def extract_lines (text : List Char) : List (List Char) :=
  ((splitLines text).map pystrip).filter (fun l => l ≠ [])

/-- Regex `\\w` (the ASCII fragment): used for `\\b` boundaries. -/
def isWordChar (c : Char) : Bool := c.isAlphanum || c = '_'

/-- `[A-Z]` exactly `k` times. -/
def upperExact (k : ℕ) (s : List Char) : Option ℕ :=
  if (s.take k).length = k ∧ (s.take k).all (fun c => 'A' ≤ c && c ≤ 'Z') then some k
  else none

/-- Anchored `\\b\\d{2}-\\d{2}-\\d{4}\\b` given the preceding character. -/
def dateMatchAt (prev : Option Char) (s : List Char) : Option ℕ :=
  if prev.all (fun c => !isWordChar c) then
    match mseq (digitsExact 2) (mseq (litCS "-".data) (mseq (digitsExact 2)
        (mseq (litCS "-".data) (digitsExact 4)))) s with
    | some n =>
      if (s.drop n).head?.all (fun c => !isWordChar c) then some n else none
    | none => none
  else none

/-- Anchored `\\b[A-Z]{2}\\d{2}[A-Z]{4}\\d{10}\\b`. -/
def ibanMatchAt (prev : Option Char) (s : List Char) : Option ℕ :=
  if prev.all (fun c => !isWordChar c) then
    match mseq (upperExact 2) (mseq (digitsExact 2) (mseq (upperExact 4)
        (digitsExact 10))) s with
    | some n =>
      if (s.drop n).head?.all (fun c => !isWordChar c) then some n else none
    | none => none
  else none

/-- `re.search` with left context: leftmost match, returned as its text. -/
def searchCtx (p : Option Char → List Char → Option ℕ) :
    Option Char → List Char → Option (List Char)
  | _, [] => none
  | prev, c :: t =>
    match p prev (c :: t) with
    | some n => some ((c :: t).take n)
    | none => searchCtx p (some c) t

/-- `pdf_ingest._guess_account_iban`. -/
def guess_account_iban (text : List Char) : Option (List Char) :=
  searchCtx ibanMatchAt none text

/-- `,\\d{2}` — the tail of the amount pattern. -/
def amtTail (s : List Char) : Option ℕ :=
  match s with
  | ',' :: a :: b :: _ => if pyDigit a && pyDigit b then some 3 else none
  | _ => none

/-- `(?:\\.\\d{3})*,\\d{2}` with the regex engine's greedy backtracking:
prefer consuming another thousands group; on failure fall back to the
tail at the current position. -/
def amtGroups : List Char → Option ℕ
  | '.' :: a :: b :: c :: rest =>
    if pyDigit a && pyDigit b && pyDigit c then
      match amtGroups rest with
      | some n => some (n + 4)
      | none => amtTail ('.' :: a :: b :: c :: rest)
    else amtTail ('.' :: a :: b :: c :: rest)
  | s => amtTail s

/-- `\\d{k}` then the group tail. -/
def amtDigitsAt (k : ℕ) (s : List Char) : Option ℕ :=
  if (s.take k).length = k ∧ (s.take k).all pyDigit then
    match amtGroups (s.drop k) with
    | some n => some (k + n)
    | none => none
  else none

/-- Anchored `[-+]?\\d{1,3}(?:\\.\\d{3})*,\\d{2}` (greedy: three leading
digits first). -/
def matchAmountAt (s : List Char) : Option ℕ :=
  let sn : ℕ × List Char :=
    match s with
    | '-' :: t => (1, t)
    | '+' :: t => (1, t)
    | t => (0, t)
  match amtDigitsAt 3 sn.2 with
  | some n => some (sn.1 + n)
  | none =>
    match amtDigitsAt 2 sn.2 with
    | some n => some (sn.1 + n)
    | none =>
      match amtDigitsAt 1 sn.2 with
      | some n => some (sn.1 + n)
      | none => none

/-- `re.search(_AMOUNT_RE, line)`: leftmost match text. -/
def amountSearch : List Char → Option (List Char)
  | [] => none
  | c :: t =>
    match matchAmountAt (c :: t) with
    | some n => some ((c :: t).take n)
    | none => amountSearch t

/-- `re.sub(pattern, "", s)` for a context-sensitive matcher: the context
for positions after a removed match is the original string (the match's
last character), exactly as `re` scans the original text. -/
def subAllCtxF (p : Option Char → List Char → Option ℕ) :
    ℕ → Option Char → List Char → List Char
  | _, _, [] => []
  | 0, _, s => s
  | fuel + 1, prev, c :: t =>
    match p prev (c :: t) with
    | some (n + 1) =>
      subAllCtxF p fuel (((c :: t).take (n + 1)).getLast?) ((c :: t).drop (n + 1))
    | _ => c :: subAllCtxF p fuel (some c) t

/-- `re.sub` for a context-sensitive matcher (see `subAll` for the fuel). -/
def subAllCtx (p : Option Char → List Char → Option ℕ) (prev : Option Char)
    (s : List Char) : List Char :=
  subAllCtxF p s.length prev s

/-- `pdf_ingest._iter_tx_candidates`: every line carrying both a date-like
and an amount-like token yields `(date, description, amount)`, the
description being the line with both patterns stripped, or the next line
when that leaves nothing. -/
def txCandidates : List (List Char) → List (List Char × List Char × List Char)
  | [] => []
  | ln :: rest =>
    (match searchCtx dateMatchAt none ln, amountSearch ln with
     | some d, some a =>
       let desc0 := pystrip (subAll matchAmountAt (subAllCtx dateMatchAt none ln))
       let desc := if desc0 ≠ [] then desc0 else (rest.head?.getD [])
       [(d, desc, a)]
     | _, _ => []) ++ txCandidates rest

/-- The account-resolution prologue of the PDF path: a document-wide IBAN
search, else the reserved unknown bucket. `INSERT OR IGNORE` followed by
the null-aware `SELECT` resolves to the first matching row, which
`ensure_account` models (the constraint set is modelled from the spec's
account-identity rule, `schema.sql` not being under `src/`). -/
def pdfResolveAccount (db : DB) (text : List Char) : ℕ × DB :=
  match guess_account_iban text with
  | some iban => ensure_account db (some iban) none
  | none => ensure_account db none (some "UNKNOWN_PDF".data)

/-- One PDF transaction candidate: `strptime` validation, sign hint from
the amount text, amount parse on the minus-stripped text, hash, insert. -/
def pdfRowStep (docId accountId : ℕ) (st : IngestStats × DB)
    (cand : List Char × List Char × List Char) : IngestStats × DB :=
  let stats := { st.1 with tx_seen := st.1.tx_seen + 1 }
  let date_str := cand.1
  let desc_raw := cand.2.1
  let amt_str := cand.2.2
  let d := digitsToNat (date_str.take 2)
  let m := digitsToNat ((date_str.drop 3).take 2)
  let y := digitsToNat (date_str.drop 6)
  if validDMY d m y then
    let booking_iso := isoOfYMD y m d
    let hint := if (pystrip amt_str).contains '-' then "Af".data else "Bij".data
    match parse_eu_amount_to_cents (amt_str.filter (· ≠ '-')) hint with
    | none => (stats, appendEvent st.2 docId "parse".data false "pdf row error".data)
    | some cents =>
      let txn_hash := compute_txn_hash
        { account_id := accountId, booking_date := booking_iso,
          value_date := none, amount_cents := cents, currency := "EUR".data,
          debit_credit := directionOf hint, counterparty_iban_or_name := [],
          normalized_description := normalize_description desc_raw }
      let ins := insertTxnIfAbsent st.2
        { id := 0, account_id := accountId, document_id := docId,
          txn_hash := txn_hash, booking_date := booking_iso,
          value_date := none, amount_cents := cents, currency := "EUR".data,
          debit_credit := directionOf hint, counterparty_name := none,
          counterparty_iban := none, description := desc_raw }
      (if ins.1 then { stats with tx_new := stats.tx_new + 1 } else stats, ins.2)
  else (stats, appendEvent st.2 docId "parse".data false "pdf row error".data)

/-- Document registration of the PDF path (no parse event, like Excel). -/
def registerPdfDoc (db : DB) (f : PdfFile) : ℕ × ℕ × DB :=
  match findDocId db (sha256hex f.content) with
  | some i => (i, 0, db)
  | none =>
    let i := nextDocId db
    (i, 1, { db with documents := db.documents ++
      [⟨i, f.path, sha256hex f.content, "pdf".data, none⟩] })

/-- `pdf_ingest.ingest_pdf_generic`: register; when `pdfplumber` is absent
emit the single explanatory failed parse event; else extract lines, guess
the account, scan candidates, and append the summary event. -/
def ingest_pdf_generic (caps : Caps) (db : DB) (f : PdfFile) :
    IngestStats × DB :=
  let reg := registerPdfDoc db f
  let stats0 : IngestStats := { docs_new := reg.2.1, tx_seen := 0, tx_new := 0 }
  if caps.pdfplumber then
    let ra := pdfResolveAccount reg.2.2 f.text
    let res := (txCandidates (extract_lines f.text)).foldl
      (pdfRowStep reg.1 ra.1) (stats0, ra.2)
    (res.1, appendEvent res.2 reg.1 "parse".data true "pdf parsed".data)
  else
    (stats0, appendEvent reg.2.2 reg.1 "parse".data false
      "pdfplumber not installed; cannot parse PDF.".data)

/-! ## Claim C5: missing decoding capability -/

theorem registerXlsDoc_transactions (db : DB) (f : XlsFile) :
    (registerXlsDoc db f).2.2.transactions = db.transactions := by
  unfold registerXlsDoc
  cases h : findDocId db (sha256hex f.content) <;> rfl

theorem registerXlsDoc_parse_events (db : DB) (f : XlsFile) :
    (registerXlsDoc db f).2.2.parse_events = db.parse_events := by
  unfold registerXlsDoc
  cases h : findDocId db (sha256hex f.content) <;> rfl

theorem registerPdfDoc_transactions (db : DB) (f : PdfFile) :
    (registerPdfDoc db f).2.2.transactions = db.transactions := by
  unfold registerPdfDoc
  cases h : findDocId db (sha256hex f.content) <;> rfl

theorem registerPdfDoc_parse_events (db : DB) (f : PdfFile) :
    (registerPdfDoc db f).2.2.parse_events = db.parse_events := by
  unfold registerPdfDoc
  cases h : findDocId db (sha256hex f.content) <;> rfl

theorem ingest_xls_missing (caps : Caps) (xld : ℤ → Option (ℕ × ℕ × ℕ))
    (db : DB) (f : XlsFile)
    (hx : (if isXlsx f.path then caps.openpyxl else caps.xlrd) = false) :
    ingest_xls caps xld db f =
      ({ docs_new := (registerXlsDoc db f).2.1, tx_seen := 0, tx_new := 0 },
       appendEvent (registerXlsDoc db f).2.2 (registerXlsDoc db f).1
         "parse".data false "Excel parser missing".data) := by
  unfold ingest_xls
  rw [hx]
  rfl

theorem ingest_pdf_missing (caps : Caps) (db : DB) (f : PdfFile)
    (hp : caps.pdfplumber = false) :
    ingest_pdf_generic caps db f =
      ({ docs_new := (registerPdfDoc db f).2.1, tx_seen := 0, tx_new := 0 },
       appendEvent (registerPdfDoc db f).2.2 (registerPdfDoc db f).1
         "parse".data false "pdfplumber not installed; cannot parse PDF.".data) := by
  unfold ingest_pdf_generic
  rw [hp]
  rfl

/-- C5: when the decoding library a document's format needs is unavailable
at run time, the run returns to the caller (no exception escapes the
model); the document yields zero transactions (none seen, none created,
the store's transactions unchanged) and exactly one parse event is
appended — a failed document-level one explaining the missing capability —
for both the spreadsheet and the PDF paths. -/
theorem claim_C5 (caps : Caps) (xld : ℤ → Option (ℕ × ℕ × ℕ)) (db : DB)
    (f : XlsFile) (g : PdfFile)
    (hx : (if isXlsx f.path then caps.openpyxl else caps.xlrd) = false)
    (hp : caps.pdfplumber = false) :
    (ingest_xls caps xld db f).1.tx_seen = 0 ∧
    (ingest_xls caps xld db f).1.tx_new = 0 ∧
    (ingest_xls caps xld db f).2.transactions = db.transactions ∧
    (ingest_xls caps xld db f).2.parse_events = db.parse_events ++
      [⟨(registerXlsDoc db f).1, "parse".data, false, "Excel parser missing".data⟩] ∧
    (ingest_pdf_generic caps db g).1.tx_seen = 0 ∧
    (ingest_pdf_generic caps db g).1.tx_new = 0 ∧
    (ingest_pdf_generic caps db g).2.transactions = db.transactions ∧
    (ingest_pdf_generic caps db g).2.parse_events = db.parse_events ++
      [⟨(registerPdfDoc db g).1, "parse".data, false,
        "pdfplumber not installed; cannot parse PDF.".data⟩] := by
  rw [ingest_xls_missing caps xld db f hx, ingest_pdf_missing caps db g hp]
  refine ⟨rfl, rfl, ?_, ?_, rfl, rfl, ?_, ?_⟩
  · exact registerXlsDoc_transactions db f
  · show (registerXlsDoc db f).2.2.parse_events ++ _ = _
    rw [registerXlsDoc_parse_events]
  · exact registerPdfDoc_transactions db g
  · show (registerPdfDoc db g).2.2.parse_events ++ _ = _
    rw [registerPdfDoc_parse_events]

/-- Witness for C5: no libraries available, a concrete `.xls` file and a
concrete PDF both yield zero transactions and one failed event. -/
theorem claim_C5_witness :
    (ingest_xls ⟨false, false, false⟩ (fun _ => none) emptyDB
      ⟨"bank.xls".data, [1], [], []⟩).1.tx_new = 0 ∧
    (ingest_pdf_generic ⟨false, false, false⟩ emptyDB
      ⟨"bank.pdf".data, [2], []⟩).1.tx_new = 0 := by
  obtain ⟨h1, h2, h3, h4, h5, h6, h7, h8⟩ := claim_C5 ⟨false, false, false⟩
    (fun _ => none) emptyDB ⟨"bank.xls".data, [1], [], []⟩
    ⟨"bank.pdf".data, [2], []⟩ (by decide) rfl
  exact ⟨h2, h6⟩

/-! ## Claim C8: which paths emit the "ingest"-stage event -/

/-- Document-level "ingest"-stage events. -/
def isIngestStage (e : EventRow) : Bool := e.stage = "ingest".data

theorem insertTxn_parse_events (db : DB) (t : TxnRow) :
    (insertTxnIfAbsent db t).2.parse_events = db.parse_events := by
  unfold insertTxnIfAbsent
  split <;> rfl

theorem filter_ingest_appendParse (db : DB) (d : ℕ) (ok : Bool) (m : List Char) :
    (appendEvent db d "parse".data ok m).parse_events.filter isIngestStage
      = db.parse_events.filter isIngestStage := by
  have he : isIngestStage ⟨d, "parse".data, ok, m⟩ = false := rfl
  unfold appendEvent
  rw [List.filter_append]
  simp [List.filter_cons, he]

theorem filter_ingest_appendIngest (db : DB) (d : ℕ) (ok : Bool) (m : List Char) :
    (appendEvent db d "ingest".data ok m).parse_events.filter isIngestStage
      = db.parse_events.filter isIngestStage ++ [⟨d, "ingest".data, ok, m⟩] := by
  have he : isIngestStage ⟨d, "ingest".data, ok, m⟩ = true := rfl
  unfold appendEvent
  rw [List.filter_append]
  simp [List.filter_cons, he]

theorem csvRowStep_ingest_events (docId : ℕ) (st : IngestStats × DB) (r : RawRowCSV) :
    (csvRowStep docId st r).2.parse_events.filter isIngestStage
      = st.2.parse_events.filter isIngestStage := by
  unfold csvRowStep
  cases hp : parseCsvRow r with
  | none => exact filter_ingest_appendParse st.2 docId false "row error".data
  | some p =>
    dsimp only
    rw [insertTxn_parse_events, ensure_account_parse_events]

theorem foldCsv_ingest_events (docId : ℕ) (rows : List RawRowCSV) :
    ∀ st, (foldCsv docId rows st).2.parse_events.filter isIngestStage
      = st.2.parse_events.filter isIngestStage := by
  induction rows with
  | nil => intro st; rfl
  | cons r rest ih =>
    intro st
    rw [foldCsv_cons, ih, csvRowStep_ingest_events]

theorem xlsRowStep_ingest_events (caps : Caps) (xld : ℤ → Option (ℕ × ℕ × ℕ))
    (ix : XlsIdx) (docId : ℕ) (st : IngestStats × DB) (r : List Cell) :
    (xlsRowStep caps xld ix docId st r).2.parse_events.filter isIngestStage
      = st.2.parse_events.filter isIngestStage := by
  unfold xlsRowStep
  cases hp : parseXlsRow caps xld ix r with
  | none => exact filter_ingest_appendParse st.2 docId false "xls row error".data
  | some p =>
    dsimp only
    rw [insertTxn_parse_events, ensure_account_parse_events]

theorem xlsFold_ingest_events (caps : Caps) (xld : ℤ → Option (ℕ × ℕ × ℕ))
    (ix : XlsIdx) (docId : ℕ) (rows : List (List Cell)) :
    ∀ st, ((rows.foldl (xlsRowStep caps xld ix docId) st).2.parse_events.filter
      isIngestStage) = st.2.parse_events.filter isIngestStage := by
  induction rows with
  | nil => intro st; rfl
  | cons r rest ih =>
    intro st
    rw [List.foldl_cons, ih, xlsRowStep_ingest_events]

theorem pdfRowStep_ingest_events (docId accountId : ℕ) (st : IngestStats × DB)
    (cand : List Char × List Char × List Char) :
    (pdfRowStep docId accountId st cand).2.parse_events.filter isIngestStage
      = st.2.parse_events.filter isIngestStage := by
  unfold pdfRowStep
  dsimp only
  split
  · cases hq : parse_eu_amount_to_cents (cand.2.2.filter (· ≠ '-'))
        (if (pystrip cand.2.2).contains '-' then "Af".data else "Bij".data) with
    | none => exact filter_ingest_appendParse st.2 docId false "pdf row error".data
    | some cents =>
      dsimp only
      rw [insertTxn_parse_events]
  · exact filter_ingest_appendParse st.2 docId false "pdf row error".data

theorem pdfFold_ingest_events (docId accountId : ℕ)
    (cands : List (List Char × List Char × List Char)) :
    ∀ st, ((cands.foldl (pdfRowStep docId accountId) st).2.parse_events.filter
      isIngestStage) = st.2.parse_events.filter isIngestStage := by
  induction cands with
  | nil => intro st; rfl
  | cons r rest ih =>
    intro st
    rw [List.foldl_cons, ih, pdfRowStep_ingest_events]

theorem pdfResolveAccount_parse_events (db : DB) (text : List Char) :
    (pdfResolveAccount db text).2.parse_events = db.parse_events := by
  unfold pdfResolveAccount
  cases guess_account_iban text <;> simp [ensure_account_parse_events]

/-- Counterexample to C8 as stated: a spreadsheet ingestion that registers
a brand-new document emits no "ingest"-stage parse event at all. -/
theorem claim_C8_counterexample :
    (ingest_xls ⟨false, false, false⟩ (fun _ => none) emptyDB
      ⟨"bank.xls".data, [1], [], []⟩).2.documents.length = 1 ∧
    ((ingest_xls ⟨false, false, false⟩ (fun _ => none) emptyDB
      ⟨"bank.xls".data, [1], [], []⟩).2.parse_events.filter isIngestStage).length
      = 0 := by
  constructor
  · rfl
  · rfl

/-- C8 amended: only the CSV (delimited-text) ingestion path emits the
document-level "ingest"-stage parse event — exactly one per run, marked
`ok`, with the message distinguishing a new import from a repeat of
already-seen byte content; the spreadsheet and PDF paths register
documents without emitting any "ingest"-stage event. -/
theorem claim_C8_amended :
    (∀ (db : DB) (f : CsvFile),
      (ingest_csv_ing db f).2.parse_events.filter isIngestStage
        = db.parse_events.filter isIngestStage ++
          [⟨docIdUsed db f, "ingest".data, true,
            if (findDocId db (sha256hex f.content)).isSome
            then "Already imported; reprocessing parse only".data
            else "New document imported".data⟩]) ∧
    (∀ (caps : Caps) (xld : ℤ → Option (ℕ × ℕ × ℕ)) (db : DB) (f : XlsFile),
      (ingest_xls caps xld db f).2.parse_events.filter isIngestStage
        = db.parse_events.filter isIngestStage) ∧
    (∀ (caps : Caps) (db : DB) (g : PdfFile),
      (ingest_pdf_generic caps db g).2.parse_events.filter isIngestStage
        = db.parse_events.filter isIngestStage) := by
  refine ⟨?_, ?_, ?_⟩
  · intro db f
    rw [ingest_csv_ing_eq]
    show (appendEvent _ _ "parse".data true _).parse_events.filter isIngestStage = _
    rw [filter_ingest_appendParse, foldCsv_ingest_events]
    unfold registerCsvDoc docIdUsed
    cases h : findDocId db (sha256hex f.content) with
    | some i =>
      dsimp only
      rw [filter_ingest_appendIngest]
      simp [h]
    | none =>
      dsimp only
      rw [filter_ingest_appendIngest]
      simp [h]
  · intro caps xld db f
    unfold ingest_xls
    cases hlib : (if isXlsx f.path then caps.openpyxl else caps.xlrd) with
    | false =>
      show (appendEvent _ _ "parse".data false _).parse_events.filter isIngestStage = _
      rw [filter_ingest_appendParse, registerXlsDoc_parse_events]
    | true =>
      show (appendEvent _ _ "parse".data true _).parse_events.filter isIngestStage = _
      rw [filter_ingest_appendParse, xlsFold_ingest_events, registerXlsDoc_parse_events]
  · intro caps db g
    unfold ingest_pdf_generic
    cases hlib : caps.pdfplumber with
    | false =>
      show (appendEvent _ _ "parse".data false _).parse_events.filter isIngestStage = _
      rw [filter_ingest_appendParse, registerPdfDoc_parse_events]
    | true =>
      show (appendEvent _ _ "parse".data true _).parse_events.filter isIngestStage = _
      rw [filter_ingest_appendParse, pdfFold_ingest_events]
      show ((pdfResolveAccount (registerPdfDoc db g).2.2 g.text).2.parse_events.filter
        isIngestStage) = _
      rw [pdfResolveAccount_parse_events, registerPdfDoc_parse_events]

/-! ## Claim C10: sign/direction consistency of inserted rows -/

/-- The amended sign invariant: a stored DEBIT row is non-positive and a
stored CREDIT row non-negative. -/
def signOk (t : TxnRow) : Prop :=
  (t.debit_credit = "DEBIT".data → t.amount_cents ≤ 0) ∧
  (t.debit_credit = "CREDIT".data → 0 ≤ t.amount_cents)

/-- For a stripped direction token, the parsed amount's sign agrees with
the direction string stored next to it (both derive from the same
`.lower() == "af"` comparison). -/
theorem parse_sign_direction {bedrag dc : List Char} {c : ℤ}
    (hstrip : pystrip dc = dc)
    (h : parse_eu_amount_to_cents bedrag dc = some c) :
    (directionOf dc = "DEBIT".data → c ≤ 0) ∧
    (directionOf dc = "CREDIT".data → 0 ≤ c) := by
  rcases parse_eu_shape bedrag dc with hn | ⟨n, hs⟩
  · rw [hn] at h
    exact absurd h (by simp)
  · rw [hstrip] at hs
    rw [hs] at h
    simp only [Option.some.injEq] at h
    unfold directionOf
    by_cases hd : pylower dc = "af".data
    · rw [if_pos hd] at h ⊢
      refine ⟨fun _ => ?_, fun hcred => absurd hcred (by decide)⟩
      omega
    · rw [if_neg hd] at h ⊢
      refine ⟨fun hdeb => absurd hdeb (by decide), fun _ => ?_⟩
      omega

theorem parseCsvRow_fields {r : RawRowCSV} {p : ParsedCsvRow}
    (h : parseCsvRow r = some p) :
    p.debit_credit = pystrip r.af_bij ∧
    parse_eu_amount_to_cents r.bedrag p.debit_credit = some p.amount_cents := by
  unfold parseCsvRow at h
  dsimp only at h
  split at h
  · exact absurd h (by simp)
  · split at h
    · exact absurd h (by simp)
    · simp only [Option.some.injEq] at h
      rw [← h]
      rename_i vd hvd cents hcents
      exact ⟨rfl, hcents⟩

theorem pystrip_nil : pystrip [] = ([] : List Char) := rfl

theorem cellAt_stripped (r : List Cell) (i : Option ℕ) :
    pystrip (cellAt r i) = cellAt r i := by
  cases i with
  | none => rfl
  | some j =>
    cases hg : r[j]? with
    | none => simp [cellAt, hg, pystrip_nil]
    | some c =>
      cases c <;> simp [cellAt, hg, cellRender, pystrip_idem, pystrip_nil]

theorem xlsDebitCredit_stripped (ix : XlsIdx) (r : List Cell) :
    pystrip (xlsDebitCredit ix r) = xlsDebitCredit ix r := by
  unfold xlsDebitCredit
  cases he : emptyToNone (cellAt r ix.afbij) with
  | none => decide
  | some d =>
    have hd : d = cellAt r ix.afbij := by
      unfold emptyToNone at he
      by_cases hc : cellAt r ix.afbij = []
      · rw [if_pos hc] at he
        cases he
      · rw [if_neg hc] at he
        cases he
        rfl
    dsimp only
    rw [hd]
    exact cellAt_stripped r ix.afbij

theorem parseXlsRow_fields {caps : Caps} {xld : ℤ → Option (ℕ × ℕ × ℕ)}
    {ix : XlsIdx} {r : List Cell} {p : ParsedCsvRow}
    (h : parseXlsRow caps xld ix r = some p) :
    pystrip p.debit_credit = p.debit_credit ∧
    ∃ b, parse_eu_amount_to_cents b p.debit_credit = some p.amount_cents := by
  unfold parseXlsRow at h
  dsimp only at h
  split at h
  · exact absurd h (by simp)
  · split at h
    · exact absurd h (by simp)
    · simp only [Option.some.injEq] at h
      rw [← h]
      rename_i vd hvd cents hcents
      exact ⟨xlsDebitCredit_stripped ix r, ⟨_, hcents⟩⟩

theorem insertTxn_new_cases {db : DB} {x t : TxnRow}
    (h : t ∈ (insertTxnIfAbsent db x).2.transactions) :
    t ∈ db.transactions ∨ t = { x with id := nextTxnId db } := by
  unfold insertTxnIfAbsent at h
  split at h
  · exact Or.inl h
  · dsimp only at h
    rw [List.mem_append] at h
    rcases h with h | h
    · exact Or.inl h
    · exact Or.inr (List.mem_singleton.mp h)

theorem csvRowStep_new_sign {docId : ℕ} {st : IngestStats × DB} {r : RawRowCSV}
    {t : TxnRow} (h : t ∈ (csvRowStep docId st r).2.transactions) :
    t ∈ st.2.transactions ∨ signOk t := by
  unfold csvRowStep at h
  cases hp : parseCsvRow r with
  | none =>
    rw [hp] at h
    exact Or.inl h
  | some p =>
    rw [hp] at h
    dsimp only at h
    rcases insertTxn_new_cases h with h' | h'
    · rw [ensure_account_transactions] at h'
      exact Or.inl h'
    · right
      obtain ⟨hdc, hamt⟩ := parseCsvRow_fields hp
      have hstrip : pystrip p.debit_credit = p.debit_credit := by
        rw [hdc, pystrip_idem]
      have hsign := parse_sign_direction hstrip hamt
      rw [h']
      exact hsign

theorem foldCsv_new_sign (docId : ℕ) (rows : List RawRowCSV) :
    ∀ st t, t ∈ (foldCsv docId rows st).2.transactions →
      t ∈ st.2.transactions ∨ signOk t := by
  induction rows with
  | nil => intro st t h; exact Or.inl h
  | cons r rest ih =>
    intro st t h
    rw [foldCsv_cons] at h
    rcases ih (csvRowStep docId st r) t h with h' | h'
    · exact csvRowStep_new_sign h'
    · exact Or.inr h'

theorem xlsRowStep_new_sign {caps : Caps} {xld : ℤ → Option (ℕ × ℕ × ℕ)}
    {ix : XlsIdx} {docId : ℕ} {st : IngestStats × DB} {r : List Cell}
    {t : TxnRow} (h : t ∈ (xlsRowStep caps xld ix docId st r).2.transactions) :
    t ∈ st.2.transactions ∨ signOk t := by
  unfold xlsRowStep at h
  cases hp : parseXlsRow caps xld ix r with
  | none =>
    rw [hp] at h
    exact Or.inl h
  | some p =>
    rw [hp] at h
    dsimp only at h
    rcases insertTxn_new_cases h with h' | h'
    · rw [ensure_account_transactions] at h'
      exact Or.inl h'
    · right
      obtain ⟨hstrip, b, hamt⟩ := parseXlsRow_fields hp
      have hsign := parse_sign_direction hstrip hamt
      rw [h']
      exact hsign

theorem xlsFold_new_sign (caps : Caps) (xld : ℤ → Option (ℕ × ℕ × ℕ))
    (ix : XlsIdx) (docId : ℕ) (rows : List (List Cell)) :
    ∀ st t, t ∈ ((rows.foldl (xlsRowStep caps xld ix docId) st).2.transactions) →
      t ∈ st.2.transactions ∨ signOk t := by
  induction rows with
  | nil => intro st t h; exact Or.inl h
  | cons r rest ih =>
    intro st t h
    rw [List.foldl_cons] at h
    rcases ih (xlsRowStep caps xld ix docId st r) t h with h' | h'
    · exact xlsRowStep_new_sign h'
    · exact Or.inr h'

theorem pdfRowStep_new_sign {docId accountId : ℕ} {st : IngestStats × DB}
    {cand : List Char × List Char × List Char} {t : TxnRow}
    (h : t ∈ (pdfRowStep docId accountId st cand).2.transactions) :
    t ∈ st.2.transactions ∨ signOk t := by
  unfold pdfRowStep at h
  dsimp only at h
  split at h
  · cases hq : parse_eu_amount_to_cents (cand.2.2.filter (· ≠ '-'))
        (if (pystrip cand.2.2).contains '-' then "Af".data else "Bij".data) with
    | none =>
      rw [hq] at h
      exact Or.inl h
    | some cents =>
      rw [hq] at h
      dsimp only at h
      rcases insertTxn_new_cases h with h' | h'
      · exact Or.inl h'
      · right
        have hstrip : pystrip (if (pystrip cand.2.2).contains '-'
            then "Af".data else "Bij".data)
            = (if (pystrip cand.2.2).contains '-' then "Af".data else "Bij".data) := by
          split <;> decide
        have hsign := parse_sign_direction hstrip hq
        rw [h']
        exact hsign
  · exact Or.inl h

theorem pdfFold_new_sign (docId accountId : ℕ)
    (cands : List (List Char × List Char × List Char)) :
    ∀ st t, t ∈ ((cands.foldl (pdfRowStep docId accountId) st).2.transactions) →
      t ∈ st.2.transactions ∨ signOk t := by
  induction cands with
  | nil => intro st t h; exact Or.inl h
  | cons r rest ih =>
    intro st t h
    rw [List.foldl_cons] at h
    rcases ih (pdfRowStep docId accountId st r) t h with h' | h'
    · exact pdfRowStep_new_sign h'
    · exact Or.inr h'

theorem pdfResolveAccount_transactions (db : DB) (text : List Char) :
    (pdfResolveAccount db text).2.transactions = db.transactions := by
  unfold pdfResolveAccount
  cases guess_account_iban text <;> simp [ensure_account_transactions]

/-- A concrete zero-amount debit row. -/
def zeroRow : RawRowCSV :=
  { datum := "20230115".data, naam_omschrijving := "Test".data,
    rekening := "NL01INGB0000000001".data, tegenrekening := [],
    code := "BA".data, af_bij := "Af".data, bedrag := "0,00".data,
    mutatiesoort := [], mededelingen := "Storting".data }

/-- A concrete one-row file holding the zero-amount debit row. -/
def zeroFile : CsvFile :=
  { path := "zero.csv".data, content := [9], rows := [zeroRow] }

/-- Counterexample to C10 as stated: a `"0,00"` amount with the `"Af"`
(DEBIT) token is stored as `amount_cents = 0`, which is not negative even
though the stored direction is DEBIT — so "negative exactly when DEBIT"
fails. -/
theorem claim_C10_counterexample :
    ((ingest_csv_ing emptyDB zeroFile).2.transactions.map
      (fun t => (t.debit_credit, t.amount_cents))) = [("DEBIT".data, 0)] ∧
    ¬ ((0 : ℤ) < 0) := by
  exact ⟨by decide, by decide⟩

/-- C10 amended: in all three ingestion paths, every transaction row newly
inserted into the store carries an amount whose sign is consistent with
its stored direction — non-positive when the direction column is DEBIT
(token `"af"` case-insensitively) and non-negative when it is CREDIT —
because both derive from the same token comparison. (Strict negativity
fails only at zero amounts, see the counterexample.) -/
theorem claim_C10_amended :
    (∀ (db : DB) (f : CsvFile) (t : TxnRow),
      t ∈ (ingest_csv_ing db f).2.transactions → t ∉ db.transactions → signOk t) ∧
    (∀ (caps : Caps) (xld : ℤ → Option (ℕ × ℕ × ℕ)) (db : DB) (f : XlsFile)
      (t : TxnRow),
      t ∈ (ingest_xls caps xld db f).2.transactions → t ∉ db.transactions →
        signOk t) ∧
    (∀ (caps : Caps) (db : DB) (g : PdfFile) (t : TxnRow),
      t ∈ (ingest_pdf_generic caps db g).2.transactions → t ∉ db.transactions →
        signOk t) := by
  refine ⟨?_, ?_, ?_⟩
  · intro db f t h hnot
    rw [ingest_transactions] at h
    rcases foldCsv_new_sign (registerCsvDoc db f).1 f.rows _ t h with h' | h'
    · rw [registerCsvDoc_transactions] at h'
      exact absurd h' hnot
    · exact h'
  · intro caps xld db f t h hnot
    unfold ingest_xls at h
    dsimp only at h
    split at h <;> split at h <;> dsimp only at h
    case isTrue.isTrue | isFalse.isTrue =>
      rcases xlsFold_new_sign caps xld (resolveIdx f.headers)
          (registerXlsDoc db f).1 f.rows _ t h with h' | h'
      · rw [registerXlsDoc_transactions] at h'
        exact absurd h' hnot
      · exact h'
    case isTrue.isFalse | isFalse.isFalse =>
      rw [appendEvent_transactions, registerXlsDoc_transactions] at h
      exact absurd h hnot
  · intro caps db g t h hnot
    unfold ingest_pdf_generic at h
    dsimp only at h
    split at h <;> dsimp only at h
    · rcases pdfFold_new_sign (registerPdfDoc db g).1
          (pdfResolveAccount (registerPdfDoc db g).2.2 g.text).1
          (txCandidates (extract_lines g.text)) _ t h with h' | h'
      · rw [pdfResolveAccount_transactions, registerPdfDoc_transactions] at h'
        exact absurd h' hnot
      · exact h'
    · rw [appendEvent_transactions, registerPdfDoc_transactions] at h
      exact absurd h hnot

/-- The single transaction the witness ingestion run inserts. -/
def c10wit : TxnRow :=
  ((ingest_csv_ing emptyDB witnessFile).2.transactions.head?).getD
    ⟨0, 0, 0, [], [], none, 0, [], [], none, none, []⟩

set_option maxRecDepth 100000 in
/-- Witness for C10 (amended) at a concrete input: the inserted row of the
one-row witness file is a DEBIT row with a non-positive amount. -/
theorem claim_C10_witness :
    c10wit.debit_credit = "DEBIT".data ∧ c10wit.amount_cents ≤ 0 := by
  have hl : (ingest_csv_ing emptyDB witnessFile).2.transactions = [c10wit] := by
    decide
  have hm : c10wit ∈ (ingest_csv_ing emptyDB witnessFile).2.transactions := by
    rw [hl]
    exact List.mem_singleton.mpr rfl
  have hno : c10wit ∉ (emptyDB).transactions := by decide
  have hd : c10wit.debit_credit = "DEBIT".data := by decide
  exact ⟨hd, (claim_C10_amended.1 emptyDB witnessFile c10wit hm hno).1 hd⟩

/-! ## Claim C9: `spending_tools.spend_by_category`

The SQL aggregation modelled over the joined row set: each transaction row
with its (nullable) category code. `BETWEEN` on ISO dates under SQLite's
byte-wise BINARY collation is the lexicographic comparison `listLe`.
`GROUP BY` output order is unspecified in SQLite and is re-ordered by
`ORDER BY debit DESC` anyway; the model groups in first-occurrence order
and sorts with a stable insertion sort, a behaviour SQLite is permitted to
produce (ties are unspecified there). -/

/-- A transaction row as the report query sees it (after the LEFT JOIN,
`category` is the joined `categories.code`). -/
structure ReportTxn where
  booking_date : List Char
  debit_credit : List Char
  amount_cents : ℤ
  category : Option (List Char)
deriving DecidableEq

/-- Byte-wise (BINARY collation) string comparison, `s ≤ t`. -/
def listLe : List Char → List Char → Bool
  | [], _ => true
  | _ :: _, [] => false
  | a :: as, b :: bs => if a < b then true else if b < a then false else listLe as bs

/-- `COALESCE(c.code, 'UNCATEGORIZED')`. -/
def reportCat (t : ReportTxn) : List Char := t.category.getD "UNCATEGORIZED".data

/-- `WHERE t.booking_date BETWEEN ? AND ?` (inclusive on both ends). -/
def reportFiltered (txns : List ReportTxn) (s e : List Char) : List ReportTxn :=
  txns.filter (fun t => listLe s t.booking_date && listLe t.booking_date e)

/-- `SUM(CASE WHEN t.debit_credit='DEBIT' THEN t.amount_cents ELSE 0 END)`
over one group — a sum of signed amounts. -/
def debitSumSigned (txns : List ReportTxn) (s e c : List Char) : ℤ :=
  ((reportFiltered txns s e).filter (fun t => reportCat t = c)).foldl
    (fun a t => a + (if t.debit_credit = "DEBIT".data then t.amount_cents else 0)) 0

/-- The CREDIT column of the same query. -/
def creditSumSigned (txns : List ReportTxn) (s e c : List Char) : ℤ :=
  ((reportFiltered txns s e).filter (fun t => reportCat t = c)).foldl
    (fun a t => a + (if t.debit_credit = "CREDIT".data then t.amount_cents else 0)) 0

/-- `ORDER BY debit DESC` as a relation on result rows. -/
def debitGe (a b : List Char × ℤ × ℤ) : Prop := b.2.1 ≤ a.2.1

instance : DecidableRel debitGe := fun a b =>
  (inferInstance : Decidable (b.2.1 ≤ a.2.1))

instance : IsTotal (List Char × ℤ × ℤ) debitGe :=
  ⟨fun a b => le_total b.2.1 a.2.1⟩

instance : IsTrans (List Char × ℤ × ℤ) debitGe :=
  ⟨fun _ _ _ hab hbc => le_trans hbc hab⟩

/-- `spending_tools.spend_by_category`: filter to the inclusive range,
group by (coalesced) category, sum the DEBIT and CREDIT cases separately,
order by the debit column descending. -/
def spend_by_category (txns : List ReportTxn) (s e : List Char) :
    List (List Char × ℤ × ℤ) :=
  List.insertionSort debitGe
    (((reportFiltered txns s e).map reportCat).dedup.map
      (fun c => (c, debitSumSigned txns s e c, creditSumSigned txns s e c)))

/-- What the claim's words ("sums debit magnitudes") would compute. -/
def debitSumMagnitudeSpec (txns : List ReportTxn) (s e c : List Char) : ℤ :=
  ((reportFiltered txns s e).filter (fun t => reportCat t = c)).foldl
    (fun a t => a + (if t.debit_credit = "DEBIT".data
      then (t.amount_cents.natAbs : ℤ) else 0)) 0

/-- Counterexample to C9 as stated: one DEBIT transaction stored with the
signed amount `-5000` produces a group whose debit column is `-5000`, not
the magnitude `5000` the claim describes. -/
theorem claim_C9_counterexample :
    spend_by_category [⟨"2023-01-05".data, "DEBIT".data, -5000, none⟩]
      "2023-01-01".data "2023-12-31".data
      = [("UNCATEGORIZED".data, -5000, 0)] ∧
    debitSumMagnitudeSpec [⟨"2023-01-05".data, "DEBIT".data, -5000, none⟩]
      "2023-01-01".data "2023-12-31".data "UNCATEGORIZED".data = 5000 ∧
    ((-5000 : ℤ) ≠ 5000) := by
  refine ⟨by decide, by decide, by decide⟩

/-- C9 amended: for every inclusive date range the report groups the
transactions whose booking date lies in the range by (coalesced) category
— one output row per category present — and per group sums the signed
DEBIT amounts and the signed CREDIT amounts separately (not magnitudes:
debit totals are non-positive under the ingestion sign convention), and
returns the groups sorted descending by the signed debit total. -/
theorem claim_C9_amended (txns : List ReportTxn) (s e : List Char) :
    ((spend_by_category txns s e).map Prod.fst).Nodup ∧
    (∀ c, c ∈ (spend_by_category txns s e).map Prod.fst ↔
      c ∈ (reportFiltered txns s e).map reportCat) ∧
    (∀ p ∈ spend_by_category txns s e,
      p.2.1 = debitSumSigned txns s e p.1 ∧
      p.2.2 = creditSumSigned txns s e p.1) ∧
    List.Sorted debitGe (spend_by_category txns s e) := by
  have hperm : List.Perm (spend_by_category txns s e)
      (((reportFiltered txns s e).map reportCat).dedup.map
        (fun c => (c, debitSumSigned txns s e c, creditSumSigned txns s e c))) :=
    List.perm_insertionSort _ _
  have hfst0 : ∀ l : List (List Char),
      ((l.map (fun c =>
        (c, debitSumSigned txns s e c, creditSumSigned txns s e c))).map
          Prod.fst) = l := by
    intro l
    induction l with
    | nil => rfl
    | cons x xs ih => simp only [List.map_cons, ih]
  have hfst : ((((reportFiltered txns s e).map reportCat).dedup.map
      (fun c => (c, debitSumSigned txns s e c, creditSumSigned txns s e c))).map
        Prod.fst) = ((reportFiltered txns s e).map reportCat).dedup :=
    hfst0 _
  refine ⟨?_, ?_, ?_, ?_⟩
  · rw [(hperm.map Prod.fst).nodup_iff, hfst]
    exact List.nodup_dedup _
  · intro c
    rw [(hperm.map Prod.fst).mem_iff, hfst, List.mem_dedup]
  · intro p hp
    have hp' := hperm.mem_iff.mp hp
    obtain ⟨c, _, hpe⟩ := List.mem_map.mp hp'
    rw [← hpe]
    exact ⟨rfl, rfl⟩
  · exact List.sorted_insertionSort debitGe _

/-- Witness for C9 (amended) at a concrete two-category input. -/
theorem claim_C9_witness :
    List.Sorted debitGe (spend_by_category
      [⟨"2023-01-05".data, "DEBIT".data, -5000, some "GROCERIES".data⟩,
       ⟨"2023-01-06".data, "DEBIT".data, -100, none⟩]
      "2023-01-01".data "2023-12-31".data) ∧
    (∀ p ∈ spend_by_category
      [⟨"2023-01-05".data, "DEBIT".data, -5000, some "GROCERIES".data⟩,
       ⟨"2023-01-06".data, "DEBIT".data, -100, none⟩]
      "2023-01-01".data "2023-12-31".data,
      p.2.1 = debitSumSigned
        [⟨"2023-01-05".data, "DEBIT".data, -5000, some "GROCERIES".data⟩,
         ⟨"2023-01-06".data, "DEBIT".data, -100, none⟩]
        "2023-01-01".data "2023-12-31".data p.1 ∧
      p.2.2 = creditSumSigned
        [⟨"2023-01-05".data, "DEBIT".data, -5000, some "GROCERIES".data⟩,
         ⟨"2023-01-06".data, "DEBIT".data, -100, none⟩]
        "2023-01-01".data "2023-12-31".data p.1) := by
  obtain ⟨h1, h2, h3, h4⟩ := claim_C9_amended
    [⟨"2023-01-05".data, "DEBIT".data, -5000, some "GROCERIES".data⟩,
     ⟨"2023-01-06".data, "DEBIT".data, -100, none⟩]
    "2023-01-01".data "2023-12-31".data
  exact ⟨h4, h3⟩

/-! ## Claim C7: date normalization and value-date extraction -/

/-- A match of `_VALUTADATUM_RE` can only start at a literal `V`. -/
lemma vdCapture_ne_V {c : Char} (t : List Char) (h : c ≠ 'V') :
    vdCapture (c :: t) = none := by
  have hd : "Valutadatum:".data = 'V' :: "alutadatum:".data := rfl
  unfold vdCapture
  rw [hd]
  simp [mseq, litCS, h]

/-- `re.search` skips any prefix free of `V` without finding a match. -/
lemma vdSearch_append (pre rest : List Char) (h : ∀ c ∈ pre, c ≠ 'V') :
    vdSearch (pre ++ rest) = vdSearch rest := by
  induction pre with
  | nil => rfl
  | cons c t ih =>
    have hc : c ≠ 'V' := h c (List.mem_cons_self c t)
    rw [List.cons_append]
    show (match vdCapture (c :: (t ++ rest)) with
      | some cap => some cap
      | none => vdSearch (t ++ rest)) = vdSearch rest
    rw [vdCapture_ne_V _ hc]
    exact ih (fun x hx => h x (List.mem_cons_of_mem _ hx))

/-- The labelled pattern matches at its own start whatever follows. -/
lemma vdCapture_label (post : List Char) :
    vdCapture ("Valutadatum: 15-01-2023".data ++ post)
      = some "15-01-2023".data := rfl

/-- Counterexample to C7 as stated: the date `15-01-2023` embedded in free
text is NOT extracted — `_VALUTADATUM_RE` requires the literal
`Valutadatum:` label before the date, so a bare embedded date yields no
value date. -/
theorem claim_C7_counterexample :
    try_extract_value_date "betaling 15-01-2023 dank".data = .ok none ∧
    (Except.ok (none : Option (List Char)) : Except Unit (Option (List Char)))
      ≠ Except.ok (some "2023-01-15".data) ∧
    List.IsInfix "15-01-2023".data "betaling 15-01-2023 dank".data := by
  refine ⟨rfl, ?_, ⟨"betaling ".data, " dank".data, rfl⟩⟩
  intro h
  exact Option.noConfusion (Except.ok.inj h)

/-- C7 amended: `"20230115"` is rewritten to `"2023-01-15"`, and a date
`15-01-2023` is extracted as the value date `2023-01-15` when it is
embedded behind the `Valutadatum:` label (the only form the code
recognises), for any surrounding free text whose prefix contains no `V`. -/
theorem claim_C7_amended (pre post : List Char) (h : ∀ c ∈ pre, c ≠ 'V') :
    normBookingDate "20230115".data = "2023-01-15".data ∧
    try_extract_value_date (pre ++ ("Valutadatum: 15-01-2023".data ++ post))
      = .ok (some "2023-01-15".data) := by
  refine ⟨rfl, ?_⟩
  unfold try_extract_value_date
  rw [vdSearch_append _ _ h]
  show (match vdSearch ("Valutadatum: 15-01-2023".data ++ post) with
    | none => (.ok none : Except Unit (Option (List Char)))
    | some cap =>
      let d := digitsToNat (cap.take 2)
      let m := digitsToNat ((cap.drop 3).take 2)
      let y := digitsToNat (cap.drop 6)
      if validDMY d m y then .ok (some (isoOfYMD y m d)) else .error ())
    = .ok (some "2023-01-15".data)
  have hs : vdSearch ("Valutadatum: 15-01-2023".data ++ post)
      = some "15-01-2023".data := by
    show (match vdCapture ("Valutadatum: 15-01-2023".data ++ post) with
      | some cap => some cap
      | none => vdSearch (("alutadatum: 15-01-2023".data) ++ post))
      = some "15-01-2023".data
    rw [vdCapture_label]
  rw [hs]
  rfl

/-- Witness for C7 (amended) at concrete surrounding text. -/
theorem claim_C7_witness :
    normBookingDate "20230115".data = "2023-01-15".data ∧
    try_extract_value_date
      ("betaling ".data ++ ("Valutadatum: 15-01-2023".data ++ " dank".data))
      = .ok (some "2023-01-15".data) :=
  claim_C7_amended "betaling ".data " dank".data (by decide)

/-! ## Claim C4: batch isolation of the CSV row loop

Counting invariants of the row loop, and the 100-row / 1-bad-row instance.
The fingerprints of the valid rows are replayed by `csvTrace` over the
evolving account table; distinctness of that replayed list (and absence
from the pre-existing store) is what makes every valid row a fresh
insert. -/

/-- The rows the pure parsing prefix accepts. -/
def goodRows (rows : List RawRowCSV) : List RawRowCSV :=
  rows.filter (fun r => (parseCsvRow r).isSome)

/-- The rows whose parsing raises (bad amount or bad embedded value date). -/
def badRows (rows : List RawRowCSV) : List RawRowCSV :=
  rows.filter (fun r => (parseCsvRow r).isNone)

/-- The number of failed row-level (`"parse"` stage, `ok = 0`) events. -/
def failedParse (db : DB) : ℕ :=
  (db.parse_events.filter (fun e => decide (e.stage = "parse".data) && !e.ok)).length

/-- The fingerprints the row loop computes for the valid rows, replayed
over the evolving account table (account resolution can create rows). -/
def csvTrace : List RawRowCSV → DB → List (List Char)
  | [], _ => []
  | r :: rs, db =>
    match parseCsvRow r with
    | none => csvTrace rs db
    | some p =>
      let ea := ensure_account db (some p.account_str) none
      csvHash ea.1 p :: csvTrace rs ea.2

lemma csvTrace_cons_bad {r : RawRowCSV} (rs : List RawRowCSV) (db : DB)
    (hp : parseCsvRow r = none) : csvTrace (r :: rs) db = csvTrace rs db := by
  simp only [csvTrace]
  rw [hp]

lemma csvTrace_cons_good {r : RawRowCSV} {p : ParsedCsvRow} (rs : List RawRowCSV)
    (db : DB) (hp : parseCsvRow r = some p) :
    csvTrace (r :: rs) db =
      csvHash (ensure_account db (some p.account_str) none).1 p ::
        csvTrace rs (ensure_account db (some p.account_str) none).2 := by
  simp only [csvTrace]
  rw [hp]

lemma findAccount_congr {db db' : DB} (h : db.accounts = db'.accounts)
    (k kn : Option (List Char)) : findAccount db k kn = findAccount db' k kn := by
  unfold findAccount
  rw [h]

lemma ensure_account_congr {db db' : DB} (h : db.accounts = db'.accounts)
    (k kn : Option (List Char)) :
    (ensure_account db k kn).1 = (ensure_account db' k kn).1 ∧
    (ensure_account db k kn).2.accounts = (ensure_account db' k kn).2.accounts := by
  unfold ensure_account
  rw [findAccount_congr h]
  cases hf : findAccount db' k kn with
  | some i => exact ⟨rfl, h⟩
  | none =>
    constructor
    · show nextAccId db = nextAccId db'
      unfold nextAccId
      rw [h]
    · show db.accounts ++ _ = db'.accounts ++ _
      unfold nextAccId
      rw [h]

/-- The replayed fingerprints depend only on the account table. -/
lemma csvTrace_congr : ∀ (rows : List RawRowCSV) {db db' : DB},
    db.accounts = db'.accounts → csvTrace rows db = csvTrace rows db'
  | [], _, _, _ => rfl
  | r :: rs, db, db', h => by
    cases hp : parseCsvRow r with
    | none =>
      rw [csvTrace_cons_bad rs db hp, csvTrace_cons_bad rs db' hp]
      exact csvTrace_congr rs h
    | some p =>
      rw [csvTrace_cons_good rs db hp, csvTrace_cons_good rs db' hp]
      obtain ⟨h1, h2⟩ := ensure_account_congr h (some p.account_str) none
      rw [h1, csvTrace_congr rs h2]

lemma txnHashes_appendEvent (db : DB) (d : ℕ) (s : List Char) (ok : Bool)
    (m : List Char) : txnHashes (appendEvent db d s ok m) = txnHashes db := by
  unfold txnHashes
  rw [appendEvent_transactions]

lemma txnHashes_ensure (db : DB) (k kn : Option (List Char)) :
    txnHashes (ensure_account db k kn).2 = txnHashes db := by
  unfold txnHashes
  rw [ensure_account_transactions]

lemma failedParse_appendEvent_true (db : DB) (d : ℕ) (s m : List Char) :
    failedParse (appendEvent db d s true m) = failedParse db := by
  simp [failedParse, appendEvent, List.filter_append]

lemma failedParse_appendEvent_false (db : DB) (d : ℕ) (m : List Char) :
    failedParse (appendEvent db d "parse".data false m) = failedParse db + 1 := by
  simp [failedParse, appendEvent, List.filter_append]

lemma failedParse_ensure (db : DB) (k kn : Option (List Char)) :
    failedParse (ensure_account db k kn).2 = failedParse db := by
  unfold failedParse
  rw [ensure_account_parse_events]

lemma failedParse_insertTxn (db : DB) (t : TxnRow) :
    failedParse (insertTxnIfAbsent db t).2 = failedParse db := by
  unfold failedParse
  rw [insertTxn_parse_events]

lemma csvRowStep_bad {docId : ℕ} {st : IngestStats × DB} {r : RawRowCSV}
    (hp : parseCsvRow r = none) :
    csvRowStep docId st r = ({ st.1 with tx_seen := st.1.tx_seen + 1 },
      appendEvent st.2 docId "parse".data false "row error".data) := by
  unfold csvRowStep
  rw [hp]

/-- The store after a valid row whose fingerprint is fresh: the ensured
account table plus the one inserted transaction row. -/
def goodStepDB (docId : ℕ) (db : DB) (p : ParsedCsvRow) : DB :=
  { (ensure_account db (some p.account_str) none).2 with transactions :=
    (ensure_account db (some p.account_str) none).2.transactions ++
      [{ csvTxnRow docId (ensure_account db (some p.account_str) none).1 p
         with id := nextTxnId (ensure_account db (some p.account_str) none).2 }] }

lemma goodStepDB_accounts (docId : ℕ) (db : DB) (p : ParsedCsvRow) :
    (goodStepDB docId db p).accounts
      = (ensure_account db (some p.account_str) none).2.accounts := rfl

lemma goodStepDB_txnHashes (docId : ℕ) (db : DB) (p : ParsedCsvRow) :
    txnHashes (goodStepDB docId db p)
      = txnHashes db ++ [csvHash (ensure_account db (some p.account_str) none).1 p] := by
  unfold txnHashes goodStepDB
  dsimp only
  rw [List.map_append, ensure_account_transactions]
  rfl

lemma goodStepDB_length (docId : ℕ) (db : DB) (p : ParsedCsvRow) :
    (goodStepDB docId db p).transactions.length = db.transactions.length + 1 := by
  unfold goodStepDB
  dsimp only
  rw [List.length_append, ensure_account_transactions]
  rfl

lemma goodStepDB_failedParse (docId : ℕ) (db : DB) (p : ParsedCsvRow) :
    failedParse (goodStepDB docId db p) = failedParse db := by
  unfold failedParse goodStepDB
  dsimp only
  rw [ensure_account_parse_events]

lemma csvRowStep_good {docId : ℕ} {st : IngestStats × DB} {r : RawRowCSV}
    {p : ParsedCsvRow} (hp : parseCsvRow r = some p)
    (hfresh : csvHash (ensure_account st.2 (some p.account_str) none).1 p
      ∉ txnHashes st.2) :
    csvRowStep docId st r =
      ({ st.1 with tx_seen := st.1.tx_seen + 1, tx_new := st.1.tx_new + 1 },
       goodStepDB docId st.2 p) := by
  unfold csvRowStep
  rw [hp]
  dsimp only
  unfold insertTxnIfAbsent
  have hh : (csvTxnRow docId (ensure_account st.2 (some p.account_str) none).1 p).txn_hash
      = csvHash (ensure_account st.2 (some p.account_str) none).1 p := rfl
  rw [hh, txnHashes_ensure, if_neg hfresh]
  rfl

/-- The counting invariant of the row loop: every row bumps `tx_seen`,
every invalid row appends exactly one failed row-level event, and — when
the replayed fingerprints are pairwise distinct and absent from the store
— every valid row is a fresh insert. -/
lemma foldCsv_counts (docId : ℕ) : ∀ (rows : List RawRowCSV)
    (st : IngestStats × DB), (csvTrace rows st.2).Nodup →
    (∀ x ∈ csvTrace rows st.2, x ∉ txnHashes st.2) →
    (foldCsv docId rows st).1.tx_seen = st.1.tx_seen + rows.length ∧
    (foldCsv docId rows st).1.tx_new = st.1.tx_new + (goodRows rows).length ∧
    (foldCsv docId rows st).2.transactions.length
      = st.2.transactions.length + (goodRows rows).length ∧
    failedParse (foldCsv docId rows st).2 = failedParse st.2 + (badRows rows).length
  | [], st, _, _ => by
    refine ⟨rfl, rfl, rfl, rfl⟩
  | r :: rs, st, hn, hd => by
    rw [foldCsv_cons]
    cases hp : parseCsvRow r with
    | none =>
      rw [csvRowStep_bad hp]
      have htr : csvTrace rs (appendEvent st.2 docId "parse".data false
          "row error".data) = csvTrace rs st.2 :=
        csvTrace_congr rs (appendEvent_accounts st.2 docId "parse".data false
          "row error".data)
      rw [csvTrace_cons_bad rs st.2 hp] at hn hd
      have hn' : (csvTrace rs (appendEvent st.2 docId "parse".data false
          "row error".data)).Nodup := by
        rw [htr]
        exact hn
      have hd' : ∀ x ∈ csvTrace rs (appendEvent st.2 docId "parse".data false
          "row error".data), x ∉ txnHashes (appendEvent st.2 docId "parse".data
            false "row error".data) := by
        intro x hx
        rw [htr] at hx
        rw [txnHashes_appendEvent]
        exact hd x hx
      obtain ⟨i1, i2, i3, i4⟩ := foldCsv_counts docId rs
        ({ st.1 with tx_seen := st.1.tx_seen + 1 },
         appendEvent st.2 docId "parse".data false "row error".data) hn' hd'
      refine ⟨?_, ?_, ?_, ?_⟩
      · rw [i1, List.length_cons]
        show st.1.tx_seen + 1 + rs.length = st.1.tx_seen + (rs.length + 1)
        omega
      · rw [i2]
        show st.1.tx_new + (goodRows rs).length = st.1.tx_new + (goodRows (r :: rs)).length
        have : goodRows (r :: rs) = goodRows rs := by
          simp [goodRows, List.filter_cons, hp]
        rw [this]
      · rw [i3, appendEvent_transactions]
        have : goodRows (r :: rs) = goodRows rs := by
          simp [goodRows, List.filter_cons, hp]
        rw [this]
      · rw [i4, failedParse_appendEvent_false]
        have : badRows (r :: rs) = r :: badRows rs := by
          simp [badRows, List.filter_cons, hp]
        rw [this, List.length_cons]
        omega
    | some p =>
      rw [csvTrace_cons_good rs st.2 hp] at hn hd
      have hfresh : csvHash (ensure_account st.2 (some p.account_str) none).1 p
          ∉ txnHashes st.2 :=
        hd _ (List.mem_cons_self _ _)
      rw [csvRowStep_good hp hfresh]
      have htr : csvTrace rs (goodStepDB docId st.2 p)
          = csvTrace rs (ensure_account st.2 (some p.account_str) none).2 :=
        csvTrace_congr rs (goodStepDB_accounts docId st.2 p)
      have hhd : csvHash (ensure_account st.2 (some p.account_str) none).1 p
          ∉ csvTrace rs (ensure_account st.2 (some p.account_str) none).2 :=
        (List.nodup_cons.mp hn).1
      have hn' : (csvTrace rs (goodStepDB docId st.2 p)).Nodup := by
        rw [htr]
        exact (List.nodup_cons.mp hn).2
      have hd' : ∀ x ∈ csvTrace rs (goodStepDB docId st.2 p),
          x ∉ txnHashes (goodStepDB docId st.2 p) := by
        intro x hx
        rw [htr] at hx
        rw [goodStepDB_txnHashes]
        intro hmem
        rcases List.mem_append.mp hmem with hmem | hmem
        · exact hd x (List.mem_cons_of_mem _ hx) hmem
        · rw [List.mem_singleton.mp hmem] at hx
          exact hhd hx
      obtain ⟨i1, i2, i3, i4⟩ := foldCsv_counts docId rs
        ({ st.1 with tx_seen := st.1.tx_seen + 1, tx_new := st.1.tx_new + 1 },
         goodStepDB docId st.2 p) hn' hd'
      refine ⟨?_, ?_, ?_, ?_⟩
      · rw [i1, List.length_cons]
        show st.1.tx_seen + 1 + rs.length = st.1.tx_seen + (rs.length + 1)
        omega
      · rw [i2]
        show st.1.tx_new + 1 + (goodRows rs).length
          = st.1.tx_new + (goodRows (r :: rs)).length
        have : goodRows (r :: rs) = r :: goodRows rs := by
          simp [goodRows, List.filter_cons, hp]
        rw [this, List.length_cons]
        omega
      · rw [i3, goodStepDB_length]
        have : goodRows (r :: rs) = r :: goodRows rs := by
          simp [goodRows, List.filter_cons, hp]
        rw [this, List.length_cons]
        omega
      · rw [i4, goodStepDB_failedParse]
        have : badRows (r :: rs) = badRows rs := by
          simp [badRows, List.filter_cons, hp]
        rw [this]

/-- Valid and invalid rows partition the file. -/
lemma goodRows_add_badRows : ∀ rows : List RawRowCSV,
    (goodRows rows).length + (badRows rows).length = rows.length
  | [] => rfl
  | r :: rs => by
    have ih := goodRows_add_badRows rs
    cases hp : parseCsvRow r <;>
      simp [goodRows, badRows, List.filter_cons, hp] at ih ⊢ <;> omega

lemma registerCsvDoc_failedParse (db : DB) (f : CsvFile) :
    failedParse (registerCsvDoc db f).2.2 = failedParse db := by
  unfold registerCsvDoc
  cases h : findDocId db (sha256hex f.content) with
  | some i =>
    dsimp only
    rw [failedParse_appendEvent_true]
  | none =>
    dsimp only
    rw [failedParse_appendEvent_true]
    rfl
/-! ### The same counting invariants for the spreadsheet row loop -/

/-- The spreadsheet rows the pure parsing prefix accepts. -/
def goodXlsRows (caps : Caps) (xld : ℤ → Option (ℕ × ℕ × ℕ)) (ix : XlsIdx)
    (rows : List (List Cell)) : List (List Cell) :=
  rows.filter (fun r => (parseXlsRow caps xld ix r).isSome)

/-- The spreadsheet rows whose parsing raises. -/
def badXlsRows (caps : Caps) (xld : ℤ → Option (ℕ × ℕ × ℕ)) (ix : XlsIdx)
    (rows : List (List Cell)) : List (List Cell) :=
  rows.filter (fun r => (parseXlsRow caps xld ix r).isNone)

/-- The fingerprints the spreadsheet row loop computes for its valid rows,
replayed over the evolving account table. -/
def xlsTrace (caps : Caps) (xld : ℤ → Option (ℕ × ℕ × ℕ)) (ix : XlsIdx) :
    List (List Cell) → DB → List (List Char)
  | [], _ => []
  | r :: rs, db =>
    match parseXlsRow caps xld ix r with
    | none => xlsTrace caps xld ix rs db
    | some p =>
      let ea := ensure_account db (emptyToNone p.account_str) none
      csvHash ea.1 p :: xlsTrace caps xld ix rs ea.2

lemma xlsTrace_cons_bad {caps : Caps} {xld : ℤ → Option (ℕ × ℕ × ℕ)}
    {ix : XlsIdx} {r : List Cell} (rs : List (List Cell)) (db : DB)
    (hp : parseXlsRow caps xld ix r = none) :
    xlsTrace caps xld ix (r :: rs) db = xlsTrace caps xld ix rs db := by
  simp only [xlsTrace]
  rw [hp]

lemma xlsTrace_cons_good {caps : Caps} {xld : ℤ → Option (ℕ × ℕ × ℕ)}
    {ix : XlsIdx} {r : List Cell} {p : ParsedCsvRow} (rs : List (List Cell))
    (db : DB) (hp : parseXlsRow caps xld ix r = some p) :
    xlsTrace caps xld ix (r :: rs) db =
      csvHash (ensure_account db (emptyToNone p.account_str) none).1 p ::
        xlsTrace caps xld ix rs (ensure_account db (emptyToNone p.account_str) none).2 := by
  simp only [xlsTrace]
  rw [hp]

/-- The replayed spreadsheet fingerprints depend only on the account table. -/
lemma xlsTrace_congr (caps : Caps) (xld : ℤ → Option (ℕ × ℕ × ℕ)) (ix : XlsIdx) :
    ∀ (rows : List (List Cell)) {db db' : DB},
    db.accounts = db'.accounts →
    xlsTrace caps xld ix rows db = xlsTrace caps xld ix rows db'
  | [], _, _, _ => rfl
  | r :: rs, db, db', h => by
    cases hp : parseXlsRow caps xld ix r with
    | none =>
      rw [xlsTrace_cons_bad rs db hp, xlsTrace_cons_bad rs db' hp]
      exact xlsTrace_congr caps xld ix rs h
    | some p =>
      rw [xlsTrace_cons_good rs db hp, xlsTrace_cons_good rs db' hp]
      obtain ⟨h1, h2⟩ := ensure_account_congr h (emptyToNone p.account_str) none
      rw [h1, xlsTrace_congr caps xld ix rs h2]

lemma xlsRowStep_bad {caps : Caps} {xld : ℤ → Option (ℕ × ℕ × ℕ)} {ix : XlsIdx}
    {docId : ℕ} {st : IngestStats × DB} {r : List Cell}
    (hp : parseXlsRow caps xld ix r = none) :
    xlsRowStep caps xld ix docId st r = ({ st.1 with tx_seen := st.1.tx_seen + 1 },
      appendEvent st.2 docId "parse".data false "xls row error".data) := by
  unfold xlsRowStep
  rw [hp]

/-- The store after a valid spreadsheet row with a fresh fingerprint. -/
def goodXlsStepDB (docId : ℕ) (db : DB) (p : ParsedCsvRow) : DB :=
  { (ensure_account db (emptyToNone p.account_str) none).2 with transactions :=
    (ensure_account db (emptyToNone p.account_str) none).2.transactions ++
      [{ csvTxnRow docId (ensure_account db (emptyToNone p.account_str) none).1 p
         with id := nextTxnId (ensure_account db (emptyToNone p.account_str) none).2 }] }

lemma goodXlsStepDB_accounts (docId : ℕ) (db : DB) (p : ParsedCsvRow) :
    (goodXlsStepDB docId db p).accounts
      = (ensure_account db (emptyToNone p.account_str) none).2.accounts := rfl

lemma goodXlsStepDB_txnHashes (docId : ℕ) (db : DB) (p : ParsedCsvRow) :
    txnHashes (goodXlsStepDB docId db p)
      = txnHashes db ++
        [csvHash (ensure_account db (emptyToNone p.account_str) none).1 p] := by
  unfold txnHashes goodXlsStepDB
  dsimp only
  rw [List.map_append, ensure_account_transactions]
  rfl

lemma goodXlsStepDB_length (docId : ℕ) (db : DB) (p : ParsedCsvRow) :
    (goodXlsStepDB docId db p).transactions.length = db.transactions.length + 1 := by
  unfold goodXlsStepDB
  dsimp only
  rw [List.length_append, ensure_account_transactions]
  rfl

lemma goodXlsStepDB_failedParse (docId : ℕ) (db : DB) (p : ParsedCsvRow) :
    failedParse (goodXlsStepDB docId db p) = failedParse db := by
  unfold failedParse goodXlsStepDB
  dsimp only
  rw [ensure_account_parse_events]

lemma xlsRowStep_good {caps : Caps} {xld : ℤ → Option (ℕ × ℕ × ℕ)} {ix : XlsIdx}
    {docId : ℕ} {st : IngestStats × DB} {r : List Cell} {p : ParsedCsvRow}
    (hp : parseXlsRow caps xld ix r = some p)
    (hfresh : csvHash (ensure_account st.2 (emptyToNone p.account_str) none).1 p
      ∉ txnHashes st.2) :
    xlsRowStep caps xld ix docId st r =
      ({ st.1 with tx_seen := st.1.tx_seen + 1, tx_new := st.1.tx_new + 1 },
       goodXlsStepDB docId st.2 p) := by
  unfold xlsRowStep
  rw [hp]
  dsimp only
  unfold insertTxnIfAbsent
  have hh : (csvTxnRow docId (ensure_account st.2 (emptyToNone p.account_str) none).1 p).txn_hash
      = csvHash (ensure_account st.2 (emptyToNone p.account_str) none).1 p := rfl
  rw [hh, txnHashes_ensure, if_neg hfresh]
  rfl

/-- The counting invariant of the spreadsheet row loop (the exact analogue
of the CSV one). -/
lemma xlsFold_counts (caps : Caps) (xld : ℤ → Option (ℕ × ℕ × ℕ)) (ix : XlsIdx)
    (docId : ℕ) : ∀ (rows : List (List Cell)) (st : IngestStats × DB),
    (xlsTrace caps xld ix rows st.2).Nodup →
    (∀ x ∈ xlsTrace caps xld ix rows st.2, x ∉ txnHashes st.2) →
    (rows.foldl (xlsRowStep caps xld ix docId) st).1.tx_seen
      = st.1.tx_seen + rows.length ∧
    (rows.foldl (xlsRowStep caps xld ix docId) st).1.tx_new
      = st.1.tx_new + (goodXlsRows caps xld ix rows).length ∧
    (rows.foldl (xlsRowStep caps xld ix docId) st).2.transactions.length
      = st.2.transactions.length + (goodXlsRows caps xld ix rows).length ∧
    failedParse (rows.foldl (xlsRowStep caps xld ix docId) st).2
      = failedParse st.2 + (badXlsRows caps xld ix rows).length
  | [], st, _, _ => by
    refine ⟨rfl, rfl, rfl, rfl⟩
  | r :: rs, st, hn, hd => by
    rw [List.foldl_cons]
    cases hp : parseXlsRow caps xld ix r with
    | none =>
      rw [xlsRowStep_bad hp]
      have htr : xlsTrace caps xld ix rs (appendEvent st.2 docId "parse".data false
          "xls row error".data) = xlsTrace caps xld ix rs st.2 :=
        xlsTrace_congr caps xld ix rs (appendEvent_accounts st.2 docId "parse".data
          false "xls row error".data)
      rw [xlsTrace_cons_bad rs st.2 hp] at hn hd
      have hn' : (xlsTrace caps xld ix rs (appendEvent st.2 docId "parse".data false
          "xls row error".data)).Nodup := by
        rw [htr]
        exact hn
      have hd' : ∀ x ∈ xlsTrace caps xld ix rs (appendEvent st.2 docId "parse".data
          false "xls row error".data), x ∉ txnHashes (appendEvent st.2 docId
            "parse".data false "xls row error".data) := by
        intro x hx
        rw [htr] at hx
        rw [txnHashes_appendEvent]
        exact hd x hx
      obtain ⟨i1, i2, i3, i4⟩ := xlsFold_counts caps xld ix docId rs
        ({ st.1 with tx_seen := st.1.tx_seen + 1 },
         appendEvent st.2 docId "parse".data false "xls row error".data) hn' hd'
      refine ⟨?_, ?_, ?_, ?_⟩
      · rw [i1, List.length_cons]
        show st.1.tx_seen + 1 + rs.length = st.1.tx_seen + (rs.length + 1)
        omega
      · rw [i2]
        show st.1.tx_new + (goodXlsRows caps xld ix rs).length
          = st.1.tx_new + (goodXlsRows caps xld ix (r :: rs)).length
        have : goodXlsRows caps xld ix (r :: rs) = goodXlsRows caps xld ix rs := by
          simp [goodXlsRows, List.filter_cons, hp]
        rw [this]
      · rw [i3, appendEvent_transactions]
        have : goodXlsRows caps xld ix (r :: rs) = goodXlsRows caps xld ix rs := by
          simp [goodXlsRows, List.filter_cons, hp]
        rw [this]
      · rw [i4, failedParse_appendEvent_false]
        have : badXlsRows caps xld ix (r :: rs) = r :: badXlsRows caps xld ix rs := by
          simp [badXlsRows, List.filter_cons, hp]
        rw [this, List.length_cons]
        omega
    | some p =>
      rw [xlsTrace_cons_good rs st.2 hp] at hn hd
      have hfresh : csvHash (ensure_account st.2 (emptyToNone p.account_str) none).1 p
          ∉ txnHashes st.2 :=
        hd _ (List.mem_cons_self _ _)
      rw [xlsRowStep_good hp hfresh]
      have htr : xlsTrace caps xld ix rs (goodXlsStepDB docId st.2 p)
          = xlsTrace caps xld ix rs
              (ensure_account st.2 (emptyToNone p.account_str) none).2 :=
        xlsTrace_congr caps xld ix rs (goodXlsStepDB_accounts docId st.2 p)
      have hhd : csvHash (ensure_account st.2 (emptyToNone p.account_str) none).1 p
          ∉ xlsTrace caps xld ix rs
              (ensure_account st.2 (emptyToNone p.account_str) none).2 :=
        (List.nodup_cons.mp hn).1
      have hn' : (xlsTrace caps xld ix rs (goodXlsStepDB docId st.2 p)).Nodup := by
        rw [htr]
        exact (List.nodup_cons.mp hn).2
      have hd' : ∀ x ∈ xlsTrace caps xld ix rs (goodXlsStepDB docId st.2 p),
          x ∉ txnHashes (goodXlsStepDB docId st.2 p) := by
        intro x hx
        rw [htr] at hx
        rw [goodXlsStepDB_txnHashes]
        intro hmem
        rcases List.mem_append.mp hmem with hmem | hmem
        · exact hd x (List.mem_cons_of_mem _ hx) hmem
        · rw [List.mem_singleton.mp hmem] at hx
          exact hhd hx
      obtain ⟨i1, i2, i3, i4⟩ := xlsFold_counts caps xld ix docId rs
        ({ st.1 with tx_seen := st.1.tx_seen + 1, tx_new := st.1.tx_new + 1 },
         goodXlsStepDB docId st.2 p) hn' hd'
      refine ⟨?_, ?_, ?_, ?_⟩
      · rw [i1, List.length_cons]
        show st.1.tx_seen + 1 + rs.length = st.1.tx_seen + (rs.length + 1)
        omega
      · rw [i2]
        show st.1.tx_new + 1 + (goodXlsRows caps xld ix rs).length
          = st.1.tx_new + (goodXlsRows caps xld ix (r :: rs)).length
        have : goodXlsRows caps xld ix (r :: rs) = r :: goodXlsRows caps xld ix rs := by
          simp [goodXlsRows, List.filter_cons, hp]
        rw [this, List.length_cons]
        omega
      · rw [i3, goodXlsStepDB_length]
        have : goodXlsRows caps xld ix (r :: rs) = r :: goodXlsRows caps xld ix rs := by
          simp [goodXlsRows, List.filter_cons, hp]
        rw [this, List.length_cons]
        omega
      · rw [i4, goodXlsStepDB_failedParse]
        have : badXlsRows caps xld ix (r :: rs) = badXlsRows caps xld ix rs := by
          simp [badXlsRows, List.filter_cons, hp]
        rw [this]

/-- Valid and invalid spreadsheet rows partition the file. -/
lemma goodXlsRows_add_badXlsRows (caps : Caps) (xld : ℤ → Option (ℕ × ℕ × ℕ))
    (ix : XlsIdx) : ∀ rows : List (List Cell),
    (goodXlsRows caps xld ix rows).length + (badXlsRows caps xld ix rows).length
      = rows.length
  | [] => rfl
  | r :: rs => by
    have ih := goodXlsRows_add_badXlsRows caps xld ix rs
    cases hp : parseXlsRow caps xld ix r <;>
      simp [goodXlsRows, badXlsRows, List.filter_cons, hp] at ih ⊢ <;> omega

lemma registerXlsDoc_accounts (db : DB) (f : XlsFile) :
    (registerXlsDoc db f).2.2.accounts = db.accounts := by
  unfold registerXlsDoc
  cases h : findDocId db (sha256hex f.content) <;> rfl

lemma registerXlsDoc_failedParse (db : DB) (f : XlsFile) :
    failedParse (registerXlsDoc db f).2.2 = failedParse db := by
  unfold registerXlsDoc
  cases h : findDocId db (sha256hex f.content) with
  | some i => rfl
  | none => rfl

/-- `ingest_xls` with an available loader, with its `let`s spelled out. -/
lemma ingest_xls_run (caps : Caps) (xld : ℤ → Option (ℕ × ℕ × ℕ)) (db : DB)
    (g : XlsFile) (hcap : (if isXlsx g.path then caps.openpyxl else caps.xlrd) = true) :
    ingest_xls caps xld db g =
      ((g.rows.foldl (xlsRowStep caps xld (resolveIdx g.headers) (registerXlsDoc db g).1)
          ({ docs_new := (registerXlsDoc db g).2.1, tx_seen := 0, tx_new := 0 },
           (registerXlsDoc db g).2.2)).1,
       appendEvent (g.rows.foldl (xlsRowStep caps xld (resolveIdx g.headers)
          (registerXlsDoc db g).1)
          ({ docs_new := (registerXlsDoc db g).2.1, tx_seen := 0, tx_new := 0 },
           (registerXlsDoc db g).2.2)).2
         (registerXlsDoc db g).1 "parse".data true "excel rows".data) := by
  unfold ingest_xls
  rw [hcap]
  rfl

/-- A spreadsheet row and a CSV row that parse to the same result (with a
non-empty account field when valid). -/
def xlsRowMatches (caps : Caps) (xld : ℤ → Option (ℕ × ℕ × ℕ)) (ix : XlsIdx)
    (rx : List Cell) (rc : RawRowCSV) : Bool :=
  decide (parseXlsRow caps xld ix rx = parseCsvRow rc) &&
  (match parseCsvRow rc with
   | some p => !(p.account_str.isEmpty)
   | none => true)

/-- When every spreadsheet row parses exactly like the corresponding CSV
row (non-empty account field), the two loops replay identical fingerprint
traces. -/
lemma xlsTrace_eq_csvTrace (caps : Caps) (xld : ℤ → Option (ℕ × ℕ × ℕ))
    (ix : XlsIdx) : ∀ (xrows : List (List Cell)) (crows : List RawRowCSV)
    (db : DB), xrows.length = crows.length →
    (∀ pr ∈ xrows.zip crows, xlsRowMatches caps xld ix pr.1 pr.2 = true) →
    xlsTrace caps xld ix xrows db = csvTrace crows db
  | [], [], _, _, _ => rfl
  | [], _ :: _, _, hlen, _ => by simp at hlen
  | _ :: _, [], _, hlen, _ => by simp at hlen
  | rx :: xrows, rc :: crows, db, hlen, hall => by
    have hm := hall (rx, rc) (List.mem_cons_self _ _)
    rw [xlsRowMatches, Bool.and_eq_true, decide_eq_true_eq] at hm
    obtain ⟨heq, hacc⟩ := hm
    have hlen' : xrows.length = crows.length := by simpa using hlen
    have hall' : ∀ pr ∈ xrows.zip crows, xlsRowMatches caps xld ix pr.1 pr.2 = true :=
      fun pr hpr => hall pr (List.mem_cons_of_mem _ hpr)
    cases hp : parseCsvRow rc with
    | none =>
      rw [hp] at heq
      rw [xlsTrace_cons_bad xrows db heq, csvTrace_cons_bad crows db hp]
      exact xlsTrace_eq_csvTrace caps xld ix xrows crows db hlen' hall'
    | some p =>
      rw [hp] at heq
      have hacc2 : p.account_str.isEmpty = false := by
        rw [hp] at hacc
        simpa using hacc
      have hne : p.account_str ≠ [] := by
        intro h0
        rw [h0] at hacc2
        simp [List.isEmpty] at hacc2
      have hkey : emptyToNone p.account_str = some p.account_str := by
        unfold emptyToNone
        rw [if_neg hne]
      rw [xlsTrace_cons_good xrows db heq, csvTrace_cons_good crows db hp, hkey]
      rw [xlsTrace_eq_csvTrace caps xld ix xrows crows
        (ensure_account db (some p.account_str) none).2 hlen' hall']

/-- C4: a single malformed row never aborts a run, on either row loop —
the bad row is skipped with exactly one failed row-level parse event and
scanning continues — so a 100-row input file with exactly one structurally
invalid row (and pairwise-distinct fingerprints among the 99 valid rows,
none already stored) yields all 100 rows seen, 99 persisted transactions
and exactly one failed row-level parse event: for the CSV loop of
`ingest_csv_ing`, and equally for the spreadsheet row loop of `ingest_xls`
whenever the extension-selected loader is available. -/
theorem claim_C4 (db : DB) (f : CsvFile)
    (h100 : f.rows.length = 100)
    (hbad : (badRows f.rows).length = 1)
    (hn : (csvTrace f.rows db).Nodup)
    (hd : ∀ x ∈ csvTrace f.rows db, x ∉ txnHashes db)
    (db' : DB) (caps : Caps) (xld : ℤ → Option (ℕ × ℕ × ℕ)) (g : XlsFile)
    (hcap : (if isXlsx g.path then caps.openpyxl else caps.xlrd) = true)
    (g100 : g.rows.length = 100)
    (gbad : (badXlsRows caps xld (resolveIdx g.headers) g.rows).length = 1)
    (gn : (xlsTrace caps xld (resolveIdx g.headers) g.rows db').Nodup)
    (gd : ∀ x ∈ xlsTrace caps xld (resolveIdx g.headers) g.rows db',
      x ∉ txnHashes db') :
    ((ingest_csv_ing db f).1.tx_seen = 100 ∧
     (ingest_csv_ing db f).1.tx_new = 99 ∧
     (ingest_csv_ing db f).2.transactions.length = db.transactions.length + 99 ∧
     failedParse (ingest_csv_ing db f).2 = failedParse db + 1) ∧
    ((ingest_xls caps xld db' g).1.tx_seen = 100 ∧
     (ingest_xls caps xld db' g).1.tx_new = 99 ∧
     (ingest_xls caps xld db' g).2.transactions.length
       = db'.transactions.length + 99 ∧
     failedParse (ingest_xls caps xld db' g).2 = failedParse db' + 1) := by
  refine ⟨?_, ?_⟩
  · have hgood : (goodRows f.rows).length = 99 := by
      have hpart := goodRows_add_badRows f.rows
      omega
    have hacc : (registerCsvDoc db f).2.2.accounts = db.accounts :=
      registerCsvDoc_accounts db f
    have htr : csvTrace f.rows (registerCsvDoc db f).2.2 = csvTrace f.rows db :=
      csvTrace_congr f.rows hacc
    have hhash : txnHashes (registerCsvDoc db f).2.2 = txnHashes db := by
      unfold txnHashes
      rw [registerCsvDoc_transactions]
    have hn' : (csvTrace f.rows (registerCsvDoc db f).2.2).Nodup := by
      rw [htr]
      exact hn
    have hd' : ∀ x ∈ csvTrace f.rows (registerCsvDoc db f).2.2,
        x ∉ txnHashes (registerCsvDoc db f).2.2 := by
      intro x hx
      rw [htr] at hx
      rw [hhash]
      exact hd x hx
    obtain ⟨i1, i2, i3, i4⟩ := foldCsv_counts (registerCsvDoc db f).1 f.rows
      ({ docs_new := (registerCsvDoc db f).2.1, tx_seen := 0, tx_new := 0 },
       (registerCsvDoc db f).2.2) hn' hd'
    refine ⟨?_, ?_, ?_, ?_⟩
    · show (foldCsv (registerCsvDoc db f).1 f.rows
        ({ docs_new := (registerCsvDoc db f).2.1, tx_seen := 0, tx_new := 0 },
         (registerCsvDoc db f).2.2)).1.tx_seen = 100
      rw [i1, h100]
    · show (foldCsv (registerCsvDoc db f).1 f.rows
        ({ docs_new := (registerCsvDoc db f).2.1, tx_seen := 0, tx_new := 0 },
         (registerCsvDoc db f).2.2)).1.tx_new = 99
      rw [i2, hgood]
    · show (appendEvent (foldCsv (registerCsvDoc db f).1 f.rows
        ({ docs_new := (registerCsvDoc db f).2.1, tx_seen := 0, tx_new := 0 },
         (registerCsvDoc db f).2.2)).2 (registerCsvDoc db f).1 "parse".data true
          "parsed rows".data).transactions.length = db.transactions.length + 99
      rw [appendEvent_transactions, i3, hgood]
      show (registerCsvDoc db f).2.2.transactions.length + 99
        = db.transactions.length + 99
      rw [registerCsvDoc_transactions]
    · show failedParse (appendEvent (foldCsv (registerCsvDoc db f).1 f.rows
        ({ docs_new := (registerCsvDoc db f).2.1, tx_seen := 0, tx_new := 0 },
         (registerCsvDoc db f).2.2)).2 (registerCsvDoc db f).1 "parse".data true
          "parsed rows".data) = failedParse db + 1
      rw [failedParse_appendEvent_true, i4, hbad]
      show failedParse (registerCsvDoc db f).2.2 + 1 = failedParse db + 1
      rw [registerCsvDoc_failedParse]
  · have ggood : (goodXlsRows caps xld (resolveIdx g.headers) g.rows).length = 99 := by
      have hpart := goodXlsRows_add_badXlsRows caps xld (resolveIdx g.headers) g.rows
      omega
    have gacc : (registerXlsDoc db' g).2.2.accounts = db'.accounts :=
      registerXlsDoc_accounts db' g
    have gtr : xlsTrace caps xld (resolveIdx g.headers) g.rows (registerXlsDoc db' g).2.2
        = xlsTrace caps xld (resolveIdx g.headers) g.rows db' :=
      xlsTrace_congr caps xld (resolveIdx g.headers) g.rows gacc
    have ghash : txnHashes (registerXlsDoc db' g).2.2 = txnHashes db' := by
      unfold txnHashes
      rw [registerXlsDoc_transactions]
    have gn' : (xlsTrace caps xld (resolveIdx g.headers) g.rows
        (registerXlsDoc db' g).2.2).Nodup := by
      rw [gtr]
      exact gn
    have gd' : ∀ x ∈ xlsTrace caps xld (resolveIdx g.headers) g.rows
        (registerXlsDoc db' g).2.2, x ∉ txnHashes (registerXlsDoc db' g).2.2 := by
      intro x hx
      rw [gtr] at hx
      rw [ghash]
      exact gd x hx
    obtain ⟨j1, j2, j3, j4⟩ := xlsFold_counts caps xld (resolveIdx g.headers)
      (registerXlsDoc db' g).1 g.rows
      ({ docs_new := (registerXlsDoc db' g).2.1, tx_seen := 0, tx_new := 0 },
       (registerXlsDoc db' g).2.2) gn' gd'
    rw [ingest_xls_run caps xld db' g hcap]
    refine ⟨?_, ?_, ?_, ?_⟩
    · show (g.rows.foldl (xlsRowStep caps xld (resolveIdx g.headers)
        (registerXlsDoc db' g).1)
        ({ docs_new := (registerXlsDoc db' g).2.1, tx_seen := 0, tx_new := 0 },
         (registerXlsDoc db' g).2.2)).1.tx_seen = 100
      rw [j1, g100]
    · show (g.rows.foldl (xlsRowStep caps xld (resolveIdx g.headers)
        (registerXlsDoc db' g).1)
        ({ docs_new := (registerXlsDoc db' g).2.1, tx_seen := 0, tx_new := 0 },
         (registerXlsDoc db' g).2.2)).1.tx_new = 99
      rw [j2, ggood]
    · rw [appendEvent_transactions, j3, ggood]
      show (registerXlsDoc db' g).2.2.transactions.length + 99
        = db'.transactions.length + 99
      rw [registerXlsDoc_transactions]
    · rw [failedParse_appendEvent_true, j4, gbad]
      show failedParse (registerXlsDoc db' g).2.2 + 1 = failedParse db' + 1
      rw [registerXlsDoc_failedParse]

/-- Row `i` of the 100-row witness file: row 50 carries an unparseable
amount, every other row is valid with a distinct description. -/
def c4Row (i : ℕ) : RawRowCSV :=
  { datum := "20230101".data,
    naam_omschrijving := [],
    rekening := "NL01".data,
    tegenrekening := [],
    code := [],
    af_bij := "Bij".data,
    bedrag := if i = 50 then "x".data else "1,23".data,
    mutatiesoort := [],
    mededelingen := 'r' :: (toString i).data }

/-- The 100-row witness file. -/
def c4File : CsvFile :=
  { path := "a.csv".data, content := [48], rows := (List.range 100).map c4Row }

/-- Row `i` of the 100-row spreadsheet witness: the same data as `c4Row i`,
laid out as cells under ING-style headers. -/
def c4XRow (i : ℕ) : List Cell :=
  [.str "20230101".data, .str [], .str "NL01".data, .str [], .str [],
   .str "Bij".data, .str (if i = 50 then "x".data else "1,23".data),
   .str [], .str ('r' :: (toString i).data)]

/-- The 100-row spreadsheet witness file (an `.xls` path, so the `xlrd`
loader is selected). -/
def c4XFile : XlsFile :=
  { path := "a.xls".data, content := [49],
    headers := ["Datum".data, "Naam / Omschrijving".data, "Rekening".data,
      "Tegenrekening".data, "Code".data, "Af Bij".data, "Bedrag (EUR)".data,
      "Mutatiesoort".data, "Mededelingen".data],
    rows := (List.range 100).map c4XRow }

/-- All optional loaders available. -/
def c4Caps : Caps := { xlrd := true, openpyxl := true, pdfplumber := true }

/-- A date-tuple resolver for the witness (never consulted: every witness
date is an eight-digit string). -/
def c4Xld : ℤ → Option (ℕ × ℕ × ℕ) := fun _ => none

/-- One scan step of the chunked fingerprint-trace computation. -/
lemma c4chunkStep {l : List (List Char)} {n : ℕ} {c rest : List (List Char)}
    (hc : (l.drop n).take 10 = c) (hr : l.drop (n + 10) = rest) :
    l.drop n = c ++ rest := by
  rw [← hc, ← hr]
  rw [← List.drop_drop]
  exact (List.take_append_drop 10 (l.drop n)).symm

/-- The fingerprints of the 99 valid witness rows, in row order, split in
blocks of ten so that each block is checked by a small computation. -/
def c4L0 : List (List Char) :=
  ["91578ca7846ccf3f292ccbe2c68912949ce63cbd512bb2c3e6f4ccd1ffb00bb6".data,
   "e567ac035f9c1c10a54af8acd532cedd1059f940471ffea3fee14d66a09f7a49".data,
   "9df7690b1cf4ea259bd7bdb7c256a4a59b4a3cf0f3ab43dd7c5b9c2f000a3c57".data,
   "14f883f464b06dd2a7a53f23e067e6e2effce449a6e8a63d881fb33f921f00f8".data,
   "511ca9f4040b102e321d8591aef2247ecca00e2f6d6b4eacd1c0dd8f79bd6c1c".data,
   "9cb13484889ddb466c04fb7398ed209c2cd7a86fcf5cc0a97f4f3c6033418268".data,
   "78e773d584b892ac946862b084d277d8467bdcea83a201c8bc06c3ff10ec0bff".data,
   "1549d4867f4c5946f08be9b61b05f5c9bf27610d4986045b230a0d945b2f463c".data,
   "c9fe0302f617a609406c131e1507931ba484c290c3e5b307819b3f244d520f33".data,
   "c3402de9c7dcdacfca31118edcb36d481b8341aa7a230c98f3d5ab0aaa6838e1".data]

def c4L1 : List (List Char) :=
  ["beeedfa727baf5bfb8fef1b0d3c9b07dbe5ab0f199209036433e03d97fc2fee5".data,
   "edc614769c0778fe7d85444eedae52c77a1af798636e26024c80dd913b14fedc".data,
   "1c4fb5cabcc2b907a4efa3ee1c0c500e5e216fbe06163109df6b2feb9ce08e28".data,
   "8a558882de51a25efaeb1343323021dd27fadeb9c29a39b783ea27645494097c".data,
   "b0d48f882adec78cdec6589ac8d020565f5fe18de06d18b171fcba799cea8f75".data,
   "42f7a6006dfd9b2b9a90c84d17b64344e562cbb1eaf3eaa2c116aa31dbd976b5".data,
   "901faf6b5cdc98db3b79542534668d15942c7ecd1709f8da7804c1e0a3a29606".data,
   "6aa7d69fd5a1f3bf548201c19f8c44beb6dd64dd4098091b7dcc628db3111334".data,
   "8937243019b2e6b0d2d04e1561d3a0b5dd19f9259d7ec8c78ea24902e325b4fc".data,
   "d61d3c1e952682750fcbcbb5803c69f59576d48eaf642c8b49db14a7194ac19e".data]

def c4L2 : List (List Char) :=
  ["4b969721da20e57828f72a5c09ed96b0ec438879e7f0f28781a9a079fbedc450".data,
   "ab1aeb4d1293a0724ba13c8aa6a580122b88cca2e6fbc3ea1f35a00e278f11c0".data,
   "c2630152ac4154b676e806990782fcc0051363a59f2d98aaa4964ae0b04fe5f4".data,
   "2fb7e00fa43064e90ec223752f252fe02b6056b3b82901485e7050f319dcd9b7".data,
   "1e8a2e32b05d05107693fd9b5cbcf74576662b22711b3c3d75cb2d1a1d575c96".data,
   "52691058767ca4c85582ab705e28ac845e997593a88efb89260e7b8a2a9a9528".data,
   "a79af30701ce7fae5f92261af64a0edf84923eb51ee4570d793e9c2cc7b646d7".data,
   "ed95a1f566c7c8a109b3eaf4bdae53140e5a589c6fb7d6e87f4b56f78b2e06cd".data,
   "263d4ed9c89f49444a7e6486b22b993c0186f8671c5c5e2f66277acbffccc091".data,
   "91313b3ebae9a7eb04921efcaeac181aa1d6c5a791cb14d9f43be0495d92a93d".data]

def c4L3 : List (List Char) :=
  ["11e27675774da3245bb164f861f9f1f4129e57a974456df93ebbe95128f971e6".data,
   "caeb4ca50ead834dffa72ca0c5b11d3aeefb10b286cc02a838a32e2ba02960f6".data,
   "f0d5312deaff7c833ab078afb07cae7de737862c2fe792bd263c1bf45bad4da0".data,
   "574a65732d3dc824ee8e20e195948aadc69274bb0b075f2d1f49c679ac4fedf2".data,
   "9923bed18e3f58a21ed41b2b72d89da1946f1d03d11b75096a34f2e2e8098615".data,
   "ac9cf56df9298845b4943f90e01e304c26b2252b78be04ecdd5e0e5931c78019".data,
   "3e2dd72340846b6db2b0adbcb8b4eaf504a9d5a2483a596f5881811cd5cf8827".data,
   "ef8e429653ab19c99a27a4bef9010aa144686d8ba6b61793813c954cfb7393a8".data,
   "b163406a899ac314322e31d3056ad282c98c99a3cd0645790254463f4c30fe52".data,
   "d18741d9f7eb1450f82ea4456188988a526f6eea9f40ab49d3568589a0d7b009".data]

def c4L4 : List (List Char) :=
  ["fa9e4897e438376229885b903e11e2fcc1f3a4894bea4d72117b4f7b9c7dadd2".data,
   "6704298c6ac8850c4de1d91b9da47f69ef630cbd8152fc850e59a321a60e5ecc".data,
   "e82a4257971a626c4baa14667888902f3f71889704bd9fe2b7f7efeafd4fea6c".data,
   "b4b1c5635ceb749950d8ba45a898d711a3acad0f152c6c865cda8cbd8a809526".data,
   "fbfb7b74e518f5dec497a7aacd95b02f8831ae17690f2086f3ea666fdb61fbff".data,
   "e82488494e69ef6c037925866eabac86fd14be1758f6d8686f6f4a518878d1a5".data,
   "9ddecbec83b93c81d08655778e77c7f4645ffe6963e460f25b4827ce5ed7f2fb".data,
   "a2ad18b199505c35dccd58a78c4dd4b16eb878ba3d9be34bb29b628e0f65516e".data,
   "ba49631f9e919878a829b4f76ea56c83661ee7d0413f601ce8fd6fcc78746415".data,
   "c6ec21686d77f1f587477947783944b4ee9b03edbc5ea7911b39450c97d149eb".data]

def c4L5 : List (List Char) :=
  ["34e2b17fabcf6e359d55aaa226c177aa6514eb27b0542d2c58958374a4df5761".data,
   "c05d2674885c8bfa3eb63afb11f6302b9ffb1c47d85bce50d0651805aae81cf6".data,
   "9ac7dbf2cba6821f237e71683b6db65b3484ef3e5b8f562fc39c5c566b4e1148".data,
   "7dccf36632c767be8b533573e4c602865074826b7585bb8d078e92747a86b161".data,
   "032ac933e29029ef304bed84586debb6546abc47ac853ba199ed2c71aa6414d3".data,
   "d468530321e80a0003a36a01d423e913c198398e20a2747ab8b928a7f31f5537".data,
   "b57269fc748e90ef7fed722e3c74e07235b7e6f258629bfbbe91d7d8b050abd8".data,
   "97b8a8b585289a0cdd8492c6e275f4db802b5cf4fde5d15ebd81c7a3d58394a1".data,
   "137ff7e29b6e86ac426ddf48516ccef6c71ac1183ee47b9922e5ed0bcc7d9b6e".data,
   "f615b7eb48555bcee40904a7c3f7922f6e915319363e657abaaa178b8fd4cb11".data]

def c4L6 : List (List Char) :=
  ["67b0356b6e337d7d5c388403f03daaf86ebd8a09a7b420a20ec6a7a61ae3bf9a".data,
   "cc6fd7cc2c1dcb7b3d28db48a1b52f73c5c309c8fc3dbe4c868da9707deadf65".data,
   "2e11177d041771b123c1fc22d3d12647ca171137396a3cc37decb4a28f8473e2".data,
   "03f955a80341fe28308be0c796e0ef3108dcee8614e625798c511ee1bbe84c01".data,
   "280d94488b975d6c2bf53d18bcb24387c2415bc57ae36ac5d0b4a7fa07465349".data,
   "f046efb47e4ee514911016f28e94ae4fbcca6be7a3aa7945b64b50a5f8a8312a".data,
   "9500d915f0eb5a505f2edad416b9cc35b6d8dcdd4a5ffe8a7b12ac75bd447903".data,
   "584bef1537eddd7119f6bfdebb40cb594079c597efe9b9a2c3a39be1753d0e9a".data,
   "8503fe52c4b740152efd494ad3e3c7c6b2f642e4c4d917ef48790f3ef078788e".data,
   "62e234b6e1b29fe6722088783170125e4b79af1be277974455a1a8bf3505fdd8".data]

def c4L7 : List (List Char) :=
  ["ba4ea167b153e011d2c1cf61cabeaf9cde219bff27c3e908dc68f4d421c98bba".data,
   "63de3e68e6ba37c91dca0a2dcd28367241434067d9f40f98eaaaaf8b783fe585".data,
   "e21e64d5e512dc59dfa7cb9de51b6d9c2cc1aa14cb255235721d21e853635847".data,
   "a20b9e51344a173b03a159c1a9762ae0e4541b9176a4bd42e70200cb239cfdea".data,
   "2bf64f2f0512f82eb4f26d73e0e03575d8da9106863f179633c9470341fec8a8".data,
   "924e99b7b43f1e86d90b5d5ee852ff0dd08e98b3467762eaa85eb8bb01b2fe10".data,
   "5d1eb2d5cd645c335d3d5041e3a46367df59948881310dd66e229b53c205d2b1".data,
   "d19e999aa82c49e0f6c798d0839a84fd4173eec5ae4a9e05816d6dac51306b74".data,
   "7038dfd2be7b21c81c5594dcc851301206579e75dc7d0f149fa9e1efc802d5d9".data,
   "faa61cd6080040642f47bb19b0e0d0a2de55b323b8e353be0b174b50614539f1".data]

def c4L8 : List (List Char) :=
  ["97f782617f9cddf2459d65de046d404347458ff27315457b1722dc9abeb2252d".data,
   "4295e775a4837d22d6e4fd9403ff753372e55467affb03ad9bb89af6ad74be22".data,
   "96fbd4a67f3dfecb428e32f4fee25c9966350f228bf4280e496ba8cf9053998a".data,
   "2888521c461840906a4c8f5013d8c3488ebdece9c2e072b7922636348756e78c".data,
   "4d28d52f036c245130d2427b7001bfd6e546035e42cd18bee201478993dee822".data,
   "3f77d27e1a15fcedd0f25455c897174ea3e56338f2669b7460d0813b86c951f6".data,
   "11a24e22e93ee6b8261f0400acbf75c0a74e33e47e956b8a14da8b487598dd69".data,
   "3a7f9a85dcf60fb1f47158e36e22ce33c1ff8a01b965545dedf4326a63baa2b8".data,
   "54cb5c329367b851a82374182577ab048cb7b2289e05d2b457e93b3f4a992015".data,
   "d4986413f2b216489c1c3e8f56ed25f1220e946be64fbf1ae7cf60b4b054b925".data]

def c4L9 : List (List Char) :=
  ["50d35435a5cfd24fb54f36fb88e3e5b986859e33445e7b773ecae7d310502069".data,
   "e0e39f6debceb174a4c6b88eda12b59fc3ec94ec5042ac1bf08a7a5ee9c13629".data,
   "b888bb1758309570c926a5b28683d3913b6eeeccdf77c8258ed07e0d26495271".data,
   "1429b79664661c7926f3d79e098021962863a03219377e011a8da8de4a9001c5".data,
   "a22ab069bbf125b87505a530161bb89e4e6972d9e8b390b5603e1aa4fd3182ad".data,
   "a6f8dcbfba1949516d40e1015d81e5b2286b1e9bc0338eeaa6312a9ae9381cfa".data,
   "3f7e20d8d9498df282f987036e8f819c5c5272f9de8be703d59e65bef32212ae".data,
   "b73728d915bfb8729778836fdf2ec1dd6837d2d0f768bd1611568138a98636e1".data,
   "0a26aefdd45fccee9328a99d3da49f6e2eae5642e3b097a3f0143b797e2c426f".data]

set_option maxRecDepth 100000 in
set_option maxHeartbeats 4000000 in
lemma c4trace0 : (csvTrace c4File.rows emptyDB).take 10 = c4L0 := by decide

set_option maxRecDepth 100000 in
set_option maxHeartbeats 4000000 in
lemma c4trace1 : ((csvTrace c4File.rows emptyDB).drop 10).take 10 = c4L1 := by decide

set_option maxRecDepth 100000 in
set_option maxHeartbeats 4000000 in
lemma c4trace2 : ((csvTrace c4File.rows emptyDB).drop 20).take 10 = c4L2 := by decide

set_option maxRecDepth 100000 in
set_option maxHeartbeats 4000000 in
lemma c4trace3 : ((csvTrace c4File.rows emptyDB).drop 30).take 10 = c4L3 := by decide

set_option maxRecDepth 100000 in
set_option maxHeartbeats 4000000 in
lemma c4trace4 : ((csvTrace c4File.rows emptyDB).drop 40).take 10 = c4L4 := by decide

set_option maxRecDepth 100000 in
set_option maxHeartbeats 4000000 in
lemma c4trace5 : ((csvTrace c4File.rows emptyDB).drop 50).take 10 = c4L5 := by decide

set_option maxRecDepth 100000 in
set_option maxHeartbeats 4000000 in
lemma c4trace6 : ((csvTrace c4File.rows emptyDB).drop 60).take 10 = c4L6 := by decide

set_option maxRecDepth 100000 in
set_option maxHeartbeats 4000000 in
lemma c4trace7 : ((csvTrace c4File.rows emptyDB).drop 70).take 10 = c4L7 := by decide

set_option maxRecDepth 100000 in
set_option maxHeartbeats 4000000 in
lemma c4trace8 : ((csvTrace c4File.rows emptyDB).drop 80).take 10 = c4L8 := by decide

set_option maxRecDepth 100000 in
set_option maxHeartbeats 4000000 in
lemma c4trace9 : (csvTrace c4File.rows emptyDB).drop 90 = c4L9 := by decide

set_option maxRecDepth 100000 in
set_option maxHeartbeats 4000000 in
/-- Witness for C4 at a concrete 100-row CSV file and a concrete 100-row
spreadsheet file, each with one bad row. -/
theorem claim_C4_witness :
    c4File.rows.length = 100 ∧
    (badRows c4File.rows).length = 1 ∧
    (csvTrace c4File.rows emptyDB).Nodup ∧
    (ingest_csv_ing emptyDB c4File).1.tx_new = 99 ∧
    failedParse (ingest_csv_ing emptyDB c4File).2 = failedParse emptyDB + 1 ∧
    c4XFile.rows.length = 100 ∧
    (badXlsRows c4Caps c4Xld (resolveIdx c4XFile.headers) c4XFile.rows).length = 1 ∧
    (xlsTrace c4Caps c4Xld (resolveIdx c4XFile.headers) c4XFile.rows emptyDB).Nodup ∧
    (ingest_xls c4Caps c4Xld emptyDB c4XFile).1.tx_new = 99 ∧
    failedParse (ingest_xls c4Caps c4Xld emptyDB c4XFile).2 = failedParse emptyDB + 1 := by
  have h1 : c4File.rows.length = 100 := by decide
  have h2 : (badRows c4File.rows).length = 1 := by decide
  have d9 : (csvTrace c4File.rows emptyDB).drop 90 = c4L9 := c4trace9
  have d8 : (csvTrace c4File.rows emptyDB).drop 80 = c4L8 ++ c4L9 :=
    c4chunkStep c4trace8 d9
  have d7 : (csvTrace c4File.rows emptyDB).drop 70 = c4L7 ++ (c4L8 ++ c4L9) :=
    c4chunkStep c4trace7 d8
  have d6 : (csvTrace c4File.rows emptyDB).drop 60 = c4L6 ++ (c4L7 ++ (c4L8 ++ c4L9)) :=
    c4chunkStep c4trace6 d7
  have d5 : (csvTrace c4File.rows emptyDB).drop 50 = c4L5 ++ (c4L6 ++ (c4L7 ++ (c4L8 ++ c4L9))) :=
    c4chunkStep c4trace5 d6
  have d4 : (csvTrace c4File.rows emptyDB).drop 40 = c4L4 ++ (c4L5 ++ (c4L6 ++ (c4L7 ++ (c4L8 ++ c4L9)))) :=
    c4chunkStep c4trace4 d5
  have d3 : (csvTrace c4File.rows emptyDB).drop 30 = c4L3 ++ (c4L4 ++ (c4L5 ++ (c4L6 ++ (c4L7 ++ (c4L8 ++ c4L9))))) :=
    c4chunkStep c4trace3 d4
  have d2 : (csvTrace c4File.rows emptyDB).drop 20 = c4L2 ++ (c4L3 ++ (c4L4 ++ (c4L5 ++ (c4L6 ++ (c4L7 ++ (c4L8 ++ c4L9)))))) :=
    c4chunkStep c4trace2 d3
  have d1 : (csvTrace c4File.rows emptyDB).drop 10 = c4L1 ++ (c4L2 ++ (c4L3 ++ (c4L4 ++ (c4L5 ++ (c4L6 ++ (c4L7 ++ (c4L8 ++ c4L9))))))) :=
    c4chunkStep c4trace1 d2
  have hc0 : ((csvTrace c4File.rows emptyDB).drop 0).take 10 = c4L0 := by
    rw [List.drop_zero]
    exact c4trace0
  have d0 : (csvTrace c4File.rows emptyDB).drop 0 = c4L0 ++ (c4L1 ++ (c4L2 ++ (c4L3 ++ (c4L4 ++ (c4L5 ++ (c4L6 ++ (c4L7 ++ (c4L8 ++ c4L9)))))))) :=
    c4chunkStep hc0 d1
  have htr : csvTrace c4File.rows emptyDB = c4L0 ++ (c4L1 ++ (c4L2 ++ (c4L3 ++ (c4L4 ++ (c4L5 ++ (c4L6 ++ (c4L7 ++ (c4L8 ++ c4L9)))))))) := by
    rw [← List.drop_zero (csvTrace c4File.rows emptyDB)]
    exact d0
  have h3 : (csvTrace c4File.rows emptyDB).Nodup := by
    rw [htr]
    decide
  have h4 : ∀ x ∈ csvTrace c4File.rows emptyDB, x ∉ txnHashes emptyDB := by
    intro x _ hmem
    exact List.not_mem_nil x hmem
  have g1 : c4XFile.rows.length = 100 := by decide
  have g2 : (badXlsRows c4Caps c4Xld (resolveIdx c4XFile.headers)
      c4XFile.rows).length = 1 := by decide
  have hmatch : ∀ pr ∈ c4XFile.rows.zip c4File.rows,
      xlsRowMatches c4Caps c4Xld (resolveIdx c4XFile.headers) pr.1 pr.2 = true := by
    decide
  have hlen : c4XFile.rows.length = c4File.rows.length := by decide
  have gtr : xlsTrace c4Caps c4Xld (resolveIdx c4XFile.headers) c4XFile.rows emptyDB
      = csvTrace c4File.rows emptyDB :=
    xlsTrace_eq_csvTrace c4Caps c4Xld (resolveIdx c4XFile.headers)
      c4XFile.rows c4File.rows emptyDB hlen hmatch
  have g3 : (xlsTrace c4Caps c4Xld (resolveIdx c4XFile.headers)
      c4XFile.rows emptyDB).Nodup := by
    rw [gtr]
    exact h3
  have g4 : ∀ x ∈ xlsTrace c4Caps c4Xld (resolveIdx c4XFile.headers)
      c4XFile.rows emptyDB, x ∉ txnHashes emptyDB := by
    intro x _ hmem
    exact List.not_mem_nil x hmem
  have hcap : (if isXlsx c4XFile.path then c4Caps.openpyxl else c4Caps.xlrd)
      = true := by decide
  obtain ⟨⟨c1, c2, c3, c4⟩, x1, x2, x3, x4⟩ := claim_C4 emptyDB c4File h1 h2 h3 h4
    emptyDB c4Caps c4Xld c4XFile hcap g1 g2 g3 g4
  exact ⟨h1, h2, h3, c2, c4, g1, g2, g3, x2, x4⟩

/-! ## Claim C6: volatile-substring stripping

Character classes, a characterisation of the case-insensitive literal
matcher, and a suffix-based no-match framework for `subAll`. -/

/-- ASCII letters and digits (the characters allowed around a volatile
token in the C6 family). -/
def alnumChar (c : Char) : Bool :=
  pyDigit c || (65 ≤ c.toNat && c.toNat ≤ 90) || (97 ≤ c.toNat && c.toNat ≤ 122)

lemma pyDigit_iff (c : Char) : pyDigit c = true ↔ (48 ≤ c.toNat ∧ c.toNat ≤ 57) := by
  simp [pyDigit, Char.le_def, UInt32.le_def, BitVec.le_def, Char.toNat, UInt32.toNat]

lemma char_toNat_ofNat (n : ℕ) (h : n.isValidChar) : (Char.ofNat n).toNat = n := by
  rw [Char.ofNat, dif_pos h]
  rfl

lemma ne_char_of_toNat {c d : Char} (h : c.toNat ≠ d.toNat) : c ≠ d :=
  fun he => h (congrArg Char.toNat he)

lemma alnumChar_bounds {c : Char} (h : alnumChar c = true) :
    (48 ≤ c.toNat ∧ c.toNat ≤ 57) ∨ (65 ≤ c.toNat ∧ c.toNat ≤ 90) ∨
    (97 ≤ c.toNat ∧ c.toNat ≤ 122) := by
  rcases Bool.or_eq_true_iff.mp h with h' | h'
  · rcases Bool.or_eq_true_iff.mp h' with h2 | h2
    · exact Or.inl ((pyDigit_iff c).mp h2)
    · rcases Bool.and_eq_true_iff.mp h2 with ⟨h3, h4⟩
      exact Or.inr (Or.inl ⟨by simpa using h3, by simpa using h4⟩)
  · rcases Bool.and_eq_true_iff.mp h' with ⟨h3, h4⟩
    exact Or.inr (Or.inr ⟨by simpa using h3, by simpa using h4⟩)

lemma toLower_toNat_of_alnum {c : Char} (h : alnumChar c = true) :
    (97 ≤ c.toLower.toNat ∧ c.toLower.toNat ≤ 122) ∨
    (48 ≤ c.toLower.toNat ∧ c.toLower.toNat ≤ 57) := by
  rcases alnumChar_bounds h with hb | hb | hb
  · right
    unfold Char.toLower
    dsimp only
    rw [if_neg (by omega)]
    exact hb
  · left
    unfold Char.toLower
    dsimp only
    rw [if_pos (by omega)]
    rw [char_toNat_ofNat _ (Or.inl (by omega))]
    omega
  · left
    unfold Char.toLower
    dsimp only
    rw [if_neg (by omega)]
    exact hb

lemma alnum_toLower_ne_colon {c : Char} (h : alnumChar c = true) :
    c.toLower ≠ ':' := by
  rcases toLower_toNat_of_alnum h with hb | hb <;>
    exact ne_char_of_toNat (show c.toLower.toNat ≠ 58 by omega)

lemma alnum_toLower_ne_space {c : Char} (h : alnumChar c = true) :
    c.toLower ≠ ' ' := by
  rcases toLower_toNat_of_alnum h with hb | hb <;>
    exact ne_char_of_toNat (show c.toLower.toNat ≠ 32 by omega)

lemma alnum_not_space {c : Char} (h : alnumChar c = true) : pySpace c = false := by
  rcases alnumChar_bounds h with hb | hb | hb <;>
  · simp only [pySpace, Bool.or_eq_false_iff, decide_eq_false_iff_not]
    refine ⟨⟨⟨⟨⟨⟨?_, ?_⟩, ?_⟩, ?_⟩, ?_⟩, ?_⟩, ?_⟩ <;>
      exact ne_char_of_toNat (by first
        | exact show c.toNat ≠ 32 by omega
        | exact show c.toNat ≠ 9 by omega
        | exact show c.toNat ≠ 10 by omega
        | exact show c.toNat ≠ 13 by omega
        | exact show c.toNat ≠ 11 by omega
        | exact show c.toNat ≠ 12 by omega
        | exact show c.toNat ≠ 160 by omega)

lemma digit_alnum {c : Char} (h : pyDigit c = true) : alnumChar c = true := by
  simp [alnumChar, h]

lemma digit_toLower {c : Char} (h : pyDigit c = true) : c.toLower = c := by
  rw [pyDigit_iff] at h
  unfold Char.toLower
  dsimp only
  rw [if_neg (by omega)]

lemma digit_toLower_ne {c ℓ : Char} (h : pyDigit c = true)
    (hℓ : 97 ≤ ℓ.toNat) : c.toLower ≠ ℓ := by
  rw [digit_toLower h]
  rw [pyDigit_iff] at h
  exact ne_char_of_toNat (by omega)

/-! ### Structure of `litCI` matches -/

lemma litCI_cons_some {ℓ : Char} {lt : List Char} {c : Char} {t : List Char}
    {n : ℕ} (h : litCI (ℓ :: lt) (c :: t) = some n) : c.toLower = ℓ := by
  by_contra hne
  simp [litCI, hne] at h

lemma litCI_cons_none {ℓ : Char} (lt : List Char) {c : Char} (t : List Char)
    (h : c.toLower ≠ ℓ) : litCI (ℓ :: lt) (c :: t) = none := by
  simp [litCI, h]

lemma litCI_nil_right {ℓ : Char} (lt : List Char) {n : ℕ} :
    litCI (ℓ :: lt) [] ≠ some n := by
  intro h
  simp [litCI] at h

/-- A successful case-insensitive literal match consumes the literal's
length, and the consumed prefix lowers to the literal. -/
lemma litCI_char (lit : List Char) : ∀ (t : List Char) (n : ℕ),
    litCI lit t = some n →
    n = lit.length ∧ lit.length ≤ t.length ∧
      (t.take lit.length).map Char.toLower = lit := by
  induction lit with
  | nil =>
    intro t n h
    simp only [litCI, Option.some.injEq] at h
    refine ⟨by simp; omega, by simp, by simp⟩
  | cons ℓ lt ih =>
    intro t n h
    cases t with
    | nil => exact absurd h (litCI_nil_right lt)
    | cons c ct =>
      have hc : c.toLower = ℓ := litCI_cons_some h
      rw [litCI, if_pos hc] at h
      cases hrec : litCI lt ct with
      | none =>
        rw [hrec, Option.map_none'] at h
        exact Option.noConfusion h
      | some m =>
        rw [hrec] at h
        simp only [Option.map_some', Option.some.injEq] at h
        obtain ⟨h1, h2, h3⟩ := ih ct m hrec
        refine ⟨?_, ?_, ?_⟩
        · simp only [List.length_cons]; omega
        · simp only [List.length_cons]; omega
        · simp only [List.length_cons, List.take_succ_cons, List.map_cons, h3, hc]

/-- A match over an append either fits in the left part, or exhausts it
and continues with a suffix of the literal on the right part. -/
lemma litCI_split (lit : List Char) : ∀ (z rest : List Char) (n : ℕ),
    litCI lit (z ++ rest) = some n →
    (lit.length ≤ z.length ∧ (z.take lit.length).map Char.toLower = lit) ∨
    (z.length < lit.length ∧ ∃ m, litCI (lit.drop z.length) rest = some m) := by
  induction lit with
  | nil =>
    intro z rest n _
    left
    simp
  | cons ℓ lt ih =>
    intro z rest n h
    cases z with
    | nil =>
      right
      exact ⟨by simp, n, h⟩
    | cons c zt =>
      have hc : c.toLower = ℓ := litCI_cons_some h
      rw [List.cons_append, litCI, if_pos hc] at h
      cases hrec : litCI lt (zt ++ rest) with
      | none => rw [hrec] at h; simp at h
      | some m =>
        rcases ih zt rest m hrec with ⟨h1, h2⟩ | ⟨h1, m', hm'⟩
        · left
          refine ⟨by simp only [List.length_cons]; omega, ?_⟩
          simp only [List.length_cons, List.take_succ_cons, List.map_cons, hc, h2]
        · right
          exact ⟨by simp only [List.length_cons]; omega, m', by simpa using hm'⟩

lemma mseq_none_left {f g : List Char → Option ℕ} {s : List Char}
    (h : f s = none) : mseq f g s = none := by
  rw [mseq, h]

/-! ### Suffix-based no-match framework for `subAll` -/

/-- The matcher fails on every suffix of `s` (so a scan never fires). -/
def failAll (p : List Char → Option ℕ) (s : List Char) : Prop :=
  ∀ t, t <:+ s → p t = none

lemma failAll_nil {p : List Char → Option ℕ} (h : p [] = none) : failAll p [] := by
  intro t ht
  rw [List.suffix_nil.mp ht]
  exact h

lemma failAll_cons {p : List Char → Option ℕ} {c : Char} {s : List Char}
    (hp : p (c :: s) = none) (h : failAll p s) : failAll p (c :: s) := by
  intro t ht
  rcases List.suffix_cons_iff.mp ht with ht' | ht'
  · rw [ht']; exact hp
  · exact h t ht'

lemma failAll_append_of {p : List Char → Option ℕ} {x y : List Char}
    (hz : ∀ z, z <:+ x → p (z ++ y) = none) (hy : failAll p y) :
    failAll p (x ++ y) := by
  induction x with
  | nil => simpa using hy
  | cons c xt ih =>
    rw [List.cons_append]
    refine failAll_cons ?_ (ih (fun z hzx => hz z (hzx.trans (List.suffix_cons c xt))))
    exact hz (c :: xt) (List.suffix_refl _)

/-- Suffixes of a digit block never match a matcher that rejects a leading
digit. -/
lemma failAll_digitBlock {p : List Char → Option ℕ}
    (hp : ∀ (c : Char) (t : List Char), pyDigit c = true → p (c :: t) = none)
    {ds : List Char} (hds : ∀ c ∈ ds, pyDigit c = true) {tail : List Char}
    (htail : failAll p tail) : failAll p (ds ++ tail) := by
  refine failAll_append_of ?_ htail
  intro z hzx
  cases z with
  | nil =>
    exact htail tail (List.suffix_refl _)
  | cons c zt =>
    exact hp c (zt ++ tail) (hds c (hzx.subset (List.mem_cons_self c zt)))

/-- A scan whose matcher fails at every suffix leaves the string alone. -/
lemma subAllF_of_failAll {p : List Char → Option ℕ} :
    ∀ (s : List Char) (fuel : ℕ), s.length ≤ fuel → failAll p s →
    subAllF p fuel s = s := by
  intro s
  induction s with
  | nil => intro fuel _ _; cases fuel <;> rfl
  | cons c t ih =>
    intro fuel hf hfail
    cases fuel with
    | zero => simp at hf
    | succ f =>
      have hc : p (c :: t) = none := hfail (c :: t) (List.suffix_refl _)
      show (match p (c :: t) with
        | some (n + 1) => subAllF p f ((c :: t).drop (n + 1))
        | _ => c :: subAllF p f t) = c :: t
      rw [hc]
      have : subAllF p f t = t :=
        ih f (by simpa using hf) (fun u hu => hfail u (hu.trans (List.suffix_cons c t)))
      rw [this]

lemma subAll_of_failAll {p : List Char → Option ℕ} {s : List Char}
    (h : failAll p s) : subAll p s = s :=
  subAllF_of_failAll s s.length (le_refl _) h

/-- The scan walks over a region without matches, keeping it verbatim. -/
lemma subAllF_skip {p : List Char → Option ℕ} :
    ∀ (x : List Char) (f : ℕ) (rest : List Char),
    (∀ z, z <:+ x → z ≠ [] → p (z ++ rest) = none) →
    subAllF p (x.length + f) (x ++ rest) = x ++ subAllF p f rest := by
  intro x
  induction x with
  | nil => intro f rest _; simp
  | cons c t ih =>
    intro f rest h
    have hlen : (c :: t).length + f = (t.length + f) + 1 := by
      simp only [List.length_cons]; omega
    rw [hlen, List.cons_append]
    have hc : p (c :: (t ++ rest)) = none := by
      have := h (c :: t) (List.suffix_refl _) (by simp)
      simpa using this
    show (match p (c :: (t ++ rest)) with
      | some (n + 1) => subAllF p (t.length + f) ((c :: (t ++ rest)).drop (n + 1))
      | _ => c :: subAllF p (t.length + f) (t ++ rest))
      = c :: (t ++ subAllF p f rest)
    rw [hc]
    have := ih f rest (fun z hz hne => h z (hz.trans (List.suffix_cons c t)) hne)
    rw [this]

/-- The scan fires on an exact non-empty match and resumes after it. -/
lemma subAllF_match {p : List Char → Option ℕ} {m : List Char}
    (rest : List Char) (f : ℕ) (hm : m ≠ [])
    (hp : p (m ++ rest) = some m.length) :
    subAllF p (f + 1) (m ++ rest) = subAllF p f rest := by
  cases m with
  | nil => exact absurd rfl hm
  | cons c mt =>
    rw [List.cons_append]
    have hp' : p (c :: (mt ++ rest)) = some (mt.length + 1) := by
      rw [← List.cons_append, hp]
      simp
    show (match p (c :: (mt ++ rest)) with
      | some (n + 1) => subAllF p f ((c :: (mt ++ rest)).drop (n + 1))
      | _ => c :: subAllF p f (mt ++ rest)) = subAllF p f rest
    rw [hp']
    show subAllF p f ((c :: (mt ++ rest)).drop (mt.length + 1)) = subAllF p f rest
    have hdrop : (c :: (mt ++ rest)).drop (mt.length + 1) = rest := by
      simp only [List.drop_succ_cons]
      exact List.drop_left mt rest
    rw [hdrop]

/-- A scan that cannot fire before or after one exact match deletes exactly
that match. -/
lemma subAll_seek_match {p : List Char → Option ℕ} (x m y : List Char)
    (hm : m ≠ [])
    (hx : ∀ z, z <:+ x → z ≠ [] → p (z ++ (m ++ y)) = none)
    (hmatch : p (m ++ y) = some m.length)
    (hy : failAll p y) :
    subAll p (x ++ (m ++ y)) = x ++ y := by
  unfold subAll
  have hlen : (x ++ (m ++ y)).length = x.length + (m ++ y).length := by
    simp
  rw [hlen, subAllF_skip x ((m ++ y)).length (m ++ y) hx]
  have hml : 1 ≤ m.length := by
    cases m with
    | nil => exact absurd rfl hm
    | cons _ _ => simp
  have hlen2 : (m ++ y).length = (m.length - 1 + y.length) + 1 := by
    simp only [List.length_append]
    omega
  rw [hlen2, subAllF_match y _ hm hmatch]
  rw [subAllF_of_failAll y _ (by omega) hy]
/-! ### Region refutations -/

/-- A literal that contains a colon but no space cannot match at any
suffix of an alphanumeric block, whether the block is followed by a space
or ends the text. -/
lemma litCI_colon_none (lit : List Char) (h1 : ':' ∈ lit) (h2 : ' ' ∉ lit)
    (z : List Char) (hz : ∀ c ∈ z, alnumChar c = true) (rest : List Char)
    (hrest : rest = [] ∨ ∃ r', rest = ' ' :: r') :
    litCI lit (z ++ rest) = none := by
  cases hof : litCI lit (z ++ rest) with
  | none => rfl
  | some n =>
    exfalso
    rcases litCI_split lit z rest n hof with ⟨hlen, hmap⟩ | ⟨hlen, m, hm⟩
    · obtain ⟨c, hcmem, hcl⟩ := List.exists_of_mem_map (hmap ▸ h1)
      exact alnum_toLower_ne_colon (hz c (List.mem_of_mem_take hcmem)) hcl
    · cases hdrop : lit.drop z.length with
      | nil =>
        have : lit.length ≤ z.length := by
          have := congrArg List.length hdrop
          simp only [List.length_drop, List.length_nil] at this
          omega
        omega
      | cons ℓ lt =>
        rw [hdrop] at hm
        rcases hrest with hre | ⟨r', hre⟩
        · rw [hre] at hm
          exact litCI_nil_right lt hm
        · rw [hre] at hm
          have hsp : (' ' : Char).toLower = ℓ := litCI_cons_some hm
          have : ℓ ∈ lit := by
            have : ℓ ∈ lit.drop z.length := by
              rw [hdrop]; exact List.mem_cons_self ℓ lt
            exact (List.drop_suffix z.length lit).subset this
          rw [show (' ' : Char).toLower = ' ' from rfl] at hsp
          rw [← hsp] at this
          exact h2 this

/-- `Apple Pay` cannot match at any suffix of an alphanumeric block when
every proper tail of the literal fails on what follows the block. -/
lemma litCI_ap_none (z : List Char) (hz : ∀ c ∈ z, alnumChar c = true)
    (rest : List Char)
    (h9 : ∀ k, k < 9 → litCI (List.drop k "apple pay".data) rest = none) :
    litCI "apple pay".data (z ++ rest) = none := by
  cases hof : litCI "apple pay".data (z ++ rest) with
  | none => rfl
  | some n =>
    exfalso
    rcases litCI_split "apple pay".data z rest n hof with ⟨hlen, hmap⟩ | ⟨hlen, m, hm⟩
    · have hsp : ' ' ∈ ("apple pay".data) := by decide
      obtain ⟨c, hcmem, hcl⟩ := List.exists_of_mem_map (hmap ▸ hsp)
      exact alnum_toLower_ne_space (hz c (List.mem_of_mem_take hcmem)) hcl
    · have hlt : z.length < 9 := by
        simpa using hlen
      rw [h9 z.length hlt] at hm
      exact Option.noConfusion hm

/-! ### `collapseWs` and `pystrip` on tidy text -/

/-- A non-space character is copied and resets the run flag. -/
lemma collapseWsAux_nospace_append (x : List Char)
    (hx : ∀ c ∈ x, pySpace c = false) (hne : x ≠ []) (fl : Bool) (y : List Char) :
    collapseWsAux fl (x ++ y) = x ++ collapseWsAux false y := by
  induction x generalizing fl with
  | nil => exact absurd rfl hne
  | cons c t ih =>
    have hc : pySpace c = false := hx c (List.mem_cons_self c t)
    rw [List.cons_append]
    show (if pySpace c then
        (if fl then collapseWsAux true (t ++ y)
         else ' ' :: collapseWsAux true (t ++ y))
      else c :: collapseWsAux false (t ++ y)) = c :: (t ++ collapseWsAux false y)
    rw [hc]
    simp only [Bool.false_eq_true, if_false]
    cases t with
    | nil => rfl
    | cons d u =>
      have := ih (fun e he => hx e (List.mem_cons_of_mem c he)) (by simp) false
      rw [this]

lemma collapseWsAux_space_cons (y : List Char) :
    collapseWsAux false (' ' :: y) = ' ' :: collapseWsAux true y := rfl

lemma collapseWsAux_space_swallow (y : List Char) :
    collapseWsAux true (' ' :: y) = collapseWsAux true y := rfl

lemma collapseWsAux_true_nospace_head (c : Char) (hc : pySpace c = false)
    (y : List Char) : collapseWsAux true (c :: y) = collapseWsAux false (c :: y) := by
  show (if pySpace c then _ else c :: collapseWsAux false y)
    = (if pySpace c then _ else c :: collapseWsAux false y)
  rw [hc]
  simp

/-- `pystrip` is the identity when neither end is whitespace. -/
lemma pystrip_eq_self {t : List Char}
    (h1 : ∀ c, t.head? = some c → pySpace c = false)
    (h2 : ∀ c, t.getLast? = some c → pySpace c = false) : pystrip t = t := by
  unfold pystrip
  have hd : t.dropWhile pySpace = t := by
    cases t with
    | nil => rfl
    | cons c u =>
      rw [List.dropWhile_cons, if_neg]
      rw [h1 c rfl]
      simp
  rw [hd]
  have hr : t.reverse.dropWhile pySpace = t.reverse := by
    cases hrev : t.reverse with
    | nil => rfl
    | cons c u =>
      rw [List.dropWhile_cons, if_neg]
      have : t.getLast? = some c := by
        rw [← List.head?_reverse, hrev]
        rfl
      rw [h2 c this]
      simp
  rw [hr, List.reverse_reverse]
/-! ### The volatile-token family of the C6 claim -/

/-- The volatile substrings `normalize_description` strips: an embedded
timestamp, a card-sequence number, a terminal identifier, the payment
network marker, and a transaction identifier. Digit payloads are carried
as explicit character lists. -/
inductive VolatileTok where
  | datumtijd (d m y hh mm ss : List Char)
  | pas (ds : List Char)
  | term (s : List Char)
  | ap
  | transactie (s : List Char)

/-- The source text of a volatile token. -/
def renderTok : VolatileTok → List Char
  | .datumtijd d m y hh mm ss =>
      "Datum/Tijd: ".data ++ d ++ "-".data ++ m ++ "-".data ++ y ++ " ".data
        ++ hh ++ ":".data ++ mm ++ ":".data ++ ss
  | .pas ds => "Pasvolgnr: ".data ++ ds
  | .term s => "Term: ".data ++ s
  | .ap => "Apple Pay".data
  | .transactie s => "Transactie: ".data ++ s

/-- Well-formedness: digit payloads (digit groups of the right widths for
the timestamp). -/
def wfTok : VolatileTok → Prop
  | .datumtijd d m y hh mm ss =>
      d.length = 2 ∧ (∀ c ∈ d, pyDigit c = true) ∧
      m.length = 2 ∧ (∀ c ∈ m, pyDigit c = true) ∧
      y.length = 4 ∧ (∀ c ∈ y, pyDigit c = true) ∧
      hh.length = 2 ∧ (∀ c ∈ hh, pyDigit c = true) ∧
      mm.length = 2 ∧ (∀ c ∈ mm, pyDigit c = true) ∧
      ss.length = 2 ∧ (∀ c ∈ ss, pyDigit c = true)
  | .pas ds => ds ≠ [] ∧ ∀ c ∈ ds, pyDigit c = true
  | .term s => s ≠ [] ∧ ∀ c ∈ s, pyDigit c = true
  | .ap => True
  | .transactie s => s ≠ [] ∧ ∀ c ∈ s, pyDigit c = true

/-! ### Matcher building blocks -/

lemma mseq_some {f g : List Char → Option ℕ} {s : List Char} {n m : ℕ}
    (hf : f s = some n) (hg : g (s.drop n) = some m) :
    mseq f g s = some (n + m) := by
  rw [mseq, hf]
  show Option.map (fun x => n + x) (g (s.drop n)) = some (n + m)
  rw [hg]
  rfl

lemma litCI_exact (lit' : List Char) : ∀ (lit rest : List Char),
    lit'.map Char.toLower = lit → litCI lit (lit' ++ rest) = some lit.length := by
  induction lit' with
  | nil =>
    intro lit rest h
    rw [← h]
    rfl
  | cons c t ih =>
    intro lit rest h
    rw [← h]
    simp only [List.map_cons, List.cons_append, List.length_cons]
    rw [litCI, if_pos rfl, ih (t.map Char.toLower) rest rfl]
    rfl

lemma litCS_exact (lit : List Char) : ∀ (rest : List Char),
    litCS lit (lit ++ rest) = some lit.length := by
  induction lit with
  | nil => intro rest; rfl
  | cons c t ih =>
    intro rest
    simp only [List.cons_append, List.length_cons]
    rw [litCS, if_pos rfl, ih rest]
    rfl

lemma wsStar_one {d : Char} (hd : pySpace d = false) (X : List Char) :
    wsStar (' ' :: d :: X) = some 1 := by
  unfold wsStar
  rw [List.takeWhile_cons, if_pos (by rfl), List.takeWhile_cons, if_neg (by simp [hd])]
  rfl

lemma takeWhile_digit_block (ds : List Char) (hds : ∀ c ∈ ds, pyDigit c = true)
    (b : List Char) :
    (ds ++ ' ' :: b).takeWhile pyDigit = ds := by
  induction ds with
  | nil =>
    rw [List.nil_append, List.takeWhile_cons, if_neg]
    rw [show pyDigit ' ' = false from rfl]
    simp
  | cons c t ih =>
    rw [List.cons_append, List.takeWhile_cons,
      if_pos (by simp [hds c (List.mem_cons_self c t)])]
    rw [ih (fun e he => hds e (List.mem_cons_of_mem c he))]

lemma digitsPlus_block (ds : List Char) (hne : ds ≠ [])
    (hds : ∀ c ∈ ds, pyDigit c = true) (b : List Char) :
    digitsPlus (ds ++ ' ' :: b) = some ds.length := by
  unfold digitsPlus
  rw [takeWhile_digit_block ds hds b]
  simp [hne]

lemma takeWhile_nonws_block (s : List Char) (hs : ∀ c ∈ s, pySpace c = false)
    (b : List Char) :
    (s ++ ' ' :: b).takeWhile (fun c => !pySpace c) = s := by
  induction s with
  | nil =>
    rw [List.nil_append, List.takeWhile_cons, if_neg]
    simp [show pySpace ' ' = true from rfl]
  | cons c t ih =>
    rw [List.cons_append, List.takeWhile_cons,
      if_pos (by simp [hs c (List.mem_cons_self c t)])]
    rw [ih (fun e he => hs e (List.mem_cons_of_mem c he))]

lemma nonWsPlus_block (s : List Char) (hne : s ≠ [])
    (hs : ∀ c ∈ s, pySpace c = false) (b : List Char) :
    nonWsPlus (s ++ ' ' :: b) = some s.length := by
  unfold nonWsPlus
  rw [takeWhile_nonws_block s hs b]
  simp [hne]

lemma digitsExact_block (k : ℕ) (d : List Char) (hd : d.length = k)
    (hdig : ∀ c ∈ d, pyDigit c = true) (rest : List Char) :
    digitsExact k (d ++ rest) = some k := by
  unfold digitsExact
  rw [List.take_left' hd, if_pos]
  exact ⟨hd, by simpa [List.all_eq_true] using hdig⟩
/-! ### Per-pattern refutation instances -/

lemma patDatumTijd_block_none (z : List Char) (hz : ∀ c ∈ z, alnumChar c = true)
    (rest : List Char) (hrest : rest = [] ∨ ∃ r', rest = ' ' :: r') :
    patDatumTijd (z ++ rest) = none :=
  mseq_none_left (litCI_colon_none "datum/tijd:".data (by decide) (by decide)
    z hz rest hrest)

lemma patPasvolgnr_block_none (z : List Char) (hz : ∀ c ∈ z, alnumChar c = true)
    (rest : List Char) (hrest : rest = [] ∨ ∃ r', rest = ' ' :: r') :
    patPasvolgnr (z ++ rest) = none :=
  mseq_none_left (litCI_colon_none "pasvolgnr:".data (by decide) (by decide)
    z hz rest hrest)

lemma patTerm_block_none (z : List Char) (hz : ∀ c ∈ z, alnumChar c = true)
    (rest : List Char) (hrest : rest = [] ∨ ∃ r', rest = ' ' :: r') :
    patTerm (z ++ rest) = none :=
  mseq_none_left (litCI_colon_none "term:".data (by decide) (by decide)
    z hz rest hrest)

lemma patTransactie_block_none (z : List Char) (hz : ∀ c ∈ z, alnumChar c = true)
    (rest : List Char) (hrest : rest = [] ∨ ∃ r', rest = ' ' :: r') :
    patTransactie (z ++ rest) = none :=
  mseq_none_left (litCI_colon_none "transactie:".data (by decide) (by decide)
    z hz rest hrest)

lemma patApplePay_block_none (z : List Char) (hz : ∀ c ∈ z, alnumChar c = true)
    (rest : List Char)
    (h9 : ∀ k, k < 9 → litCI (List.drop k "apple pay".data) rest = none) :
    patApplePay (z ++ rest) = none :=
  litCI_ap_none z hz rest h9

lemma patDatumTijd_digit_none (c : Char) (t : List Char) (h : pyDigit c = true) :
    patDatumTijd (c :: t) = none := by
  apply mseq_none_left
  have hd : "datum/tijd:".data = 'd' :: "atum/tijd:".data := rfl
  rw [hd]
  exact litCI_cons_none _ _ (digit_toLower_ne h (by decide))

lemma patPasvolgnr_digit_none (c : Char) (t : List Char) (h : pyDigit c = true) :
    patPasvolgnr (c :: t) = none := by
  apply mseq_none_left
  have hd : "pasvolgnr:".data = 'p' :: "asvolgnr:".data := rfl
  rw [hd]
  exact litCI_cons_none _ _ (digit_toLower_ne h (by decide))

lemma patTerm_digit_none (c : Char) (t : List Char) (h : pyDigit c = true) :
    patTerm (c :: t) = none := by
  apply mseq_none_left
  have hd : "term:".data = 't' :: "erm:".data := rfl
  rw [hd]
  exact litCI_cons_none _ _ (digit_toLower_ne h (by decide))

lemma patTransactie_digit_none (c : Char) (t : List Char) (h : pyDigit c = true) :
    patTransactie (c :: t) = none := by
  apply mseq_none_left
  have hd : "transactie:".data = 't' :: "ransactie:".data := rfl
  rw [hd]
  exact litCI_cons_none _ _ (digit_toLower_ne h (by decide))

lemma patApplePay_digit_none (c : Char) (t : List Char) (h : pyDigit c = true) :
    patApplePay (c :: t) = none := by
  have hd : "apple pay".data = 'a' :: "pple pay".data := rfl
  show litCI "apple pay".data (c :: t) = none
  rw [hd]
  exact litCI_cons_none _ _ (digit_toLower_ne h (by decide))

/-! ### The residual text after a removal is left alone by every pattern -/

/-- `subAll` is the identity on `a ++ "  " ++ b` for any matcher that
fails on alphanumeric blocks and on a leading space. -/
lemma subAll_T1_of {p : List Char → Option ℕ}
    (hblock : ∀ z, (∀ c ∈ z, alnumChar c = true) → ∀ rest,
      (rest = [] ∨ ∃ r', rest = ' ' :: r') → p (z ++ rest) = none)
    (hsp : ∀ X : List Char, p (' ' :: X) = none)
    (a b : List Char) (ha : ∀ c ∈ a, alnumChar c = true)
    (hb : ∀ c ∈ b, alnumChar c = true) :
    subAll p (a ++ ' ' :: ' ' :: b) = a ++ ' ' :: ' ' :: b := by
  apply subAll_of_failAll
  refine failAll_append_of ?_ ?_
  · intro z hzx
    exact hblock z (fun c hc => ha c (hzx.subset hc)) (' ' :: ' ' :: b)
      (Or.inr ⟨_, rfl⟩)
  · refine failAll_cons (hsp _) (failAll_cons (hsp _) ?_)
    intro t ht
    have := hblock t (fun c hc => hb c (ht.subset hc)) [] (Or.inl rfl)
    simpa using this

lemma subAll_T1_datumtijd (a b : List Char) (ha : ∀ c ∈ a, alnumChar c = true)
    (hb : ∀ c ∈ b, alnumChar c = true) :
    subAll patDatumTijd (a ++ ' ' :: ' ' :: b) = a ++ ' ' :: ' ' :: b :=
  subAll_T1_of patDatumTijd_block_none (fun _ => rfl) a b ha hb

lemma subAll_T1_pas (a b : List Char) (ha : ∀ c ∈ a, alnumChar c = true)
    (hb : ∀ c ∈ b, alnumChar c = true) :
    subAll patPasvolgnr (a ++ ' ' :: ' ' :: b) = a ++ ' ' :: ' ' :: b :=
  subAll_T1_of patPasvolgnr_block_none (fun _ => rfl) a b ha hb

lemma subAll_T1_term (a b : List Char) (ha : ∀ c ∈ a, alnumChar c = true)
    (hb : ∀ c ∈ b, alnumChar c = true) :
    subAll patTerm (a ++ ' ' :: ' ' :: b) = a ++ ' ' :: ' ' :: b :=
  subAll_T1_of patTerm_block_none (fun _ => rfl) a b ha hb

lemma subAll_T1_transactie (a b : List Char) (ha : ∀ c ∈ a, alnumChar c = true)
    (hb : ∀ c ∈ b, alnumChar c = true) :
    subAll patTransactie (a ++ ' ' :: ' ' :: b) = a ++ ' ' :: ' ' :: b :=
  subAll_T1_of patTransactie_block_none (fun _ => rfl) a b ha hb

lemma subAll_T1_ap (a b : List Char) (ha : ∀ c ∈ a, alnumChar c = true)
    (hb : ∀ c ∈ b, alnumChar c = true) :
    subAll patApplePay (a ++ ' ' :: ' ' :: b) = a ++ ' ' :: ' ' :: b := by
  apply subAll_of_failAll
  refine failAll_append_of ?_ ?_
  · intro z hzx
    refine patApplePay_block_none z (fun c hc => ha c (hzx.subset hc))
      (' ' :: ' ' :: b) ?_
    intro k hk
    interval_cases k <;> rfl
  · refine failAll_cons rfl (failAll_cons rfl ?_)
    intro t ht
    have := patApplePay_block_none t (fun c hc => hb c (ht.subset hc)) []
      (by intro k hk; interval_cases k <;> rfl)
    simpa using this
/-! ### Exact matches of each pattern on its own rendered token -/

lemma suffix_append_singleton {z x : List Char} {c : Char}
    (h : z <:+ x ++ [c]) (hne : z ≠ []) : ∃ w, w <:+ x ∧ z = w ++ [c] := by
  obtain ⟨u, hu⟩ := h
  rcases List.eq_nil_or_concat z with rfl | ⟨z', d, hz'⟩
  · exact absurd rfl hne
  · rw [hz'] at hu
    have hflat : (u ++ z') ++ [d] = x ++ [c] := by
      simpa [List.concat_eq_append, List.append_assoc] using hu
    obtain ⟨h1, h2⟩ := List.append_inj' hflat (by simp)
    have hd : d = c := by simpa using h2
    exact ⟨z', ⟨u, h1⟩, by rw [hz', List.concat_eq_append, hd]⟩

lemma patPasvolgnr_match (ds b : List Char) (hne : ds ≠ [])
    (hds : ∀ c ∈ ds, pyDigit c = true) :
    patPasvolgnr (("Pasvolgnr: ".data ++ ds) ++ ' ' :: b)
      = some ("Pasvolgnr: ".data ++ ds).length := by
  obtain ⟨d, ds', rfl⟩ : ∃ d ds', ds = d :: ds' := by
    cases ds with
    | nil => exact absurd rfl hne
    | cons d ds' => exact ⟨d, ds', rfl⟩
  have harr : ("Pasvolgnr: ".data ++ (d :: ds')) ++ ' ' :: b
      = "Pasvolgnr:".data ++ (' ' :: ((d :: ds') ++ ' ' :: b)) := by
    have e : "Pasvolgnr: ".data = "Pasvolgnr:".data ++ [' '] := rfl
    rw [e]
    simp [List.append_assoc]
  rw [harr]
  have h1 : litCI "pasvolgnr:".data
      ("Pasvolgnr:".data ++ (' ' :: ((d :: ds') ++ ' ' :: b))) = some 10 :=
    litCI_exact "Pasvolgnr:".data "pasvolgnr:".data _ (by decide)
  have h2 : wsStar (("Pasvolgnr:".data ++ (' ' :: ((d :: ds') ++ ' ' :: b))).drop 10)
      = some 1 := by
    rw [List.drop_left' (by rfl)]
    exact wsStar_one (alnum_not_space (digit_alnum
      (hds d (List.mem_cons_self d ds')))) _
  have h3 : digitsPlus ((("Pasvolgnr:".data ++
      (' ' :: ((d :: ds') ++ ' ' :: b))).drop 10).drop 1) = some (d :: ds').length := by
    rw [List.drop_left' (by rfl)]
    exact digitsPlus_block (d :: ds') (by simp) hds b
  have hch := mseq_some h1 (mseq_some h2 h3)
  rw [show patPasvolgnr = mseq (litCI "pasvolgnr:".data) (mseq wsStar digitsPlus)
    from rfl]
  rw [hch]
  congr 1
  simp [List.length_append]
  omega

lemma patTerm_match (s b : List Char) (hne : s ≠ [])
    (hs : ∀ c ∈ s, pyDigit c = true) :
    patTerm (("Term: ".data ++ s) ++ ' ' :: b)
      = some ("Term: ".data ++ s).length := by
  obtain ⟨d, s', rfl⟩ : ∃ d s', s = d :: s' := by
    cases s with
    | nil => exact absurd rfl hne
    | cons d s' => exact ⟨d, s', rfl⟩
  have harr : ("Term: ".data ++ (d :: s')) ++ ' ' :: b
      = "Term:".data ++ (' ' :: ((d :: s') ++ ' ' :: b)) := by
    have e : "Term: ".data = "Term:".data ++ [' '] := rfl
    rw [e]
    simp [List.append_assoc]
  rw [harr]
  have h1 : litCI "term:".data
      ("Term:".data ++ (' ' :: ((d :: s') ++ ' ' :: b))) = some 5 :=
    litCI_exact "Term:".data "term:".data _ (by decide)
  have h2 : wsStar (("Term:".data ++ (' ' :: ((d :: s') ++ ' ' :: b))).drop 5)
      = some 1 := by
    rw [List.drop_left' (by rfl)]
    exact wsStar_one (alnum_not_space (digit_alnum
      (hs d (List.mem_cons_self d s')))) _
  have h3 : nonWsPlus ((("Term:".data ++
      (' ' :: ((d :: s') ++ ' ' :: b))).drop 5).drop 1) = some (d :: s').length := by
    rw [List.drop_left' (by rfl)]
    exact nonWsPlus_block (d :: s') (by simp)
      (fun c hc => alnum_not_space (digit_alnum (hs c hc))) b
  have hch := mseq_some h1 (mseq_some h2 h3)
  rw [show patTerm = mseq (litCI "term:".data) (mseq wsStar nonWsPlus) from rfl]
  rw [hch]
  congr 1
  simp [List.length_append]
  omega

lemma patTransactie_match (s b : List Char) (hne : s ≠ [])
    (hs : ∀ c ∈ s, pyDigit c = true) :
    patTransactie (("Transactie: ".data ++ s) ++ ' ' :: b)
      = some ("Transactie: ".data ++ s).length := by
  obtain ⟨d, s', rfl⟩ : ∃ d s', s = d :: s' := by
    cases s with
    | nil => exact absurd rfl hne
    | cons d s' => exact ⟨d, s', rfl⟩
  have harr : ("Transactie: ".data ++ (d :: s')) ++ ' ' :: b
      = "Transactie:".data ++ (' ' :: ((d :: s') ++ ' ' :: b)) := by
    have e : "Transactie: ".data = "Transactie:".data ++ [' '] := rfl
    rw [e]
    simp [List.append_assoc]
  rw [harr]
  have h1 : litCI "transactie:".data
      ("Transactie:".data ++ (' ' :: ((d :: s') ++ ' ' :: b))) = some 11 :=
    litCI_exact "Transactie:".data "transactie:".data _ (by decide)
  have h2 : wsStar (("Transactie:".data ++
      (' ' :: ((d :: s') ++ ' ' :: b))).drop 11) = some 1 := by
    rw [List.drop_left' (by rfl)]
    exact wsStar_one (alnum_not_space (digit_alnum
      (hs d (List.mem_cons_self d s')))) _
  have h3 : nonWsPlus ((("Transactie:".data ++
      (' ' :: ((d :: s') ++ ' ' :: b))).drop 11).drop 1) = some (d :: s').length := by
    rw [List.drop_left' (by rfl)]
    exact nonWsPlus_block (d :: s') (by simp)
      (fun c hc => alnum_not_space (digit_alnum (hs c hc))) b
  have hch := mseq_some h1 (mseq_some h2 h3)
  rw [show patTransactie = mseq (litCI "transactie:".data) (mseq wsStar nonWsPlus)
    from rfl]
  rw [hch]
  congr 1
  simp [List.length_append]
  omega

lemma patApplePay_match (b : List Char) :
    patApplePay ("Apple Pay".data ++ ' ' :: b) = some ("Apple Pay".data).length := by
  show litCI "apple pay".data ("Apple Pay".data ++ ' ' :: b) = some _
  have := litCI_exact "Apple Pay".data "apple pay".data (' ' :: b) (by decide)
  rw [this]
  rfl
lemma patDatumTijd_match (d1 d2 m1 m2 y1 y2 y3 y4 hh1 hh2 mm1 mm2 ss1 ss2 : Char)
    (b : List Char)
    (hall : ∀ c ∈ [d1, d2, m1, m2, y1, y2, y3, y4, hh1, hh2, mm1, mm2, ss1, ss2],
      pyDigit c = true) :
    patDatumTijd (("Datum/Tijd: ".data ++ [d1, d2] ++ "-".data ++ [m1, m2]
        ++ "-".data ++ [y1, y2, y3, y4] ++ " ".data ++ [hh1, hh2] ++ ":".data
        ++ [mm1, mm2] ++ ":".data ++ [ss1, ss2]) ++ ' ' :: b) = some 31 := by
  have hd1 : pySpace d1 = false :=
    alnum_not_space (digit_alnum (hall d1 (by simp)))
  have hhh1 : pySpace hh1 = false :=
    alnum_not_space (digit_alnum (hall hh1 (by simp)))
  have h1 : litCI "datum/tijd:".data
      ("Datum/Tijd:".data ++ (' ' :: d1 :: d2 :: '-' :: m1 :: m2 :: '-' :: y1 :: y2 :: y3 :: y4 :: ' ' :: hh1 :: hh2 :: ':' :: mm1 :: mm2 :: ':' :: ss1 :: ss2 :: ' ' :: b)) = some 11 :=
    litCI_exact "Datum/Tijd:".data "datum/tijd:".data _ (by decide)
  have h2 : wsStar (' ' :: d1 :: d2 :: '-' :: m1 :: m2 :: '-' :: y1 :: y2 :: y3 :: y4 :: ' ' :: hh1 :: hh2 :: ':' :: mm1 :: mm2 :: ':' :: ss1 :: ss2 :: ' ' :: b) = some 1 := wsStar_one hd1 _
  have h3 : digitsExact 2 (d1 :: d2 :: '-' :: m1 :: m2 :: '-' :: y1 :: y2 :: y3 :: y4 :: ' ' :: hh1 :: hh2 :: ':' :: mm1 :: mm2 :: ':' :: ss1 :: ss2 :: ' ' :: b) = some 2 :=
    digitsExact_block 2 [d1, d2] rfl
      (by intro c hc
          simp only [List.mem_cons, List.not_mem_nil, or_false] at hc
          rcases hc with rfl | rfl <;> exact hall _ (by simp)) _
  have h4 : litCS "-".data ('-' :: m1 :: m2 :: '-' :: y1 :: y2 :: y3 :: y4 :: ' ' :: hh1 :: hh2 :: ':' :: mm1 :: mm2 :: ':' :: ss1 :: ss2 :: ' ' :: b) = some 1 := litCS_exact "-".data _
  have h5 : digitsExact 2 (m1 :: m2 :: '-' :: y1 :: y2 :: y3 :: y4 :: ' ' :: hh1 :: hh2 :: ':' :: mm1 :: mm2 :: ':' :: ss1 :: ss2 :: ' ' :: b) = some 2 :=
    digitsExact_block 2 [m1, m2] rfl
      (by intro c hc
          simp only [List.mem_cons, List.not_mem_nil, or_false] at hc
          rcases hc with rfl | rfl <;> exact hall _ (by simp)) _
  have h6 : litCS "-".data ('-' :: y1 :: y2 :: y3 :: y4 :: ' ' :: hh1 :: hh2 :: ':' :: mm1 :: mm2 :: ':' :: ss1 :: ss2 :: ' ' :: b) = some 1 := litCS_exact "-".data _
  have h7 : digitsExact 4 (y1 :: y2 :: y3 :: y4 :: ' ' :: hh1 :: hh2 :: ':' :: mm1 :: mm2 :: ':' :: ss1 :: ss2 :: ' ' :: b) = some 4 :=
    digitsExact_block 4 [y1, y2, y3, y4] rfl
      (by intro c hc
          simp only [List.mem_cons, List.not_mem_nil, or_false] at hc
          rcases hc with rfl | rfl | rfl | rfl <;> exact hall _ (by simp)) _
  have h8 : wsStar (' ' :: hh1 :: hh2 :: ':' :: mm1 :: mm2 :: ':' :: ss1 :: ss2 :: ' ' :: b) = some 1 := wsStar_one hhh1 _
  have h9 : digitsExact 2 (hh1 :: hh2 :: ':' :: mm1 :: mm2 :: ':' :: ss1 :: ss2 :: ' ' :: b) = some 2 :=
    digitsExact_block 2 [hh1, hh2] rfl
      (by intro c hc
          simp only [List.mem_cons, List.not_mem_nil, or_false] at hc
          rcases hc with rfl | rfl <;> exact hall _ (by simp)) _
  have h10 : litCS ":".data (':' :: mm1 :: mm2 :: ':' :: ss1 :: ss2 :: ' ' :: b) = some 1 := litCS_exact ":".data _
  have h11 : digitsExact 2 (mm1 :: mm2 :: ':' :: ss1 :: ss2 :: ' ' :: b) = some 2 :=
    digitsExact_block 2 [mm1, mm2] rfl
      (by intro c hc
          simp only [List.mem_cons, List.not_mem_nil, or_false] at hc
          rcases hc with rfl | rfl <;> exact hall _ (by simp)) _
  have h12 : litCS ":".data (':' :: ss1 :: ss2 :: ' ' :: b) = some 1 := litCS_exact ":".data _
  have h13 : digitsExact 2 (ss1 :: ss2 :: ' ' :: b) = some 2 :=
    digitsExact_block 2 [ss1, ss2] rfl
      (by intro c hc
          simp only [List.mem_cons, List.not_mem_nil, or_false] at hc
          rcases hc with rfl | rfl <;> exact hall _ (by simp)) _
  exact mseq_some h1 (mseq_some h2 (mseq_some h3 (mseq_some h4 (mseq_some h5
    (mseq_some h6 (mseq_some h7 (mseq_some h8 (mseq_some h9 (mseq_some h10
      (mseq_some h11 (mseq_some h12 h13)))))))))))
/-! ### `subAll` on the framed text: removal of the own token, no-ops
for the other patterns -/

/-- Skeleton: the scan deletes exactly the framed token. -/
lemma subAll_own_of {p : List Char → Option ℕ} (a R b : List Char)
    (hR : R ≠ []) (ha : ∀ c ∈ a, alnumChar c = true)
    (hblockx : ∀ w, (∀ c ∈ w, alnumChar c = true) →
      p (w ++ (' ' :: (R ++ ' ' :: b))) = none)
    (hmatch : p (R ++ ' ' :: b) = some R.length)
    (hsp : p (' ' :: b) = none)
    (hplain : failAll p b) :
    subAll p (a ++ ' ' :: (R ++ ' ' :: b)) = a ++ ' ' :: ' ' :: b := by
  have hshape : a ++ ' ' :: (R ++ ' ' :: b) = (a ++ [' ']) ++ (R ++ (' ' :: b)) := by
    simp
  have hres : a ++ ' ' :: ' ' :: b = (a ++ [' ']) ++ (' ' :: b) := by simp
  rw [hshape, hres]
  refine subAll_seek_match (a ++ [' ']) R (' ' :: b) hR ?_ hmatch
    (failAll_cons hsp hplain)
  intro z hz hzne
  obtain ⟨w, hw, rfl⟩ := suffix_append_singleton hz hzne
  have harr : (w ++ [' ']) ++ (R ++ (' ' :: b)) = w ++ (' ' :: (R ++ ' ' :: b)) := by
    simp
  rw [harr]
  exact hblockx w (fun c hc => ha c (hw.subset hc))

/-- Skeleton: a scan that cannot fire anywhere on the framed text. -/
lemma subAll_T0_of {p : List Char → Option ℕ} (a R b : List Char)
    (ha : ∀ c ∈ a, alnumChar c = true)
    (hblockx : ∀ w, (∀ c ∈ w, alnumChar c = true) →
      p (w ++ (' ' :: (R ++ ' ' :: b))) = none)
    (hspR : p (' ' :: (R ++ ' ' :: b)) = none)
    (hfailR : failAll p (R ++ ' ' :: b)) :
    subAll p (a ++ ' ' :: (R ++ ' ' :: b)) = a ++ ' ' :: (R ++ ' ' :: b) := by
  apply subAll_of_failAll
  refine failAll_append_of ?_ (failAll_cons hspR hfailR)
  intro z hzx
  exact hblockx z (fun c hc => ha c (hzx.subset hc))

/-- All suffixes of a plain alphanumeric block fail a colon pattern. -/
lemma failAll_plain_of_block {p : List Char → Option ℕ} {b : List Char}
    (hb : ∀ c ∈ b, alnumChar c = true)
    (hblock : ∀ z, (∀ c ∈ z, alnumChar c = true) → ∀ rest,
      (rest = [] ∨ ∃ r', rest = ' ' :: r') → p (z ++ rest) = none) :
    failAll p b := by
  intro t ht
  have := hblock t (fun c hc => hb c (ht.subset hc)) [] (Or.inl rfl)
  simpa using this

lemma failAll_plain_ap {b : List Char} (hb : ∀ c ∈ b, alnumChar c = true) :
    failAll patApplePay b := by
  intro t ht
  have := patApplePay_block_none t (fun c hc => hb c (ht.subset hc)) []
    (by intro k hk; interval_cases k <;> rfl)
  simpa using this
lemma subAll_noop_dt_pas (a : List Char) (ds : List Char) (hds2 : ∀ c ∈ ds, pyDigit c = true) (b : List Char)
    (ha : ∀ c ∈ a, alnumChar c = true) (hb : ∀ c ∈ b, alnumChar c = true) :
    subAll patDatumTijd (a ++ ' ' :: (("Pasvolgnr: ".data ++ ds) ++ ' ' :: b))
      = a ++ ' ' :: (("Pasvolgnr: ".data ++ ds) ++ ' ' :: b) := by
  refine subAll_T0_of a _ b ha ?_ rfl ?_
  · intro w hw
    exact patDatumTijd_block_none w hw _ (Or.inr ⟨_, rfl⟩)
  · exact failAll_cons rfl (failAll_cons rfl (failAll_cons rfl (failAll_cons rfl (failAll_cons rfl (failAll_cons rfl (failAll_cons rfl (failAll_cons rfl (failAll_cons rfl (failAll_cons rfl (failAll_cons rfl (failAll_digitBlock patDatumTijd_digit_none hds2
      (failAll_cons rfl (failAll_plain_of_block hb patDatumTijd_block_none)))))))))))))

lemma subAll_noop_dt_term (a : List Char) (s : List Char) (hds2 : ∀ c ∈ s, pyDigit c = true) (b : List Char)
    (ha : ∀ c ∈ a, alnumChar c = true) (hb : ∀ c ∈ b, alnumChar c = true) :
    subAll patDatumTijd (a ++ ' ' :: (("Term: ".data ++ s) ++ ' ' :: b))
      = a ++ ' ' :: (("Term: ".data ++ s) ++ ' ' :: b) := by
  refine subAll_T0_of a _ b ha ?_ rfl ?_
  · intro w hw
    exact patDatumTijd_block_none w hw _ (Or.inr ⟨_, rfl⟩)
  · exact failAll_cons rfl (failAll_cons rfl (failAll_cons rfl (failAll_cons rfl (failAll_cons rfl (failAll_cons rfl (failAll_digitBlock patDatumTijd_digit_none hds2
      (failAll_cons rfl (failAll_plain_of_block hb patDatumTijd_block_none))))))))

lemma subAll_noop_pas_term (a : List Char) (s : List Char) (hds2 : ∀ c ∈ s, pyDigit c = true) (b : List Char)
    (ha : ∀ c ∈ a, alnumChar c = true) (hb : ∀ c ∈ b, alnumChar c = true) :
    subAll patPasvolgnr (a ++ ' ' :: (("Term: ".data ++ s) ++ ' ' :: b))
      = a ++ ' ' :: (("Term: ".data ++ s) ++ ' ' :: b) := by
  refine subAll_T0_of a _ b ha ?_ rfl ?_
  · intro w hw
    exact patPasvolgnr_block_none w hw _ (Or.inr ⟨_, rfl⟩)
  · exact failAll_cons rfl (failAll_cons rfl (failAll_cons rfl (failAll_cons rfl (failAll_cons rfl (failAll_cons rfl (failAll_digitBlock patPasvolgnr_digit_none hds2
      (failAll_cons rfl (failAll_plain_of_block hb patPasvolgnr_block_none))))))))

lemma subAll_noop_dt_ap (a : List Char) (b : List Char)
    (ha : ∀ c ∈ a, alnumChar c = true) (hb : ∀ c ∈ b, alnumChar c = true) :
    subAll patDatumTijd (a ++ ' ' :: ("Apple Pay".data ++ ' ' :: b))
      = a ++ ' ' :: ("Apple Pay".data ++ ' ' :: b) := by
  refine subAll_T0_of a _ b ha ?_ rfl ?_
  · intro w hw
    exact patDatumTijd_block_none w hw _ (Or.inr ⟨_, rfl⟩)
  · exact failAll_cons rfl (failAll_cons rfl (failAll_cons rfl (failAll_cons rfl (failAll_cons rfl (failAll_cons rfl (failAll_cons rfl (failAll_cons rfl (failAll_cons rfl (failAll_cons rfl
      (failAll_plain_of_block hb patDatumTijd_block_none))))))))))

lemma subAll_noop_pas_ap (a : List Char) (b : List Char)
    (ha : ∀ c ∈ a, alnumChar c = true) (hb : ∀ c ∈ b, alnumChar c = true) :
    subAll patPasvolgnr (a ++ ' ' :: ("Apple Pay".data ++ ' ' :: b))
      = a ++ ' ' :: ("Apple Pay".data ++ ' ' :: b) := by
  refine subAll_T0_of a _ b ha ?_ rfl ?_
  · intro w hw
    exact patPasvolgnr_block_none w hw _ (Or.inr ⟨_, rfl⟩)
  · exact failAll_cons rfl (failAll_cons rfl (failAll_cons rfl (failAll_cons rfl (failAll_cons rfl (failAll_cons rfl (failAll_cons rfl (failAll_cons rfl (failAll_cons rfl (failAll_cons rfl
      (failAll_plain_of_block hb patPasvolgnr_block_none))))))))))

lemma subAll_noop_term_ap (a : List Char) (b : List Char)
    (ha : ∀ c ∈ a, alnumChar c = true) (hb : ∀ c ∈ b, alnumChar c = true) :
    subAll patTerm (a ++ ' ' :: ("Apple Pay".data ++ ' ' :: b))
      = a ++ ' ' :: ("Apple Pay".data ++ ' ' :: b) := by
  refine subAll_T0_of a _ b ha ?_ rfl ?_
  · intro w hw
    exact patTerm_block_none w hw _ (Or.inr ⟨_, rfl⟩)
  · exact failAll_cons rfl (failAll_cons rfl (failAll_cons rfl (failAll_cons rfl (failAll_cons rfl (failAll_cons rfl (failAll_cons rfl (failAll_cons rfl (failAll_cons rfl (failAll_cons rfl
      (failAll_plain_of_block hb patTerm_block_none))))))))))

lemma subAll_noop_dt_tr (a : List Char) (s : List Char) (hds2 : ∀ c ∈ s, pyDigit c = true) (b : List Char)
    (ha : ∀ c ∈ a, alnumChar c = true) (hb : ∀ c ∈ b, alnumChar c = true) :
    subAll patDatumTijd (a ++ ' ' :: (("Transactie: ".data ++ s) ++ ' ' :: b))
      = a ++ ' ' :: (("Transactie: ".data ++ s) ++ ' ' :: b) := by
  refine subAll_T0_of a _ b ha ?_ rfl ?_
  · intro w hw
    exact patDatumTijd_block_none w hw _ (Or.inr ⟨_, rfl⟩)
  · exact failAll_cons rfl (failAll_cons rfl (failAll_cons rfl (failAll_cons rfl (failAll_cons rfl (failAll_cons rfl (failAll_cons rfl (failAll_cons rfl (failAll_cons rfl (failAll_cons rfl (failAll_cons rfl (failAll_cons rfl (failAll_digitBlock patDatumTijd_digit_none hds2
      (failAll_cons rfl (failAll_plain_of_block hb patDatumTijd_block_none))))))))))))))

lemma subAll_noop_pas_tr (a : List Char) (s : List Char) (hds2 : ∀ c ∈ s, pyDigit c = true) (b : List Char)
    (ha : ∀ c ∈ a, alnumChar c = true) (hb : ∀ c ∈ b, alnumChar c = true) :
    subAll patPasvolgnr (a ++ ' ' :: (("Transactie: ".data ++ s) ++ ' ' :: b))
      = a ++ ' ' :: (("Transactie: ".data ++ s) ++ ' ' :: b) := by
  refine subAll_T0_of a _ b ha ?_ rfl ?_
  · intro w hw
    exact patPasvolgnr_block_none w hw _ (Or.inr ⟨_, rfl⟩)
  · exact failAll_cons rfl (failAll_cons rfl (failAll_cons rfl (failAll_cons rfl (failAll_cons rfl (failAll_cons rfl (failAll_cons rfl (failAll_cons rfl (failAll_cons rfl (failAll_cons rfl (failAll_cons rfl (failAll_cons rfl (failAll_digitBlock patPasvolgnr_digit_none hds2
      (failAll_cons rfl (failAll_plain_of_block hb patPasvolgnr_block_none))))))))))))))

lemma subAll_noop_term_tr (a : List Char) (s : List Char) (hds2 : ∀ c ∈ s, pyDigit c = true) (b : List Char)
    (ha : ∀ c ∈ a, alnumChar c = true) (hb : ∀ c ∈ b, alnumChar c = true) :
    subAll patTerm (a ++ ' ' :: (("Transactie: ".data ++ s) ++ ' ' :: b))
      = a ++ ' ' :: (("Transactie: ".data ++ s) ++ ' ' :: b) := by
  refine subAll_T0_of a _ b ha ?_ rfl ?_
  · intro w hw
    exact patTerm_block_none w hw _ (Or.inr ⟨_, rfl⟩)
  · exact failAll_cons rfl (failAll_cons rfl (failAll_cons rfl (failAll_cons rfl (failAll_cons rfl (failAll_cons rfl (failAll_cons rfl (failAll_cons rfl (failAll_cons rfl (failAll_cons rfl (failAll_cons rfl (failAll_cons rfl (failAll_digitBlock patTerm_digit_none hds2
      (failAll_cons rfl (failAll_plain_of_block hb patTerm_block_none))))))))))))))

lemma subAll_noop_ap_tr (a : List Char) (s : List Char)
    (hds2 : ∀ c ∈ s, pyDigit c = true) (b : List Char)
    (ha : ∀ c ∈ a, alnumChar c = true) (hb : ∀ c ∈ b, alnumChar c = true) :
    subAll patApplePay (a ++ ' ' :: (("Transactie: ".data ++ s) ++ ' ' :: b))
      = a ++ ' ' :: (("Transactie: ".data ++ s) ++ ' ' :: b) := by
  refine subAll_T0_of a _ b ha ?_ rfl ?_
  · intro w hw
    refine patApplePay_block_none w hw _ ?_
    intro k hk
    interval_cases k <;> rfl
  · exact failAll_cons rfl (failAll_cons rfl (failAll_cons rfl (failAll_cons rfl (failAll_cons rfl (failAll_cons rfl (failAll_cons rfl (failAll_cons rfl (failAll_cons rfl (failAll_cons rfl (failAll_cons rfl (failAll_cons rfl (failAll_digitBlock patApplePay_digit_none hds2
      (failAll_cons rfl (failAll_plain_ap hb))))))))))))))

lemma subAll_own_pas (a ds b : List Char)
    (ha : ∀ c ∈ a, alnumChar c = true) (hds1 : ds ≠ [])
    (hds2 : ∀ c ∈ ds, pyDigit c = true) (hb : ∀ c ∈ b, alnumChar c = true) :
    subAll patPasvolgnr (a ++ ' ' :: (("Pasvolgnr: ".data ++ ds) ++ ' ' :: b))
      = a ++ ' ' :: ' ' :: b := by
  refine subAll_own_of a _ b (by simp) ha ?_ ?_ rfl
    (failAll_plain_of_block hb patPasvolgnr_block_none)
  · intro w hw
    exact patPasvolgnr_block_none w hw _ (Or.inr ⟨_, rfl⟩)
  · exact patPasvolgnr_match ds b hds1 hds2

lemma subAll_own_term (a s b : List Char)
    (ha : ∀ c ∈ a, alnumChar c = true) (hds1 : s ≠ [])
    (hds2 : ∀ c ∈ s, pyDigit c = true) (hb : ∀ c ∈ b, alnumChar c = true) :
    subAll patTerm (a ++ ' ' :: (("Term: ".data ++ s) ++ ' ' :: b))
      = a ++ ' ' :: ' ' :: b := by
  refine subAll_own_of a _ b (by simp) ha ?_ ?_ rfl
    (failAll_plain_of_block hb patTerm_block_none)
  · intro w hw
    exact patTerm_block_none w hw _ (Or.inr ⟨_, rfl⟩)
  · exact patTerm_match s b hds1 hds2

lemma subAll_own_tr (a s b : List Char)
    (ha : ∀ c ∈ a, alnumChar c = true) (hds1 : s ≠ [])
    (hds2 : ∀ c ∈ s, pyDigit c = true) (hb : ∀ c ∈ b, alnumChar c = true) :
    subAll patTransactie (a ++ ' ' :: (("Transactie: ".data ++ s) ++ ' ' :: b))
      = a ++ ' ' :: ' ' :: b := by
  refine subAll_own_of a _ b (by simp) ha ?_ ?_ rfl
    (failAll_plain_of_block hb patTransactie_block_none)
  · intro w hw
    exact patTransactie_block_none w hw _ (Or.inr ⟨_, rfl⟩)
  · exact patTransactie_match s b hds1 hds2

lemma subAll_own_ap (a b : List Char)
    (ha : ∀ c ∈ a, alnumChar c = true) (hb : ∀ c ∈ b, alnumChar c = true) :
    subAll patApplePay (a ++ ' ' :: ("Apple Pay".data ++ ' ' :: b))
      = a ++ ' ' :: ' ' :: b := by
  refine subAll_own_of a _ b (by simp) ha ?_ ?_ rfl (failAll_plain_ap hb)
  · intro w hw
    refine patApplePay_block_none w hw _ ?_
    intro k hk
    interval_cases k <;> rfl
  · exact patApplePay_match b

lemma subAll_own_dt (a : List Char)
    (d1 d2 m1 m2 y1 y2 y3 y4 hh1 hh2 mm1 mm2 ss1 ss2 : Char) (b : List Char)
    (ha : ∀ c ∈ a, alnumChar c = true)
    (hall : ∀ c ∈ [d1, d2, m1, m2, y1, y2, y3, y4, hh1, hh2, mm1, mm2, ss1, ss2],
      pyDigit c = true)
    (hb : ∀ c ∈ b, alnumChar c = true) :
    subAll patDatumTijd (a ++ ' ' :: (("Datum/Tijd: ".data ++ [d1, d2]
        ++ "-".data ++ [m1, m2] ++ "-".data ++ [y1, y2, y3, y4] ++ " ".data
        ++ [hh1, hh2] ++ ":".data ++ [mm1, mm2] ++ ":".data ++ [ss1, ss2])
      ++ ' ' :: b)) = a ++ ' ' :: ' ' :: b := by
  refine subAll_own_of a _ b (by simp) ha ?_ ?_ rfl
    (failAll_plain_of_block hb patDatumTijd_block_none)
  · intro w hw
    exact patDatumTijd_block_none w hw _ (Or.inr ⟨_, rfl⟩)
  · have h := patDatumTijd_match d1 d2 m1 m2 y1 y2 y3 y4 hh1 hh2 mm1 mm2 ss1 ss2
      b hall
    have hl : ("Datum/Tijd: ".data ++ [d1, d2] ++ "-".data ++ [m1, m2]
        ++ "-".data ++ [y1, y2, y3, y4] ++ " ".data ++ [hh1, hh2] ++ ":".data
        ++ [mm1, mm2] ++ ":".data ++ [ss1, ss2]).length = 31 := rfl
    rw [hl]
    exact h
/-! ### Whitespace-collapse and strip are the identity on the framed text -/

lemma collapseWsAux_block (fl : Bool) (x y : List Char)
    (hx : ∀ c ∈ x, pySpace c = false) (hne : x ≠ []) :
    collapseWsAux fl (x ++ ' ' :: y) = x ++ ' ' :: collapseWsAux true y := by
  rw [collapseWsAux_nospace_append x hx hne fl, collapseWsAux_space_cons]

lemma collapseWsAux_last (fl : Bool) (x : List Char)
    (hx : ∀ c ∈ x, pySpace c = false) (hne : x ≠ []) :
    collapseWsAux fl x = x := by
  have h := collapseWsAux_nospace_append x hx hne fl []
  have h2 : collapseWsAux false [] = ([] : List Char) := rfl
  rw [List.append_nil, h2, List.append_nil] at h
  exact h

lemma pystrip_frame {a b : List Char} (mid : List Char) (ha1 : a ≠ [])
    (ha : ∀ c ∈ a, alnumChar c = true) (hb1 : b ≠ [])
    (hb : ∀ c ∈ b, alnumChar c = true) :
    pystrip (a ++ (mid ++ b)) = a ++ (mid ++ b) := by
  refine pystrip_eq_self ?_ ?_
  · intro c hc
    obtain ⟨a0, a', rfl⟩ : ∃ a0 a', a = a0 :: a' := by
      cases a with
      | nil => exact absurd rfl ha1
      | cons a0 a' => exact ⟨a0, a', rfl⟩
    rw [List.cons_append] at hc
    have : a0 = c := by simpa using hc
    rw [← this]
    exact alnum_not_space (ha a0 (List.mem_cons_self a0 a'))
  · intro c hc
    rw [show a ++ (mid ++ b) = (a ++ mid) ++ b from (List.append_assoc a mid b).symm,
      List.getLast?_append_of_ne_nil _ hb1] at hc
    have hcb : c ∈ b := List.mem_of_mem_getLast? (Option.mem_def.mpr hc)
    exact alnum_not_space (hb c hcb)

/-- The final cleanup: collapse the double space, strip nothing. -/
lemma final_collapse (a b : List Char) (ha1 : a ≠ [])
    (ha : ∀ c ∈ a, alnumChar c = true) (hb1 : b ≠ [])
    (hb : ∀ c ∈ b, alnumChar c = true) :
    pystrip (collapseWs (a ++ ' ' :: ' ' :: b)) = a ++ ' ' :: b := by
  have hcol : collapseWs (a ++ ' ' :: ' ' :: b) = a ++ ' ' :: b := by
    show collapseWsAux false (a ++ ' ' :: (' ' :: b)) = a ++ ' ' :: b
    rw [collapseWsAux_block false a (' ' :: b)
      (fun c hc => alnum_not_space (ha c hc)) ha1]
    rw [collapseWsAux_space_swallow]
    rw [collapseWsAux_last true b (fun c hc => alnum_not_space (hb c hc)) hb1]
  rw [hcol]
  exact pystrip_frame [' '] ha1 ha hb1 hb
theorem normdesc_pas (a ds b : List Char) (ha1 : a ≠ [])
    (ha : ∀ c ∈ a, alnumChar c = true) (hds1 : ds ≠ [])
    (hds2 : ∀ c ∈ ds, pyDigit c = true) (hb1 : b ≠ [])
    (hb : ∀ c ∈ b, alnumChar c = true) :
    normalize_description (a ++ ' ' :: (("Pasvolgnr: ".data ++ ds) ++ ' ' :: b)) = a ++ ' ' :: b := by
  have hnsa : ∀ c ∈ a, pySpace c = false := fun c hc => alnum_not_space (ha c hc)
  have hnsb : ∀ c ∈ b, pySpace c = false := fun c hc => alnum_not_space (hb c hc)
  have hnsd : ∀ c ∈ ds, pySpace c = false :=
    fun c hc => alnum_not_space (digit_alnum (hds2 c hc))
  have hstrip : pystrip (a ++ ' ' :: (("Pasvolgnr: ".data ++ ds) ++ ' ' :: b))
      = a ++ ' ' :: (("Pasvolgnr: ".data ++ ds) ++ ' ' :: b) := by
    have hT : a ++ ' ' :: (("Pasvolgnr: ".data ++ ds) ++ ' ' :: b)
        = a ++ ((' ' :: (("Pasvolgnr: ".data ++ ds) ++ [' '])) ++ b) := by simp
    rw [hT]
    exact pystrip_frame _ ha1 ha hb1 hb
  have hcol : collapseWs (a ++ ' ' :: (("Pasvolgnr: ".data ++ ds) ++ ' ' :: b))
      = a ++ ' ' :: (("Pasvolgnr: ".data ++ ds) ++ ' ' :: b) := by
    show collapseWsAux false
        (a ++ ' ' :: ("Pasvolgnr:".data ++ ' ' :: (ds ++ ' ' :: b)))
      = a ++ ' ' :: ("Pasvolgnr:".data ++ ' ' :: (ds ++ ' ' :: b))
    rw [collapseWsAux_block false a _ hnsa ha1,
      collapseWsAux_block true "Pasvolgnr:".data _ (by decide) (by decide),
      collapseWsAux_block true ds _ hnsd hds1,
      collapseWsAux_last true b hnsb hb1]
  show pystrip (collapseWs (volatilePatterns.foldl (fun acc p => subAll p acc)
    (normalize_text (a ++ ' ' :: (("Pasvolgnr: ".data ++ ds) ++ ' ' :: b))))) = a ++ ' ' :: b
  rw [show normalize_text (a ++ ' ' :: (("Pasvolgnr: ".data ++ ds) ++ ' ' :: b))
      = collapseWs (pystrip (a ++ ' ' :: (("Pasvolgnr: ".data ++ ds) ++ ' ' :: b))) from rfl, hstrip, hcol]
  show pystrip (collapseWs (subAll patTransactie (subAll patApplePay (subAll patTerm
    (subAll patPasvolgnr (subAll patDatumTijd
      (a ++ ' ' :: (("Pasvolgnr: ".data ++ ds) ++ ' ' :: b)))))))) = a ++ ' ' :: b
  rw [subAll_noop_dt_pas a ds hds2 b ha hb]
  rw [subAll_own_pas a ds b ha hds1 hds2 hb]
  rw [subAll_T1_term a b ha hb, subAll_T1_ap a b ha hb, subAll_T1_transactie a b ha hb]
  exact final_collapse a b ha1 ha hb1 hb

theorem normdesc_term (a s b : List Char) (ha1 : a ≠ [])
    (ha : ∀ c ∈ a, alnumChar c = true) (hds1 : s ≠ [])
    (hds2 : ∀ c ∈ s, pyDigit c = true) (hb1 : b ≠ [])
    (hb : ∀ c ∈ b, alnumChar c = true) :
    normalize_description (a ++ ' ' :: (("Term: ".data ++ s) ++ ' ' :: b)) = a ++ ' ' :: b := by
  have hnsa : ∀ c ∈ a, pySpace c = false := fun c hc => alnum_not_space (ha c hc)
  have hnsb : ∀ c ∈ b, pySpace c = false := fun c hc => alnum_not_space (hb c hc)
  have hnsd : ∀ c ∈ s, pySpace c = false :=
    fun c hc => alnum_not_space (digit_alnum (hds2 c hc))
  have hstrip : pystrip (a ++ ' ' :: (("Term: ".data ++ s) ++ ' ' :: b))
      = a ++ ' ' :: (("Term: ".data ++ s) ++ ' ' :: b) := by
    have hT : a ++ ' ' :: (("Term: ".data ++ s) ++ ' ' :: b)
        = a ++ ((' ' :: (("Term: ".data ++ s) ++ [' '])) ++ b) := by simp
    rw [hT]
    exact pystrip_frame _ ha1 ha hb1 hb
  have hcol : collapseWs (a ++ ' ' :: (("Term: ".data ++ s) ++ ' ' :: b))
      = a ++ ' ' :: (("Term: ".data ++ s) ++ ' ' :: b) := by
    show collapseWsAux false
        (a ++ ' ' :: ("Term:".data ++ ' ' :: (s ++ ' ' :: b)))
      = a ++ ' ' :: ("Term:".data ++ ' ' :: (s ++ ' ' :: b))
    rw [collapseWsAux_block false a _ hnsa ha1,
      collapseWsAux_block true "Term:".data _ (by decide) (by decide),
      collapseWsAux_block true s _ hnsd hds1,
      collapseWsAux_last true b hnsb hb1]
  show pystrip (collapseWs (volatilePatterns.foldl (fun acc p => subAll p acc)
    (normalize_text (a ++ ' ' :: (("Term: ".data ++ s) ++ ' ' :: b))))) = a ++ ' ' :: b
  rw [show normalize_text (a ++ ' ' :: (("Term: ".data ++ s) ++ ' ' :: b))
      = collapseWs (pystrip (a ++ ' ' :: (("Term: ".data ++ s) ++ ' ' :: b))) from rfl, hstrip, hcol]
  show pystrip (collapseWs (subAll patTransactie (subAll patApplePay (subAll patTerm
    (subAll patPasvolgnr (subAll patDatumTijd
      (a ++ ' ' :: (("Term: ".data ++ s) ++ ' ' :: b)))))))) = a ++ ' ' :: b
  rw [subAll_noop_dt_term a s hds2 b ha hb, subAll_noop_pas_term a s hds2 b ha hb]
  rw [subAll_own_term a s b ha hds1 hds2 hb]
  rw [subAll_T1_ap a b ha hb, subAll_T1_transactie a b ha hb]
  exact final_collapse a b ha1 ha hb1 hb

theorem normdesc_tr (a s b : List Char) (ha1 : a ≠ [])
    (ha : ∀ c ∈ a, alnumChar c = true) (hds1 : s ≠ [])
    (hds2 : ∀ c ∈ s, pyDigit c = true) (hb1 : b ≠ [])
    (hb : ∀ c ∈ b, alnumChar c = true) :
    normalize_description (a ++ ' ' :: (("Transactie: ".data ++ s) ++ ' ' :: b))
      = a ++ ' ' :: b := by
  have hnsa : ∀ c ∈ a, pySpace c = false := fun c hc => alnum_not_space (ha c hc)
  have hnsb : ∀ c ∈ b, pySpace c = false := fun c hc => alnum_not_space (hb c hc)
  have hnsd : ∀ c ∈ s, pySpace c = false :=
    fun c hc => alnum_not_space (digit_alnum (hds2 c hc))
  have hstrip : pystrip (a ++ ' ' :: (("Transactie: ".data ++ s) ++ ' ' :: b))
      = a ++ ' ' :: (("Transactie: ".data ++ s) ++ ' ' :: b) := by
    have hT : a ++ ' ' :: (("Transactie: ".data ++ s) ++ ' ' :: b)
        = a ++ ((' ' :: (("Transactie: ".data ++ s) ++ [' '])) ++ b) := by simp
    rw [hT]
    exact pystrip_frame _ ha1 ha hb1 hb
  have hcol : collapseWs (a ++ ' ' :: (("Transactie: ".data ++ s) ++ ' ' :: b))
      = a ++ ' ' :: (("Transactie: ".data ++ s) ++ ' ' :: b) := by
    show collapseWsAux false
        (a ++ ' ' :: ("Transactie:".data ++ ' ' :: (s ++ ' ' :: b)))
      = a ++ ' ' :: ("Transactie:".data ++ ' ' :: (s ++ ' ' :: b))
    rw [collapseWsAux_block false a _ hnsa ha1,
      collapseWsAux_block true "Transactie:".data _ (by decide) (by decide),
      collapseWsAux_block true s _ hnsd hds1,
      collapseWsAux_last true b hnsb hb1]
  show pystrip (collapseWs (volatilePatterns.foldl (fun acc p => subAll p acc)
    (normalize_text (a ++ ' ' :: (("Transactie: ".data ++ s) ++ ' ' :: b)))))
    = a ++ ' ' :: b
  rw [show normalize_text (a ++ ' ' :: (("Transactie: ".data ++ s) ++ ' ' :: b))
      = collapseWs (pystrip (a ++ ' ' :: (("Transactie: ".data ++ s) ++ ' ' :: b)))
    from rfl, hstrip, hcol]
  show pystrip (collapseWs (subAll patTransactie (subAll patApplePay (subAll patTerm
    (subAll patPasvolgnr (subAll patDatumTijd
      (a ++ ' ' :: (("Transactie: ".data ++ s) ++ ' ' :: b)))))))) = a ++ ' ' :: b
  rw [subAll_noop_dt_tr a s hds2 b ha hb, subAll_noop_pas_tr a s hds2 b ha hb,
    subAll_noop_term_tr a s hds2 b ha hb, subAll_noop_ap_tr a s hds2 b ha hb,
    subAll_own_tr a s b ha hds1 hds2 hb]
  exact final_collapse a b ha1 ha hb1 hb

theorem normdesc_ap (a b : List Char) (ha1 : a ≠ [])
    (ha : ∀ c ∈ a, alnumChar c = true) (hb1 : b ≠ [])
    (hb : ∀ c ∈ b, alnumChar c = true) :
    normalize_description (a ++ ' ' :: ("Apple Pay".data ++ ' ' :: b))
      = a ++ ' ' :: b := by
  have hnsa : ∀ c ∈ a, pySpace c = false := fun c hc => alnum_not_space (ha c hc)
  have hnsb : ∀ c ∈ b, pySpace c = false := fun c hc => alnum_not_space (hb c hc)
  have hstrip : pystrip (a ++ ' ' :: ("Apple Pay".data ++ ' ' :: b))
      = a ++ ' ' :: ("Apple Pay".data ++ ' ' :: b) := by
    have hT : a ++ ' ' :: ("Apple Pay".data ++ ' ' :: b)
        = a ++ ((' ' :: ("Apple Pay".data ++ [' '])) ++ b) := by simp
    rw [hT]
    exact pystrip_frame _ ha1 ha hb1 hb
  have hcol : collapseWs (a ++ ' ' :: ("Apple Pay".data ++ ' ' :: b))
      = a ++ ' ' :: ("Apple Pay".data ++ ' ' :: b) := by
    show collapseWsAux false
        (a ++ ' ' :: ("Apple".data ++ ' ' :: ("Pay".data ++ ' ' :: b)))
      = a ++ ' ' :: ("Apple".data ++ ' ' :: ("Pay".data ++ ' ' :: b))
    rw [collapseWsAux_block false a _ hnsa ha1,
      collapseWsAux_block true "Apple".data _ (by decide) (by decide),
      collapseWsAux_block true "Pay".data _ (by decide) (by decide),
      collapseWsAux_last true b hnsb hb1]
  show pystrip (collapseWs (volatilePatterns.foldl (fun acc p => subAll p acc)
    (normalize_text (a ++ ' ' :: ("Apple Pay".data ++ ' ' :: b))))) = a ++ ' ' :: b
  rw [show normalize_text (a ++ ' ' :: ("Apple Pay".data ++ ' ' :: b))
      = collapseWs (pystrip (a ++ ' ' :: ("Apple Pay".data ++ ' ' :: b)))
    from rfl, hstrip, hcol]
  show pystrip (collapseWs (subAll patTransactie (subAll patApplePay (subAll patTerm
    (subAll patPasvolgnr (subAll patDatumTijd
      (a ++ ' ' :: ("Apple Pay".data ++ ' ' :: b)))))))) = a ++ ' ' :: b
  rw [subAll_noop_dt_ap a b ha hb, subAll_noop_pas_ap a b ha hb,
    subAll_noop_term_ap a b ha hb, subAll_own_ap a b ha hb,
    subAll_T1_transactie a b ha hb]
  exact final_collapse a b ha1 ha hb1 hb

set_option maxHeartbeats 1600000 in
theorem normdesc_dt (a : List Char)
    (d1 d2 m1 m2 y1 y2 y3 y4 hh1 hh2 mm1 mm2 ss1 ss2 : Char) (b : List Char)
    (ha1 : a ≠ []) (ha : ∀ c ∈ a, alnumChar c = true)
    (hall : ∀ c ∈ [d1, d2, m1, m2, y1, y2, y3, y4, hh1, hh2, mm1, mm2, ss1, ss2],
      pyDigit c = true)
    (hb1 : b ≠ []) (hb : ∀ c ∈ b, alnumChar c = true) :
    normalize_description (a ++ ' ' :: (("Datum/Tijd: ".data ++ [d1, d2]
        ++ "-".data ++ [m1, m2] ++ "-".data ++ [y1, y2, y3, y4] ++ " ".data
        ++ [hh1, hh2] ++ ":".data ++ [mm1, mm2] ++ ":".data ++ [ss1, ss2])
      ++ ' ' :: b)) = a ++ ' ' :: b := by
  have hnsa : ∀ c ∈ a, pySpace c = false := fun c hc => alnum_not_space (ha c hc)
  have hnsb : ∀ c ∈ b, pySpace c = false := fun c hc => alnum_not_space (hb c hc)
  have hns1 : ∀ c ∈ [d1, d2, '-', m1, m2, '-', y1, y2, y3, y4],
      pySpace c = false := by
    intro c hc
    simp only [List.mem_cons, List.not_mem_nil, or_false] at hc
    rcases hc with rfl | rfl | rfl | rfl | rfl | rfl | rfl | rfl | rfl | rfl <;>
      first
        | rfl
        | exact alnum_not_space (digit_alnum (hall _ (by simp)))
  have hns2 : ∀ c ∈ [hh1, hh2, ':', mm1, mm2, ':', ss1, ss2],
      pySpace c = false := by
    intro c hc
    simp only [List.mem_cons, List.not_mem_nil, or_false] at hc
    rcases hc with rfl | rfl | rfl | rfl | rfl | rfl | rfl | rfl <;>
      first
        | rfl
        | exact alnum_not_space (digit_alnum (hall _ (by simp)))
  have hstrip : pystrip (a ++ ' ' :: (("Datum/Tijd: ".data ++ [d1, d2]
        ++ "-".data ++ [m1, m2] ++ "-".data ++ [y1, y2, y3, y4] ++ " ".data
        ++ [hh1, hh2] ++ ":".data ++ [mm1, mm2] ++ ":".data ++ [ss1, ss2])
      ++ ' ' :: b))
      = a ++ ' ' :: (("Datum/Tijd: ".data ++ [d1, d2]
        ++ "-".data ++ [m1, m2] ++ "-".data ++ [y1, y2, y3, y4] ++ " ".data
        ++ [hh1, hh2] ++ ":".data ++ [mm1, mm2] ++ ":".data ++ [ss1, ss2])
      ++ ' ' :: b) := by
    have hT : a ++ ' ' :: (("Datum/Tijd: ".data ++ [d1, d2]
        ++ "-".data ++ [m1, m2] ++ "-".data ++ [y1, y2, y3, y4] ++ " ".data
        ++ [hh1, hh2] ++ ":".data ++ [mm1, mm2] ++ ":".data ++ [ss1, ss2])
      ++ ' ' :: b)
        = a ++ ((' ' :: (("Datum/Tijd: ".data ++ [d1, d2]
        ++ "-".data ++ [m1, m2] ++ "-".data ++ [y1, y2, y3, y4] ++ " ".data
        ++ [hh1, hh2] ++ ":".data ++ [mm1, mm2] ++ ":".data ++ [ss1, ss2])
        ++ [' '])) ++ b) := by simp
    rw [hT]
    exact pystrip_frame _ ha1 ha hb1 hb
  have hcol : collapseWs (a ++ ' ' :: (("Datum/Tijd: ".data ++ [d1, d2]
        ++ "-".data ++ [m1, m2] ++ "-".data ++ [y1, y2, y3, y4] ++ " ".data
        ++ [hh1, hh2] ++ ":".data ++ [mm1, mm2] ++ ":".data ++ [ss1, ss2])
      ++ ' ' :: b))
      = a ++ ' ' :: (("Datum/Tijd: ".data ++ [d1, d2]
        ++ "-".data ++ [m1, m2] ++ "-".data ++ [y1, y2, y3, y4] ++ " ".data
        ++ [hh1, hh2] ++ ":".data ++ [mm1, mm2] ++ ":".data ++ [ss1, ss2])
      ++ ' ' :: b) := by
    show collapseWsAux false
        (a ++ ' ' :: ("Datum/Tijd:".data ++ ' '
          :: ([d1, d2, '-', m1, m2, '-', y1, y2, y3, y4] ++ ' '
          :: ([hh1, hh2, ':', mm1, mm2, ':', ss1, ss2] ++ ' ' :: b))))
      = a ++ ' ' :: ("Datum/Tijd:".data ++ ' '
          :: ([d1, d2, '-', m1, m2, '-', y1, y2, y3, y4] ++ ' '
          :: ([hh1, hh2, ':', mm1, mm2, ':', ss1, ss2] ++ ' ' :: b)))
    rw [collapseWsAux_block false a _ hnsa ha1,
      collapseWsAux_block true "Datum/Tijd:".data _ (by decide) (by decide),
      collapseWsAux_block true [d1, d2, '-', m1, m2, '-', y1, y2, y3, y4] _
        hns1 (by simp),
      collapseWsAux_block true [hh1, hh2, ':', mm1, mm2, ':', ss1, ss2] _
        hns2 (by simp),
      collapseWsAux_last true b hnsb hb1]
  show pystrip (collapseWs (volatilePatterns.foldl (fun acc p => subAll p acc)
    (normalize_text (a ++ ' ' :: (("Datum/Tijd: ".data ++ [d1, d2]
        ++ "-".data ++ [m1, m2] ++ "-".data ++ [y1, y2, y3, y4] ++ " ".data
        ++ [hh1, hh2] ++ ":".data ++ [mm1, mm2] ++ ":".data ++ [ss1, ss2])
      ++ ' ' :: b))))) = a ++ ' ' :: b
  rw [show normalize_text (a ++ ' ' :: (("Datum/Tijd: ".data ++ [d1, d2]
        ++ "-".data ++ [m1, m2] ++ "-".data ++ [y1, y2, y3, y4] ++ " ".data
        ++ [hh1, hh2] ++ ":".data ++ [mm1, mm2] ++ ":".data ++ [ss1, ss2])
      ++ ' ' :: b))
      = collapseWs (pystrip (a ++ ' ' :: (("Datum/Tijd: ".data ++ [d1, d2]
        ++ "-".data ++ [m1, m2] ++ "-".data ++ [y1, y2, y3, y4] ++ " ".data
        ++ [hh1, hh2] ++ ":".data ++ [mm1, mm2] ++ ":".data ++ [ss1, ss2])
      ++ ' ' :: b))) from rfl, hstrip, hcol]
  show pystrip (collapseWs (subAll patTransactie (subAll patApplePay (subAll patTerm
    (subAll patPasvolgnr (subAll patDatumTijd
      (a ++ ' ' :: (("Datum/Tijd: ".data ++ [d1, d2]
        ++ "-".data ++ [m1, m2] ++ "-".data ++ [y1, y2, y3, y4] ++ " ".data
        ++ [hh1, hh2] ++ ":".data ++ [mm1, mm2] ++ ":".data ++ [ss1, ss2])
      ++ ' ' :: b)))))))) = a ++ ' ' :: b
  rw [subAll_own_dt a d1 d2 m1 m2 y1 y2 y3 y4 hh1 hh2 mm1 mm2 ss1 ss2 b ha hall hb,
    subAll_T1_pas a b ha hb, subAll_T1_term a b ha hb, subAll_T1_ap a b ha hb,
    subAll_T1_transactie a b ha hb]
  exact final_collapse a b ha1 ha hb1 hb
/-- Description normalization erases any well-formed volatile token from a
space-delimited frame of alphanumeric words, leaving the same residue
whatever the token was. -/
theorem normdesc_volatile (a b : List Char) (v : VolatileTok)
    (ha1 : a ≠ []) (ha : ∀ c ∈ a, alnumChar c = true)
    (hb1 : b ≠ []) (hb : ∀ c ∈ b, alnumChar c = true) (hv : wfTok v) :
    normalize_description (a ++ ' ' :: (renderTok v ++ ' ' :: b))
      = a ++ ' ' :: b := by
  cases v with
  | datumtijd d m y hh mm ss =>
    obtain ⟨hd, hdall, hm, hmall, hy, hyall, hhh, hhhall, hmm, hmmall, hss, hssall⟩
      := hv
    obtain ⟨d1, d2, rfl⟩ := List.length_eq_two.mp hd
    obtain ⟨m1, m2, rfl⟩ := List.length_eq_two.mp hm
    obtain ⟨y1, y2, y3, y4, rfl⟩ : ∃ p q r s', y = [p, q, r, s'] := by
      match y, hy with
      | [p, q, r, s'], _ => exact ⟨p, q, r, s', rfl⟩
    obtain ⟨hh1, hh2, rfl⟩ := List.length_eq_two.mp hhh
    obtain ⟨mm1, mm2, rfl⟩ := List.length_eq_two.mp hmm
    obtain ⟨ss1, ss2, rfl⟩ := List.length_eq_two.mp hss
    refine normdesc_dt a d1 d2 m1 m2 y1 y2 y3 y4 hh1 hh2 mm1 mm2 ss1 ss2 b
      ha1 ha ?_ hb1 hb
    intro c hc
    have hsplit : c ∈ [d1, d2] ∨ c ∈ [m1, m2] ∨ c ∈ [y1, y2, y3, y4] ∨
        c ∈ [hh1, hh2] ∨ c ∈ [mm1, mm2] ∨ c ∈ [ss1, ss2] := by
      simp only [List.mem_cons, List.not_mem_nil, or_false] at hc ⊢
      tauto
    rcases hsplit with h | h | h | h | h | h
    · exact hdall c h
    · exact hmall c h
    · exact hyall c h
    · exact hhhall c h
    · exact hmmall c h
    · exact hssall c h
  | pas ds => exact normdesc_pas a ds b ha1 ha hv.1 hv.2 hb1 hb
  | term s => exact normdesc_term a s b ha1 ha hv.1 hv.2 hb1 hb
  | ap => exact normdesc_ap a b ha1 ha hb1 hb
  | transactie s => exact normdesc_tr a s b ha1 ha hv.1 hv.2 hb1 hb

set_option maxRecDepth 100000 in
/-- Counterexample to C6 as stated: two descriptions that differ only in
volatile substrings (an `Apple Pay` marker vs a card-sequence token, each
a full match of its volatile pattern) normalize to DIFFERENT texts —
the patterns also swallow adjacent non-volatile digits differently — so
the fingerprints disagree even with every other canonical field equal. -/
theorem claim_C6_counterexample :
    patApplePay "Apple Pay".data = some 9 ∧
    patPasvolgnr "Pasvolgnr: 5".data = some 12 ∧
    normalize_description ("Koffie ".data ++ "Apple Pay".data ++ "5".data)
      ≠ normalize_description ("Koffie ".data ++ "Pasvolgnr: 5".data ++ "5".data) ∧
    compute_txn_hash
      { account_id := 1, booking_date := "2023-01-15".data, value_date := none,
        amount_cents := -500, currency := "EUR".data,
        debit_credit := "DEBIT".data,
        counterparty_iban_or_name := "NL01BANK0123456789".data,
        normalized_description :=
          normalize_description ("Koffie ".data ++ "Apple Pay".data ++ "5".data) }
      ≠ compute_txn_hash
      { account_id := 1, booking_date := "2023-01-15".data, value_date := none,
        amount_cents := -500, currency := "EUR".data,
        debit_credit := "DEBIT".data,
        counterparty_iban_or_name := "NL01BANK0123456789".data,
        normalized_description :=
          normalize_description ("Koffie ".data ++ "Pasvolgnr: 5".data ++ "5".data) } := by
  refine ⟨by decide, by decide, by decide, by decide⟩

/-- C6 amended: for volatile tokens delimited by spaces inside otherwise
alphanumeric text (digit payloads), normalization maps the two
descriptions to the same text, so the fingerprints agree whenever every
other canonical field matches. -/
theorem claim_C6_amended (a b : List Char) (v1 v2 : VolatileTok)
    (ha1 : a ≠ []) (ha : ∀ c ∈ a, alnumChar c = true)
    (hb1 : b ≠ []) (hb : ∀ c ∈ b, alnumChar c = true)
    (hv1 : wfTok v1) (hv2 : wfTok v2) :
    normalize_description (a ++ ' ' :: (renderTok v1 ++ ' ' :: b))
      = normalize_description (a ++ ' ' :: (renderTok v2 ++ ' ' :: b)) ∧
    ∀ inp : TxnHashInput,
      compute_txn_hash { inp with normalized_description := normalize_description (a ++ ' ' :: (renderTok v1 ++ ' ' :: b)) }
      = compute_txn_hash { inp with normalized_description := normalize_description (a ++ ' ' :: (renderTok v2 ++ ' ' :: b)) } := by
  have h1 := normdesc_volatile a b v1 ha1 ha hb1 hb hv1
  have h2 := normdesc_volatile a b v2 ha1 ha hb1 hb hv2
  refine ⟨h1.trans h2.symm, ?_⟩
  intro inp
  rw [h1, h2]

/-- Witness for C6 (amended): an `Apple Pay` marker and a card-sequence
token between the words `Koffie` and `thuis` normalize identically. -/
theorem claim_C6_witness :
    ("Koffie".data ≠ ([] : List Char)) ∧ wfTok (.pas "55".data) ∧
    normalize_description ("Koffie".data ++ ' ' ::
        (renderTok .ap ++ ' ' :: "thuis".data))
      = normalize_description ("Koffie".data ++ ' ' ::
        (renderTok (.pas "55".data) ++ ' ' :: "thuis".data)) := by
  obtain ⟨h1, h2⟩ := claim_C6_amended "Koffie".data "thuis".data .ap
    (.pas "55".data) (by decide) (by decide) (by decide) (by decide)
    trivial ⟨by decide, by decide⟩
  exact ⟨by decide, ⟨by decide, by decide⟩, h1⟩
end FinAgent
